import Mathlib

/-!
# Oracle database checks of the ercole data-service

A shallow embedding of `data-service/service/oracle_databases.go`:
the checks run on every ingested host snapshot (license inheritance of
standby databases, license type resolution, snapshot diff and alerting).
Of the API service it embeds `GetOraclePart` and the controllers `ArchiveHost`
and `SearchHosts`, as far as their writes to the response go.

Conventions of the embedding.

* Go slices are lists; a nil slice and a nil pointer are `none`.
* `float64` is kept abstract: the code only converts the core count, multiplies
  it by the core factor and tests `Count > 0`, so these three operations are
  fields of the environment and every result holds for any interpretation.
* Everything the code reaches outside the file (HTTP fetches, the alert
  client, functions of package `model` that are not part of the sources) is a
  field of `Env`.
* A run either returns or is aborted (a Go panic); both carry the state
  reached, so that frame properties can be stated for either outcome.
-/

namespace Ercole

/-! ## Data model -/

/-- One license line of a database (`model.OracleDatabaseLicense`). -/
structure OracleDatabaseLicense (F : Type) where
  LicenseTypeID : String
  Name : String
  Count : F
deriving DecidableEq, Repr

/-- One database of a host snapshot (`model.OracleDatabase`), restricted to the
fields read by the checks. -/
structure OracleDatabase (F : Type) where
  Name : String
  DbID : Nat
  Role : String
  Status : String
  Licenses : List (OracleDatabaseLicense F)
deriving DecidableEq, Repr

/-- Host facts (`model.Host`), restricted to the fields read by the checks. -/
structure Host where
  Hostname : String
  CPUCores : Int
deriving DecidableEq, Repr

/-- One entry of the license type catalog (`model.OracleDatabaseLicenseType`). -/
structure OracleDatabaseLicenseType where
  ID : String
  Metric : String
  Aliases : List String
deriving DecidableEq, Repr

/-- The Oracle database section of a snapshot; `Databases = none` is the nil slice. -/
structure OracleDatabaseFeature (F : Type) where
  Databases : Option (List (OracleDatabase F))
  UnlistedRunningDatabases : List String
deriving DecidableEq, Repr

/-- A host snapshot (`model.HostDataBE`); `Database = none` is the nil pointer
`Features.Oracle.Database`. -/
structure HostDataBE (F : Type) where
  Hostname : String
  Environment : String
  Info : Host
  Database : Option (OracleDatabaseFeature F)
deriving DecidableEq, Repr

/-- Modelled from the spec: the alert codes of section 6 (the constants
`model.AlertCode...` are not part of the sources). -/
inductive AlertCode where
  | MissingPrimaryDatabase
  | NewDatabaseDiscovered
  | NewEnterpriseLicenseRequired
  | ActivatedFeatures
  | UnlistedRunningDatabase
deriving DecidableEq, Repr

/-- An alert handed to the alert client: its code and the context carried in
`OtherInfo` (host name, database name, activated license names). Category,
severity, status, description and date are constant or clock data and are left
out. -/
structure Alert where
  Code : AlertCode
  hostname : String
  dbname : Option String
  licenses : List String
deriving DecidableEq, Repr

/-- Modelled from the spec: `model.OracleDatabaseStatusMounted`. -/
def OracleDatabaseStatusMounted : String := "MOUNTED"

/-- Modelled from the spec: `model.OracleDatabaseStatusOpen`. -/
def OracleDatabaseStatusOpen : String := "OPEN"

/-- Modelled from the spec: `model.OracleDatabaseRolePrimary`. -/
def OracleDatabaseRolePrimary : String := "PRIMARY"

/-! ## Environment and run state -/

/-- Everything the checks reach outside `oracle_databases.go`. -/
structure Env (F : Type) where
  /-- Conversion `float64(n)` of a core count. -/
  ofInt : Int → F
  /-- Multiplication of two `float64`. -/
  mul : F → F → F
  /-- The `float64` constant `0`. -/
  zero : F
  /-- Comparison `x > y` of two `float64`. -/
  gt : F → F → Bool
  /-- Method `OracleDatabase.CoreFactor(host)` of package `model`. -/
  CoreFactor : OracleDatabase F → Host → F
  /-- Function `model.HasEnterpriseLicense`. -/
  HasEnterpriseLicense : OracleDatabase F → Bool
  /-- Function `model.DiffLicenses`: the entries of the returned map, in the
  order in which a `range` over it visits them. -/
  DiffLicenses : List (OracleDatabaseLicense F) → List (OracleDatabaseLicense F) → List (String × Int)
  /-- Constant `model.DiffFeatureActivated`. -/
  DiffFeatureActivated : Int
  /-- Decoded body of the `n`-th request for the fleet database list; `none`
  when the request fails, the status is not 2xx or the body does not decode. -/
  httpDatabases : Nat → Option (List (OracleDatabase F))
  /-- Decoded body of the `n`-th request for the license type catalog, `none` on failure. -/
  httpLicenseTypes : Nat → Option (List OracleDatabaseLicenseType)
  /-- Whether `AlertSvcClient.ThrowNewAlert` returns an error, given the alerts
  submitted before and the alert submitted now. -/
  throwFails : List Alert → Alert → Bool
  /-- Configuration `LicenseTypeMetricsByEnvironment`: the priority list of an
  environment, `none` when the map has no such key. -/
  LicenseTypeMetricsByEnvironment : String → Option (List String)
  /-- Configuration `LicenseTypeMetricsDefault`. -/
  LicenseTypeMetricsDefault : List String
  /-- Library function `sort.Slice`, given the slice and the comparison of two of
  its elements. -/
  sortSlice : List OracleDatabaseLicenseType →
    (OracleDatabaseLicenseType → OracleDatabaseLicenseType → Bool) → List OracleDatabaseLicenseType
  /-- Order in which a `range` over a name-indexed database map visits its entries. -/
  rangeDbs : List (String × OracleDatabase F) → List (String × OracleDatabase F)

/-- The observable effects of a run so far. -/
structure World where
  /-- Alerts submitted to the alert client, oldest first (failed submissions included). -/
  alerts : List Alert
  /-- Number of requests for the fleet database list. -/
  dbFetches : Nat
  /-- Number of requests for the license type catalog. -/
  ltFetches : Nat
deriving DecidableEq, Repr

/-- Why a run was aborted. -/
inductive Abort where
  /-- Go run-time panic: nil pointer dereference. -/
  | nilPointerDereference
  /-- The step budget of a loop of the embedding ran out. -/
  | fuelExhausted
deriving DecidableEq, Repr

/-- Outcome of a run: it returned in state `s`, or it was aborted in state `s`. -/
inductive Exec (σ : Type) where
  | ok (s : σ)
  | abort (why : Abort) (s : σ)
deriving DecidableEq, Repr

/-- `AlertSvcClient.ThrowNewAlert`: records the alert; the boolean is `err != nil`. -/
def ThrowNewAlert {F : Type} (env : Env F) (alert : Alert) (w : World) : Bool × World :=
  (env.throwFails w.alerts alert, { w with alerts := w.alerts ++ [alert] })

/-! ## Fleet listing: `getPrimaryOpenOracleDatabases` -/

/-- `removeFromDBs(s, i)`: overwrite position `i` with the last element, drop
the last position. The bound `i < len(s)` is what Go checks at run time. -/
def removeFromDBs {α : Type} (s : List α) (i : Nat) (h : i < s.length) : List α :=
  (s.set i (s.getLast (List.ne_nil_of_length_pos (by omega)))).dropLast

/-- Loop condition of the filter: `db.Role == PRIMARY && db.Status == OPEN`. -/
def isPrimaryOpen {F : Type} (db : OracleDatabase F) : Bool :=
  db.Role == OracleDatabaseRolePrimary && db.Status == OracleDatabaseStatusOpen

/-- The loop `for i := 0; i < len(dbs); ...` of `getPrimaryOpenOracleDatabases`,
started at index `i`, with a step budget; `none` when the budget runs out before
the loop condition fails. -/
def filterLoop {α : Type} (keep : α → Bool) : Nat → List α → Nat → Option (List α)
  | 0, dbs, i => if i < dbs.length then none else some dbs
  | fuel + 1, dbs, i =>
    if h : i < dbs.length then
      if keep (dbs.get ⟨i, h⟩) then filterLoop keep fuel dbs (i + 1)
      else filterLoop keep fuel (removeFromDBs dbs i h) i
    else some dbs

/-- `getPrimaryOpenOracleDatabases`: one request; `none` in the result is the
error return, `some dbs` the filtered list. The loop gets one step per element. -/
def getPrimaryOpenOracleDatabases {F : Type} (env : Env F) (w : World) :
    Exec (Option (List (OracleDatabase F)) × World) :=
  let w1 : World := { w with dbFetches := w.dbFetches + 1 }
  match env.httpDatabases w.dbFetches with
  | none => Exec.ok (none, w1)
  | some decoded =>
    match filterLoop isPrimaryOpen decoded.length decoded 0 with
    | some dbs => Exec.ok (some dbs, w1)
    | none => Exec.abort Abort.fuelExhausted (none, w1)

/-! ## License inheritance: `addLicensesToSecondaryDb` -/

/-- The search loop for the primary: first element of `dbs` with the DbID and
Name of the secondary; `none` is the nil pointer left when the loop finds nothing. -/
def findPrimaryDb {F : Type} (dbs : List (OracleDatabase F)) (secondaryDb : OracleDatabase F) :
    Option (OracleDatabase F) :=
  dbs.find? (fun db => db.DbID == secondaryDb.DbID && db.Name == secondaryDb.Name)

/-- The inner loop over the secondary licenses: overwrite the count of the first
entry with the given name; `none` when the loop ends without a match. -/
def overwriteFirst {F : Type} (name : String) (count : F) :
    List (OracleDatabaseLicense F) → Option (List (OracleDatabaseLicense F))
  | [] => none
  | l :: ls =>
    if l.Name = name then some ({ l with Count := count } :: ls)
    else (overwriteFirst name count ls).map (fun ls1 => l :: ls1)

/-- One iteration of `primaryDbLicensesCycle` for one primary license. -/
def licenseStep {F : Type} (env : Env F) (count : F)
    (secondary : List (OracleDatabaseLicense F)) (primaryDbLicense : OracleDatabaseLicense F) :
    List (OracleDatabaseLicense F) :=
  if env.gt primaryDbLicense.Count env.zero then
    match overwriteFirst primaryDbLicense.Name count secondary with
    | some updated => updated
    | none =>
      secondary ++ [{ LicenseTypeID := primaryDbLicense.LicenseTypeID,
                      Name := primaryDbLicense.Name,
                      Count := count }]
  else secondary

/-- The labelled loop `primaryDbLicensesCycle` over the primary licenses. -/
def primaryDbLicensesCycle {F : Type} (env : Env F) (count : F)
    (primary secondary : List (OracleDatabaseLicense F)) : List (OracleDatabaseLicense F) :=
  primary.foldl (licenseStep env count) secondary

/-- The alert built when no primary is found. -/
def missingPrimaryAlert {F : Type} (hostInfo : Host) (secondaryDb : OracleDatabase F) : Alert :=
  { Code := AlertCode.MissingPrimaryDatabase,
    hostname := hostInfo.Hostname,
    dbname := some secondaryDb.Name,
    licenses := [] }

/-- The part of `addLicensesToSecondaryDb` after the fetch succeeded with `dbs`. -/
def addLicensesWith {F : Type} (env : Env F) (hostInfo : Host) (dbs : List (OracleDatabase F))
    (secondaryDb : OracleDatabase F) (w : World) : Exec (OracleDatabase F × World) :=
  match findPrimaryDb dbs secondaryDb with
  | none =>
    let r := ThrowNewAlert env (missingPrimaryAlert hostInfo secondaryDb) w
    if r.1 then Exec.ok (secondaryDb, r.2)
    else
      -- `primaryDb.Licenses` with `primaryDb == nil`
      Exec.abort Abort.nilPointerDereference (secondaryDb, r.2)
  | some primaryDb =>
    let coreFactor := env.CoreFactor secondaryDb hostInfo
    Exec.ok ({ secondaryDb with
                Licenses := primaryDbLicensesCycle env (env.mul (env.ofInt hostInfo.CPUCores) coreFactor)
                  primaryDb.Licenses secondaryDb.Licenses }, w)

/-- `addLicensesToSecondaryDb(hostInfo, secondaryDb)`: the database after the
call and the effects of the call. -/
def addLicensesToSecondaryDb {F : Type} (env : Env F) (hostInfo : Host)
    (secondaryDb : OracleDatabase F) (w : World) : Exec (OracleDatabase F × World) :=
  match getPrimaryOpenOracleDatabases env w with
  | Exec.abort why (_, w1) => Exec.abort why (secondaryDb, w1)
  | Exec.ok (none, w1) => Exec.ok (secondaryDb, w1)
  | Exec.ok (some dbs, w1) => addLicensesWith env hostInfo dbs secondaryDb w1

/-- `checkSecondaryDbs`: the loop over the databases of the snapshot, each
secondary one (MOUNTED and not PRIMARY) updated in place; an abort stops the loop. -/
def checkSecondaryDbs {F : Type} (env : Env F) (hostInfo : Host) :
    List (OracleDatabase F) → World → Exec (List (OracleDatabase F) × World)
  | [], w => Exec.ok ([], w)
  | db :: rest, w =>
    if db.Status == OracleDatabaseStatusMounted && db.Role != OracleDatabaseRolePrimary then
      match addLicensesToSecondaryDb env hostInfo db w with
      | Exec.abort why (db1, w1) => Exec.abort why (db1 :: rest, w1)
      | Exec.ok (db1, w1) =>
        match checkSecondaryDbs env hostInfo rest w1 with
        | Exec.abort why (rest1, w2) => Exec.abort why (db1 :: rest1, w2)
        | Exec.ok (rest1, w2) => Exec.ok (db1 :: rest1, w2)
    else
      match checkSecondaryDbs env hostInfo rest w with
      | Exec.abort why (rest1, w2) => Exec.abort why (db :: rest1, w2)
      | Exec.ok (rest1, w2) => Exec.ok (db :: rest1, w2)

/-! ## License type resolution -/

/-- The map `priorityMap` built by `licenseTypesSorter`: `priorityMap[p] = len - i`
for the entry `p` at index `i` (a later index overwrites an earlier one), and the
zero value for a missing key. -/
def priorityMap (orderOfPriority : List String) : String → Int :=
  orderOfPriority.enum.foldl
    (fun m ip => fun key => if key = ip.2 then (orderOfPriority.length : Int) - (ip.1 : Int) else m key)
    (fun _ => 0)

/-- `licenseTypesSorter(config, environment, licenseTypes)`: the comparison of
the elements at two indices; an index out of range has no element. -/
def licenseTypesSorter {F : Type} (env : Env F) (environment : String)
    (licenseTypes : List OracleDatabaseLicenseType) (i j : Nat) : Option Bool :=
  let orderOfPriority :=
    match env.LicenseTypeMetricsByEnvironment environment with
    | some order => order
    | none => env.LicenseTypeMetricsDefault
  match licenseTypes.get? i, licenseTypes.get? j with
  | some x, some y => some (decide (priorityMap orderOfPriority x.Metric ≥ priorityMap orderOfPriority y.Metric))
  | _, _ => none

/-- The comparison of `licenseTypesSorter` on two elements. -/
def licenseTypesLess {F : Type} (env : Env F) (environment : String)
    (x y : OracleDatabaseLicenseType) : Bool :=
  let orderOfPriority :=
    match env.LicenseTypeMetricsByEnvironment environment with
    | some order => order
    | none => env.LicenseTypeMetricsDefault
  decide (priorityMap orderOfPriority x.Metric ≥ priorityMap orderOfPriority y.Metric)

/-- `getOracleDatabaseLicenseTypes(environment)`: one request, then `sort.Slice`;
`none` is the error return. -/
def getOracleDatabaseLicenseTypes {F : Type} (env : Env F) (environment : String) (w : World) :
    Option (List OracleDatabaseLicenseType) × World :=
  let w1 : World := { w with ltFetches := w.ltFetches + 1 }
  match env.httpLicenseTypes w.ltFetches with
  | none => (none, w1)
  | some licenseTypes => (some (env.sortSlice licenseTypes (licenseTypesLess env environment)), w1)

/-- The two inner loops of `setLicenseTypeIDs` for one license name: the ID of
the first catalog entry (in catalog order) one of whose aliases is the name. -/
def findLicenseTypeID (licenseTypes : List OracleDatabaseLicenseType) (name : String) : Option String :=
  match licenseTypes with
  | [] => none
  | licenseType :: rest =>
    if licenseType.Aliases.any (fun al => al == name) then some licenseType.ID
    else findLicenseTypeID rest name

/-- The body of the loop `licenses` of `setLicenseTypeIDs` for one license. -/
def setLicenseTypeID {F : Type} (licenseTypes : List OracleDatabaseLicenseType)
    (license : OracleDatabaseLicense F) : OracleDatabaseLicense F :=
  match findLicenseTypeID licenseTypes license.Name with
  | some id => { license with LicenseTypeID := id }
  | none => license

/-- `setLicenseTypeIDs(licenseTypes, database)`. -/
def setLicenseTypeIDs {F : Type} (licenseTypes : List OracleDatabaseLicenseType)
    (database : OracleDatabase F) : OracleDatabase F :=
  { database with Licenses := database.Licenses.map (setLicenseTypeID licenseTypes) }

/-- `setLicenseTypes(hostdata)` on the databases of the snapshot: a failed fetch
is replaced by the empty catalog. -/
def setLicenseTypes {F : Type} (env : Env F) (environment : String)
    (databases : List (OracleDatabase F)) (w : World) : List (OracleDatabase F) × World :=
  let r := getOracleDatabaseLicenseTypes env environment w
  let licenseTypes := match r.1 with
    | some lts => lts
    | none => []
  (databases.map (setLicenseTypeIDs licenseTypes), r.2)

/-! ## Snapshot diff and alerts: `checkNewLicenses` -/

/-- Assignment `m[key] = value` on a Go map kept as a list of entries with
distinct keys. -/
def mapSet {V : Type} (m : List (String × V)) (key : String) (value : V) : List (String × V) :=
  match m with
  | [] => [(key, value)]
  | e :: rest => if e.1 = key then (key, value) :: rest else e :: mapSet rest key value

/-- Modelled from the spec: `model.DatabasesArrayAsMap`, the name-indexed mapping
of the databases of a snapshot (section 4.4); the function is not part of the
sources. Each database is stored under its name, a later one replacing an
earlier one of the same name. -/
def DatabasesArrayAsMap {F : Type} (dbs : List (OracleDatabase F)) : List (String × OracleDatabase F) :=
  dbs.foldl (fun m db => mapSet m db.Name db) []

/-- Modelled from the spec: `throwNewDatabaseAlert(dbname, hostname)` submits one
`NewDatabaseDiscovered` alert for the database; the method is not part of the sources. -/
def throwNewDatabaseAlert {F : Type} (env : Env F) (dbname hostname : String) (w : World) : Bool × World :=
  ThrowNewAlert env
    { Code := AlertCode.NewDatabaseDiscovered, hostname := hostname, dbname := some dbname, licenses := [] } w

/-- Modelled from the spec: `throwNewEnterpriseLicenseAlert(hostname)` submits one
`NewEnterpriseLicenseRequired` alert for the host; the method is not part of the sources. -/
def throwNewEnterpriseLicenseAlert {F : Type} (env : Env F) (hostname : String) (w : World) : Bool × World :=
  ThrowNewAlert env
    { Code := AlertCode.NewEnterpriseLicenseRequired, hostname := hostname, dbname := none, licenses := [] } w

/-- Modelled from the spec: `throwActivatedFeaturesAlert(dbname, hostname, licenses)`
submits one `ActivatedFeatures` alert listing the activated names; the method is
not part of the sources. -/
def throwActivatedFeaturesAlert {F : Type} (env : Env F) (dbname hostname : String)
    (activatedLicenses : List String) (w : World) : Bool × World :=
  ThrowNewAlert env
    { Code := AlertCode.ActivatedFeatures, hostname := hostname, dbname := some dbname,
      licenses := activatedLicenses } w

/-- Modelled from the spec: `throwUnlistedRunningDatabasesAlert(dbname, hostname)`
submits one `UnlistedRunningDatabase` alert for the name; the method is not part
of the sources. -/
def throwUnlistedRunningDatabasesAlert {F : Type} (env : Env F) (dbname hostname : String) (w : World) :
    Bool × World :=
  ThrowNewAlert env
    { Code := AlertCode.UnlistedRunningDatabase, hostname := hostname, dbname := some dbname, licenses := [] } w

/-- The database map of a snapshot as `checkNewLicenses` builds it: empty when
the Oracle database section or its database slice is nil. -/
def snapshotDbs {F : Type} (hostdata : HostDataBE F) : List (String × OracleDatabase F) :=
  match hostdata.Database with
  | none => []
  | some feature =>
    match feature.Databases with
    | none => []
    | some dbs => DatabasesArrayAsMap dbs

/-- The zero database `model.OracleDatabase` with an empty license slice. -/
def emptyOracleDatabase {F : Type} : OracleDatabase F :=
  { Name := "", DbID := 0, Role := "", Status := "", Licenses := [] }

/-- The database compared with `newDb`: its entry of the previous map, else the
zero database. -/
def oldDbOf {F : Type} (previousDbs : List (String × OracleDatabase F)) (newDb : OracleDatabase F) :
    OracleDatabase F :=
  match previousDbs.lookup newDb.Name with
  | some val => val
  | none => emptyOracleDatabase

/-- The condition of the Enterprise gate for one database, without the flag. -/
def enterpriseCondition {F : Type} (env : Env F) (previousCores newCores : Int)
    (oldDb newDb : OracleDatabase F) : Bool :=
  decide (previousCores < newCores) ||
    (!env.HasEnterpriseLicense oldDb && env.HasEnterpriseLicense newDb)

/-- The inner loop over the diff map: names whose value is `DiffFeatureActivated`
and that are none of the three editions. -/
def activatedLicensesOf {F : Type} (env : Env F) (oldDb newDb : OracleDatabase F) : List String :=
  ((env.DiffLicenses oldDb.Licenses newDb.Licenses).filter
    (fun e => e.2 == env.DiffFeatureActivated && e.1 != "Oracle ENT" && e.1 != "Oracle STD"
      && e.1 != "Oracle EXE")).map (fun e => e.1)

/-- One iteration of the loop over `newDbs`; the state is the flag
`newEnterpriseLicenseAlertThrown` and the effects so far. Errors of the alert
client are logged and otherwise ignored. -/
def checkNewLicensesStep {F : Type} (env : Env F) (previousDbs : List (String × OracleDatabase F))
    (previousCores newCores : Int) (newHostname : String)
    (st : Bool × World) (newDb : OracleDatabase F) : Bool × World :=
  let oldDb := oldDbOf previousDbs newDb
  let w1 := match previousDbs.lookup newDb.Name with
    | some _ => st.2
    | none => (throwNewDatabaseAlert env newDb.Name newHostname st.2).2
  let fire := enterpriseCondition env previousCores newCores oldDb newDb && !st.1
  let w2 := if fire then (throwNewEnterpriseLicenseAlert env newHostname w1).2 else w1
  let thrown := if fire then true else st.1
  let activatedLicenses := activatedLicensesOf env oldDb newDb
  let w3 := if activatedLicenses.length > 0 then
      (throwActivatedFeaturesAlert env newDb.Name newHostname activatedLicenses w2).2
    else w2
  (thrown, w3)

/-- The loop of `checkNewLicenses` over the databases visited, in that order. -/
def checkNewLicensesLoop {F : Type} (env : Env F) (previousDbs : List (String × OracleDatabase F))
    (previousCores newCores : Int) (newHostname : String)
    (visited : List (OracleDatabase F)) (w : World) : Bool × World :=
  visited.foldl (checkNewLicensesStep env previousDbs previousCores newCores newHostname) (false, w)

/-- `checkNewLicenses(previous, new)`: the effects of the call; the returned
error is always nil. -/
def checkNewLicenses {F : Type} (env : Env F) (previous new : HostDataBE F) (w : World) : World :=
  (checkNewLicensesLoop env (snapshotDbs previous) previous.Info.CPUCores new.Info.CPUCores
    new.Hostname ((env.rangeDbs (snapshotDbs new)).map (fun e => e.2)) w).2

/-! ## Entry point: `oracleDatabasesChecks` -/

/-- The final loop of `oracleDatabasesChecks` over the unlisted running databases. -/
def unlistedRunningLoop {F : Type} (env : Env F) (hostname : String) (names : List String) (w : World) :
    World :=
  names.foldl (fun w1 dbname => (throwUnlistedRunningDatabasesAlert env dbname hostname w1).2) w

/-- `oracleDatabasesChecks(previousHostdata, hostdata)`: the snapshot after the
call and the effects of the call. -/
def oracleDatabasesChecks {F : Type} (env : Env F) (previousHostdata hostdata : HostDataBE F)
    (w : World) : Exec (HostDataBE F × World) :=
  match hostdata.Database with
  | none => Exec.ok (hostdata, w)
  | some feature =>
    match feature.Databases with
    | none => Exec.ok (hostdata, w)
    | some dbs =>
      match checkSecondaryDbs env hostdata.Info dbs w with
      | Exec.abort why (dbs1, w1) =>
        Exec.abort why ({ hostdata with Database := some { feature with Databases := some dbs1 } }, w1)
      | Exec.ok (dbs1, w1) =>
        let r := setLicenseTypes env hostdata.Environment dbs1 w1
        let hostdata2 : HostDataBE F :=
          { hostdata with Database := some { feature with Databases := some r.1 } }
        let w3 := checkNewLicenses env previousHostdata hostdata2 r.2
        Exec.ok (hostdata2, unlistedRunningLoop env hostdata.Hostname feature.UnlistedRunningDatabases w3)

/-! ## Sample data used to evaluate the definitions -/

/-- An open primary `D1` (DbID 7) that lists one license name twice and one with count 0. -/
def samplePrimary : OracleDatabase Int :=
  { Name := "D1", DbID := 7, Role := "PRIMARY", Status := "OPEN",
    Licenses := [ { LicenseTypeID := "A90611", Name := "Oracle ENT", Count := 3 },
                  { LicenseTypeID := "A90649", Name := "Diagnostics Pack", Count := 0 },
                  { LicenseTypeID := "A90611", Name := "Oracle ENT", Count := 3 },
                  { LicenseTypeID := "A90650", Name := "Tuning Pack", Count := 2 } ] }

/-- An environment over integer counts: core factor 1, a fleet listing with the
open primary `D1` between two databases that are not open primaries, a failing
catalog request, an alert client that never fails. -/
def sampleEnv : Env Int :=
  { ofInt := fun n => n,
    mul := fun x y => x * y,
    zero := 0,
    gt := fun x y => decide (x > y),
    CoreFactor := fun _ _ => 1,
    HasEnterpriseLicense := fun db => db.Licenses.any (fun l => l.Name == "Oracle ENT" && decide (l.Count > 0)),
    DiffLicenses := fun _ news => (news.filter (fun l => decide (l.Count > 0))).map (fun l => (l.Name, 1)),
    DiffFeatureActivated := 1,
    httpDatabases := fun _ => some
      [ { Name := "D0", DbID := 5, Role := "PHYSICAL STANDBY", Status := "MOUNTED", Licenses := [] },
        samplePrimary,
        { Name := "D2", DbID := 9, Role := "PRIMARY", Status := "MOUNTED", Licenses := [] } ],
    httpLicenseTypes := fun _ => none,
    throwFails := fun _ _ => false,
    LicenseTypeMetricsByEnvironment := fun _ => none,
    LicenseTypeMetricsDefault := [],
    sortSlice := fun l _ => l,
    rangeDbs := fun m => m }

/-- The initial effects: nothing submitted, nothing fetched. -/
def World.init : World := { alerts := [], dbFetches := 0, ltFetches := 0 }

/-- The effects after one request for the fleet listing. -/
def World.fetched : World := { alerts := [], dbFetches := 1, ltFetches := 0 }

/-- A host with 8 cores. -/
def sampleHost : Host := { Hostname := "h1", CPUCores := 8 }

/-- A standby of `D1` carrying two license lines of its own. -/
def sampleStandby : OracleDatabase Int :=
  { Name := "D1", DbID := 7, Role := "PHYSICAL STANDBY", Status := "MOUNTED",
    Licenses := [ { LicenseTypeID := "", Name := "Diagnostics Pack", Count := 5 },
                  { LicenseTypeID := "", Name := "Tuning Pack", Count := 1 } ] }

/-- A standby whose primary is not in the fleet listing. -/
def orphanStandby : OracleDatabase Int :=
  { Name := "D3", DbID := 11, Role := "PHYSICAL STANDBY", Status := "MOUNTED", Licenses := [] }

/-- A catalog in which two entries carry the alias `Tuning Pack`. -/
def sampleCatalog : List OracleDatabaseLicenseType :=
  [ { ID := "A90611", Metric := "Processor Perpetual", Aliases := ["Oracle ENT"] },
    { ID := "A90650", Metric := "Processor Perpetual", Aliases := ["tuning pack", "Tuning Pack"] },
    { ID := "L10005", Metric := "Named User Plus Perpetual", Aliases := ["Tuning Pack"] } ]

/-- A snapshot with the orphan standby and one unlisted running database. -/
def orphanSnapshot : HostDataBE Int :=
  { Hostname := "h1", Environment := "PROD", Info := sampleHost,
    Database := some { Databases := some [orphanStandby], UnlistedRunningDatabases := ["X1"] } }

/-- A previous snapshot without Oracle database section, 4 cores. -/
def firstSnapshot : HostDataBE Int :=
  { Hostname := "h1", Environment := "PROD", Info := { Hostname := "h1", CPUCores := 4 },
    Database := none }

/-- A current snapshot with 8 cores whose database slice is empty (not nil). -/
def grownSnapshot : HostDataBE Int :=
  { Hostname := "h1", Environment := "PROD", Info := sampleHost,
    Database := some { Databases := some [], UnlistedRunningDatabases := [] } }

/-- A current snapshot with 8 cores and the databases `D1` (with Enterprise
license) and `D3`. -/
def enterpriseSnapshot : HostDataBE Int :=
  { Hostname := "h1", Environment := "PROD", Info := sampleHost,
    Database := some { Databases := some [samplePrimary, orphanStandby], UnlistedRunningDatabases := [] } }

/-- The effects after the orphan standby was checked with a working alert client. -/
def World.orphanAlerted : World :=
  { alerts := [missingPrimaryAlert sampleHost orphanStandby], dbFetches := 1, ltFetches := 0 }

/-! ## Notions used to state the properties -/

/-- Count of the first entry of a license list with the given name. -/
def firstCount {F : Type} (name : String) (ls : List (OracleDatabaseLicense F)) : Option F :=
  (ls.find? (fun l => l.Name == name)).map (fun l => l.Count)

/-- The inherited count `float64(hostInfo.CPUCores) * coreFactor`. -/
def inheritedCount {F : Type} (env : Env F) (hostInfo : Host) (secondaryDb : OracleDatabase F) : F :=
  env.mul (env.ofInt hostInfo.CPUCores) (env.CoreFactor secondaryDb hostInfo)

/-- Names of the primary licenses with `Count > 0`, in list order. -/
def positiveNames {F : Type} (env : Env F) (primary : List (OracleDatabaseLicense F)) : List String :=
  (primary.filter (fun l => env.gt l.Count env.zero)).map (fun l => l.Name)

/-- Names of a license list, in list order. -/
def licenseNames {F : Type} (ls : List (OracleDatabaseLicense F)) : List String :=
  ls.map (fun l => l.Name)

/-- The primary that `addLicensesToSecondaryDb` finds for the secondary: `none`
when the fetch fails or the list has no match. -/
def primaryOf {F : Type} (env : Env F) (secondaryDb : OracleDatabase F) (w : World) :
    Option (OracleDatabase F) :=
  match getPrimaryOpenOracleDatabases env w with
  | Exec.ok (some dbs, _) => findPrimaryDb dbs secondaryDb
  | _ => none

/-- Names of the positive licenses of the primary found, none without primary. -/
def inheritedNames {F : Type} (env : Env F) (secondaryDb : OracleDatabase F) (w : World) : List String :=
  match primaryOf env secondaryDb w with
  | some primaryDb => positiveNames env primaryDb.Licenses
  | none => []

/-- The state a run reached, whether it returned or was aborted. -/
def Exec.state {σ : Type} : Exec σ → σ
  | Exec.ok s => s
  | Exec.abort _ s => s

/-- Number of alerts with the given code. -/
def countCode (code : AlertCode) (alerts : List Alert) : Nat :=
  alerts.countP (fun a => a.Code == code)

/-- Alerts that one iteration of the loop of `checkNewLicenses` submits for
`newDb`, given the value of the flag at its start. -/
def stepAlerts {F : Type} (env : Env F) (previousDbs : List (String × OracleDatabase F))
    (previousCores newCores : Int) (newHostname : String) (thrown : Bool)
    (newDb : OracleDatabase F) : List Alert :=
  (match previousDbs.lookup newDb.Name with
    | some _ => []
    | none => [{ Code := AlertCode.NewDatabaseDiscovered, hostname := newHostname,
                 dbname := some newDb.Name, licenses := [] }]) ++
  (if enterpriseCondition env previousCores newCores (oldDbOf previousDbs newDb) newDb && !thrown then
      [{ Code := AlertCode.NewEnterpriseLicenseRequired, hostname := newHostname,
         dbname := none, licenses := [] }]
    else []) ++
  (if (activatedLicensesOf env (oldDbOf previousDbs newDb) newDb).length > 0 then
      [{ Code := AlertCode.ActivatedFeatures, hostname := newHostname, dbname := some newDb.Name,
         licenses := activatedLicensesOf env (oldDbOf previousDbs newDb) newDb }]
    else [])

/-- Alerts that the loop of `checkNewLicenses` submits over the databases visited. -/
def loopAlerts {F : Type} (env : Env F) (previousDbs : List (String × OracleDatabase F))
    (previousCores newCores : Int) (newHostname : String) :
    Bool → List (OracleDatabase F) → List Alert
  | _, [] => []
  | thrown, newDb :: rest =>
    stepAlerts env previousDbs previousCores newCores newHostname thrown newDb ++
      loopAlerts env previousDbs previousCores newCores newHostname
        (thrown || enterpriseCondition env previousCores newCores (oldDbOf previousDbs newDb) newDb) rest

/-- The databases that the loop of `checkNewLicenses` visits, in the order of the visit. -/
def visitedDbs {F : Type} (env : Env F) (new : HostDataBE F) : List (OracleDatabase F) :=
  (env.rangeDbs (snapshotDbs new)).map (fun e => e.2)

/-- The standby of `D1` after the license inheritance from the sample primary. -/
def inheritedStandby : OracleDatabase Int :=
  { Name := "D1", DbID := 7, Role := "PHYSICAL STANDBY", Status := "MOUNTED",
    Licenses := [ { LicenseTypeID := "", Name := "Diagnostics Pack", Count := 5 },
                  { LicenseTypeID := "", Name := "Tuning Pack", Count := 8 },
                  { LicenseTypeID := "A90611", Name := "Oracle ENT", Count := 8 } ] }

/-- A catalog whose only alias is `Tuning Pack`. -/
def tuningCatalog : List OracleDatabaseLicenseType :=
  [ { ID := "A90650", Metric := "Processor Perpetual", Aliases := ["Tuning Pack"] } ]

/-- The inherited `Oracle ENT` line of the standby, with the type ID of the primary. -/
def inheritedEnterprise : OracleDatabaseLicense Int :=
  { LicenseTypeID := "A90611", Name := "Oracle ENT", Count := 8 }

/-- The `Diagnostics Pack` line of the standby, without type ID. -/
def ownDiagnostics : OracleDatabaseLicense Int :=
  { LicenseTypeID := "", Name := "Diagnostics Pack", Count := 5 }

/-- The sample environment with a failing request for the fleet listing. -/
def offlineEnv : Env Int :=
  { sampleEnv with httpDatabases := fun _ => none }

/-- The priority list `orderOfPriority` chosen by `licenseTypesSorter`: the list
of the environment when the configuration map has the key, else the default list. -/
def orderOfPriorityOf {F : Type} (env : Env F) (environment : String) : List String :=
  match env.LicenseTypeMetricsByEnvironment environment with
  | some order => order
  | none => env.LicenseTypeMetricsDefault

/-- The sample environment with a default priority list that repeats a metric. -/
def repeatedEnv : Env Int :=
  { sampleEnv with
    LicenseTypeMetricsDefault :=
      ["Processor Perpetual", "Named User Plus Perpetual", "Processor Perpetual"] }

/-- The assignment `priorityMap[p] = len - i` of one loop iteration. -/
def priorityAssign (len : Int) (m : String → Int) (ip : Nat × String) : String → Int :=
  fun key => if key = ip.2 then len - (ip.1 : Int) else m key

/-- Inner loop of the insertion sort of Go's package `sort`
(`for j := i; j > a && less(j, j-1); j--` with a swap per step): the element `x`
moves towards the front while it is less than its predecessor. The sorted prefix
is given back to front. -/
def insertBack {α : Type} (less : α → α → Bool) (x : α) : List α → List α
  | [] => [x]
  | y :: front => if less x y then y :: insertBack less x front else x :: y :: front

/-- The insertion sort that `sort.Slice` of Go's package `sort` runs on a short
slice: the elements are inserted one after the other, from index 1 on. -/
def insertionSortLessFunc {α : Type} (less : α → α → Bool) (data : List α) : List α :=
  (data.foldl (fun sortedBack x => insertBack less x sortedBack) []).reverse

/-- A catalog entry with the metric `Named User Plus Perpetual`. -/
def namedUserFirst : OracleDatabaseLicenseType :=
  { ID := "L10005", Metric := "Named User Plus Perpetual", Aliases := ["Tuning Pack"] }

/-- A catalog entry with the metric `Processor Perpetual`. -/
def processorType : OracleDatabaseLicenseType :=
  { ID := "A90611", Metric := "Processor Perpetual", Aliases := ["Oracle ENT"] }

/-- A second catalog entry with the metric `Named User Plus Perpetual`. -/
def namedUserSecond : OracleDatabaseLicenseType :=
  { ID := "L10006", Metric := "Named User Plus Perpetual", Aliases := ["Diagnostics Pack"] }

/-- The sample environment with a catalog of three entries, two of them with the
same metric, a default priority list, and the insertion sort as `sort.Slice`. -/
def sortEnv : Env Int :=
  { sampleEnv with
    httpLicenseTypes := fun _ => some [namedUserFirst, processorType, namedUserSecond],
    LicenseTypeMetricsDefault := ["Processor Perpetual", "Named User Plus Perpetual"],
    sortSlice := fun data less => insertionSortLessFunc less data }

/-- Rank of a catalog entry: the priority of its metric in the chosen list. -/
def rankOf {F : Type} (env : Env F) (environment : String) (x : OracleDatabaseLicenseType) : Int :=
  priorityMap (orderOfPriorityOf env environment) x.Metric

/-- Names of the databases of a snapshot, in slice order; none when the Oracle
database section or its database slice is nil. -/
def snapshotNames {F : Type} (hostdata : HostDataBE F) : List String :=
  match hostdata.Database with
  | none => []
  | some feature =>
    match feature.Databases with
    | none => []
    | some dbs => dbs.map (fun db => db.Name)

/-- Keys of a map kept as a list of entries. -/
def mapKeys {V : Type} (m : List (String × V)) : List String :=
  m.map (fun e => e.1)

/-- Modelled from the spec: the three transitions of a license name between two
snapshots (section 4.4); `model.DiffLicenses` and its constants are not part of
the sources. -/
inductive Transition where
  | Activated
  | Deactivated
  | Unchanged
deriving DecidableEq, Repr

/-- Modelled from the spec: a license name is active in an entry set when its
count is greater than 0, and inactive when the count is 0 or the entry is absent
(section 3); for a name listed more than once the first entry counts. -/
def isActive {F : Type} (env : Env F) (ls : List (OracleDatabaseLicense F)) (name : String) : Bool :=
  match firstCount name ls with
  | some count => env.gt count env.zero
  | none => false

/-- Modelled from the spec: `Activated` if the previous count was 0 or absent and
the current count is greater than 0, `Deactivated` if the reverse, `Unchanged`
otherwise (section 4.4). -/
def transitionOf {F : Type} (env : Env F) (old new : List (OracleDatabaseLicense F))
    (name : String) : Transition :=
  if (!isActive env old name && isActive env new name) = true then Transition.Activated
  else if (isActive env old name && !isActive env new name) = true then Transition.Deactivated
  else Transition.Unchanged

/-- Modelled from the spec: `model.DiffLicenses`, which classifies every license
name appearing in either entry set (section 4.4); the function is not part of
the sources. -/
def DiffLicensesSpec {F : Type} (env : Env F) (old new : List (OracleDatabaseLicense F)) :
    List (String × Transition) :=
  ((licenseNames old ++ licenseNames new).dedup).map (fun name => (name, transitionOf env old new name))

/-- An integer for each transition, `1` for `Activated`. -/
def transitionCode : Transition → Int
  | Transition.Activated => 1
  | Transition.Deactivated => -1
  | Transition.Unchanged => 0

/-- The sample environment with the diff of the spec as `model.DiffLicenses`. -/
def specEnv : Env Int :=
  { sampleEnv with
    DiffLicenses := fun old new =>
      (DiffLicensesSpec sampleEnv old new).map (fun e => (e.1, transitionCode e.2)),
    DiffFeatureActivated := 1 }

/-- A previous snapshot with 8 cores and the database `D1` without active
`Tuning Pack` and with the edition inactive. -/
def previousSnapshot : HostDataBE Int :=
  { Hostname := "h1", Environment := "PROD", Info := sampleHost,
    Database := some {
      Databases := some [ { Name := "D1", DbID := 7, Role := "PRIMARY", Status := "OPEN",
                            Licenses := [ { LicenseTypeID := "A90611", Name := "Oracle ENT", Count := 0 },
                                          { LicenseTypeID := "A90649", Name := "Diagnostics Pack", Count := 0 } ] } ],
      UnlistedRunningDatabases := [] } }

/-- The `ActivatedFeatures` alert for `newDb` as `checkNewLicenses` builds it. -/
def activatedAlertOf {F : Type} (env : Env F) (previousDbs : List (String × OracleDatabase F))
    (newHostname : String) (newDb : OracleDatabase F) : Alert :=
  { Code := AlertCode.ActivatedFeatures, hostname := newHostname, dbname := some newDb.Name,
    licenses := activatedLicensesOf env (oldDbOf previousDbs newDb) newDb }

/-- The `UnlistedRunningDatabase` alert for one name. -/
def unlistedAlertOf (dbname hostname : String) : Alert :=
  { Code := AlertCode.UnlistedRunningDatabase, hostname := hostname, dbname := some dbname,
    licenses := [] }

/-- A snapshot whose database slice is nil while a database runs unlisted. -/
def nilDatabasesSnapshot : HostDataBE Int :=
  { Hostname := "h1", Environment := "PROD", Info := sampleHost,
    Database := some { Databases := none, UnlistedRunningDatabases := ["X1"] } }

/-- The sample environment with an alert client that fails on every submission. -/
def refusingEnv : Env Int :=
  { sampleEnv with throwFails := fun _ _ => true }

/-- A snapshot with the orphan standby and two unlisted running databases. -/
def unlistedSnapshot : HostDataBE Int :=
  { Hostname := "h1", Environment := "PROD", Info := sampleHost,
    Database := some { Databases := some [orphanStandby], UnlistedRunningDatabases := ["X1", "X2"] } }

/-- Names of the unlisted running databases of a snapshot, none without Oracle
database section. -/
def unlistedNames {F : Type} (hostdata : HostDataBE F) : List String :=
  match hostdata.Database with
  | none => []
  | some feature => feature.UnlistedRunningDatabases

/-! ## API service: `GetOraclePart` -/

/-- One agreement part (`model.OracleDatabasePart`), restricted to its identifier
and its description. -/
structure OracleDatabasePart where
  PartID : String
  ItemDescription : String
deriving DecidableEq, Repr

/-- The errors that the API service hands to the controllers. -/
inductive AdvancedError where
  /-- The value `utils.AerrOracleDatabaseAgreementInvalidPartID`. -/
  | AerrOracleDatabaseAgreementInvalidPartID
  /-- The value `utils.AerrHostNotFound`. -/
  | AerrHostNotFound
  /-- Any other error, with its class. -/
  | other (errorClass : String)
deriving DecidableEq, Repr

/-- `GetOraclePart(partID)` over `as.OracleDatabaseAgreementParts`: the loop
returns the first part with the identifier, the line after the loop the error. -/
def GetOraclePart (parts : List OracleDatabasePart) (partID : String) :
    Except AdvancedError OracleDatabasePart :=
  match parts with
  | [] => Except.error AdvancedError.AerrOracleDatabaseAgreementInvalidPartID
  | part :: rest => if partID == part.PartID then Except.ok part else GetOraclePart rest partID

/-! ## API controller: `ArchiveHost` and `SearchHosts` -/

/-- The value encoded as body of a response: the error record that
`WriteAndLogError` builds from an error, or a result given by its JSON text. -/
inductive ResponseBody where
  | errorResponse (err : AdvancedError)
  | value (json : String)
deriving DecidableEq, Repr

/-- One call that writes to the `http.ResponseWriter`: the status code given to
`WriteHeader` and the body encoded after it. -/
structure ResponseWrite where
  statusCode : Nat
  body : ResponseBody
deriving DecidableEq, Repr

/-- What a controller has done so far: its writes to the response, in order, and
the number of calls of the service. -/
structure HttpRun where
  writes : List ResponseWrite
  serviceCalls : Nat
deriving DecidableEq, Repr

/-- `utils.WriteJSONResponse(w, statusCode, resp)`: one header and one body. -/
def WriteJSONResponse (statusCode : Nat) (resp : ResponseBody) (run : HttpRun) : HttpRun :=
  { run with writes := run.writes ++ [{ statusCode := statusCode, body := resp }] }

/-- `utils.WriteAndLogError(w, statusCode, err)`: builds the error body, logs, and
calls `WriteJSONResponse`. -/
def WriteAndLogError (statusCode : Nat) (err : AdvancedError) (run : HttpRun) : HttpRun :=
  WriteJSONResponse statusCode (ResponseBody.errorResponse err) run

/-- `ArchiveHost(w, r)`: `readOnly` is `ctrl.Config.APIService.ReadOnly`, and
`archive` is `ctrl.Service.ArchiveHost`, `none` being the nil error. -/
def ArchiveHost (readOnly : Bool) (archive : String → Option AdvancedError) (hostname : String)
    (run : HttpRun) : HttpRun :=
  if readOnly then
    WriteAndLogError 403 (AdvancedError.other "FORBIDDEN_REQUEST") run
  else
    let called : HttpRun := { run with serviceCalls := run.serviceCalls + 1 }
    match archive hostname with
    | some AdvancedError.AerrHostNotFound =>
      -- no `return` in this branch: the final write follows
      WriteJSONResponse 200 (ResponseBody.value "null") (WriteAndLogError 404 AdvancedError.AerrHostNotFound called)
    | some aerr => WriteAndLogError 500 aerr called
    | none => WriteJSONResponse 200 (ResponseBody.value "null") called

/-- The content types that `SearchHosts` offers to `NegotiateContentType`. -/
def searchHostsOffers : List String :=
  [ "application/json",
    "application/vnd.oracle.lms+vnd.ms-excel.sheet.macroEnabled.12",
    "application/vnd.openxmlformats-officedocument.spreadsheetml.sheet",
    "application/vnd.ercole.mongohostdata+json" ]

/-- The three functions that `SearchHosts` calls from its `switch`, each given by
what it does to the response. -/
structure SearchHandlers where
  searchHostsJSON : HttpRun → HttpRun
  searchHostsLMS : HttpRun → HttpRun
  searchHostsXLSX : HttpRun → HttpRun

/-- `SearchHosts(w, r)`: `filtersError` is the error of `getSearchHostFilters`
(`none` when the filters parse) and `requestContentType` the result of
`httputil.NegotiateContentType`. -/
def SearchHosts (handlers : SearchHandlers) (filtersError : Option AdvancedError)
    (requestContentType : String) (run : HttpRun) : HttpRun :=
  match filtersError with
  | some err => WriteAndLogError 422 err run
  | none =>
    if requestContentType = "application/json" then handlers.searchHostsJSON run
    else if requestContentType = "application/vnd.oracle.lms+vnd.ms-excel.sheet.macroEnabled.12" then
      handlers.searchHostsLMS run
    else if requestContentType = "application/vnd.openxmlformats-officedocument.spreadsheetml.sheet" then
      handlers.searchHostsXLSX run
    else run

/-- A list of agreement parts in which an identifier occurs twice. -/
def sampleParts : List OracleDatabasePart :=
  [ { PartID := "A90611", ItemDescription := "Oracle Database Enterprise Edition" },
    { PartID := "A90649", ItemDescription := "Oracle Diagnostics Pack" },
    { PartID := "A90649", ItemDescription := "Oracle Diagnostics Pack (second line)" } ]

/-- A controller run at its start. -/
def HttpRun.init : HttpRun := { writes := [], serviceCalls := 0 }

/-- Handlers that each write one response with status 200. -/
def sampleHandlers : SearchHandlers :=
  { searchHostsJSON := WriteJSONResponse 200 (ResponseBody.value "hosts"),
    searchHostsLMS := WriteJSONResponse 200 (ResponseBody.value "lms"),
    searchHostsXLSX := WriteJSONResponse 200 (ResponseBody.value "xlsx") }

/-- The condition of `checkSecondaryDbs`: status MOUNTED and role not PRIMARY. -/
def isSecondaryDb {F : Type} (db : OracleDatabase F) : Bool :=
  db.Status == OracleDatabaseStatusMounted && db.Role != OracleDatabaseRolePrimary

/-- A second open primary, `D4` (DbID 13). -/
def secondPrimary : OracleDatabase Int :=
  { Name := "D4", DbID := 13, Role := "PRIMARY", Status := "OPEN",
    Licenses := [ { LicenseTypeID := "A90611", Name := "Oracle ENT", Count := 2 } ] }

/-- A standby of `D4` without license lines. -/
def secondStandby : OracleDatabase Int :=
  { Name := "D4", DbID := 13, Role := "PHYSICAL STANDBY", Status := "MOUNTED", Licenses := [] }

/-- The sample environment with a fleet listing of two open primaries. -/
def fleetEnv : Env Int :=
  { sampleEnv with httpDatabases := fun _ => some [samplePrimary, secondPrimary] }

/-- A snapshot with the standbys of `D1` and of `D4`. -/
def twoStandbySnapshot : HostDataBE Int :=
  { Hostname := "h1", Environment := "PROD", Info := sampleHost,
    Database := some { Databases := some [sampleStandby, secondStandby],
                       UnlistedRunningDatabases := [] } }

/-- Whether a run returned. -/
def Exec.returned {σ : Type} : Exec σ → Bool
  | Exec.ok _ => true
  | Exec.abort _ _ => false

/-- The standby of `D4` after the license inheritance from its primary. -/
def secondInherited : OracleDatabase Int :=
  { Name := "D4", DbID := 13, Role := "PHYSICAL STANDBY", Status := "MOUNTED",
    Licenses := [ { LicenseTypeID := "A90611", Name := "Oracle ENT", Count := 8 } ] }

/-- The effects after two requests for the fleet listing. -/
def World.fetchedTwice : World := { alerts := [], dbFetches := 2, ltFetches := 0 }

/-- What identifies an alert up to the order of its license list: code, host
name, database name, and the license names as a set. -/
def alertKey (a : Alert) : AlertCode × String × Option String × Finset String :=
  (a.Code, a.hostname, a.dbname, a.licenses.toFinset)

/-- The `NewEnterpriseLicenseRequired` alert as `checkNewLicenses` builds it. -/
def enterpriseAlertOf (newHostname : String) : Alert :=
  { Code := AlertCode.NewEnterpriseLicenseRequired, hostname := newHostname, dbname := none,
    licenses := [] }

/-- The alerts of one iteration of `checkNewLicenses` that do not depend on the
flag: the one for a new database and the one for activated features. -/
def perDbAlerts {F : Type} (env : Env F) (previousDbs : List (String × OracleDatabase F))
    (newHostname : String) (newDb : OracleDatabase F) : List Alert :=
  (match previousDbs.lookup newDb.Name with
    | some _ => []
    | none => [{ Code := AlertCode.NewDatabaseDiscovered, hostname := newHostname,
                 dbname := some newDb.Name, licenses := [] }]) ++
  (if (activatedLicensesOf env (oldDbOf previousDbs newDb) newDb).length > 0 then
      [activatedAlertOf env previousDbs newHostname newDb]
    else [])

/-- The sample environment of the spec diff with the map entries visited and the
diff entries listed in reverse order. -/
def reversedEnv : Env Int :=
  { specEnv with
    rangeDbs := fun m => m.reverse,
    DiffLicenses := fun old new => (specEnv.DiffLicenses old new).reverse,
    throwFails := fun _ _ => true }

/-- The databases of a snapshot, in slice order; none when the Oracle database
section or its database slice is nil. -/
def snapshotDatabases {F : Type} (hostdata : HostDataBE F) : List (OracleDatabase F) :=
  match hostdata.Database with
  | none => []
  | some feature =>
    match feature.Databases with
    | none => []
    | some dbs => dbs

/-- A second database named `D1`, with the license lines that `D1` has in the
previous snapshot. -/
def namesakePrimary : OracleDatabase Int :=
  { Name := "D1", DbID := 8, Role := "PRIMARY", Status := "OPEN",
    Licenses := [ { LicenseTypeID := "A90611", Name := "Oracle ENT", Count := 0 },
                  { LicenseTypeID := "A90649", Name := "Diagnostics Pack", Count := 0 } ] }

/-- A current snapshot with 8 cores in which two databases are named `D1`: the
first with `Tuning Pack` in use, the second without. -/
def namesakeSnapshot : HostDataBE Int :=
  { Hostname := "h1", Environment := "PROD", Info := sampleHost,
    Database := some { Databases := some [samplePrimary, namesakePrimary],
                       UnlistedRunningDatabases := [] } }


/-! ## Lemmas on the license inheritance loop -/

theorem overwriteFirst_eq_none_iff {F : Type} (name : String) (count : F)
    (ls : List (OracleDatabaseLicense F)) :
    overwriteFirst name count ls = none ↔ ∀ l ∈ ls, l.Name ≠ name := by
  induction ls with
  | nil => simp [overwriteFirst]
  | cons l ls ih =>
    by_cases h : l.Name = name
    · simp [overwriteFirst, h]
    · simp [overwriteFirst, h, ih]

theorem firstCount_overwriteFirst_same {F : Type} (name : String) (count : F)
    (ls updated : List (OracleDatabaseLicense F)) (h : overwriteFirst name count ls = some updated) :
    firstCount name updated = some count := by
  induction ls generalizing updated with
  | nil => simp [overwriteFirst] at h
  | cons l ls ih =>
    by_cases hn : l.Name = name
    · simp [overwriteFirst, hn] at h
      subst h
      simp [firstCount, hn]
    · simp only [overwriteFirst, hn, if_false, Option.map_eq_some'] at h
      obtain ⟨ls1, h1, rfl⟩ := h
      have := ih ls1 h1
      simpa [firstCount, List.find?_cons, hn] using this

theorem firstCount_overwriteFirst_other {F : Type} (name other : String) (count : F)
    (ls updated : List (OracleDatabaseLicense F)) (h : overwriteFirst name count ls = some updated)
    (hne : other ≠ name) :
    firstCount other updated = firstCount other ls := by
  induction ls generalizing updated with
  | nil => simp [overwriteFirst] at h
  | cons l ls ih =>
    by_cases hn : l.Name = name
    · simp [overwriteFirst, hn] at h
      subst h
      have : ¬ name = other := fun e => hne e.symm
      simp [firstCount, List.find?_cons, hn, this]
    · simp only [overwriteFirst, hn, if_false, Option.map_eq_some'] at h
      obtain ⟨ls1, h1, rfl⟩ := h
      have := ih ls1 h1
      by_cases ho : l.Name = other
      · simp [firstCount, List.find?_cons, ho]
      · simpa [firstCount, List.find?_cons, ho] using this

theorem firstCount_append_of_isSome {F : Type} (name : String)
    (ls extra : List (OracleDatabaseLicense F)) (v : F) (h : firstCount name ls = some v) :
    firstCount name (ls ++ extra) = some v := by
  unfold firstCount at h ⊢
  rw [Option.map_eq_some'] at h
  obtain ⟨l, hl, rfl⟩ := h
  rw [List.find?_append, hl]
  rfl

/-- A step of the cycle keeps "the first entry named `name` has the inherited count". -/
theorem firstCount_licenseStep_keep {F : Type} (env : Env F) (count : F) (name : String)
    (ls : List (OracleDatabaseLicense F)) (pl : OracleDatabaseLicense F)
    (h : firstCount name ls = some count) :
    firstCount name (licenseStep env count ls pl) = some count := by
  unfold licenseStep
  split
  · split
    · rename_i updated hu
      by_cases hn : name = pl.Name
      · subst hn
        exact firstCount_overwriteFirst_same _ count ls updated hu
      · rw [firstCount_overwriteFirst_other _ name count ls updated hu hn]
        exact h
    · exact firstCount_append_of_isSome name ls _ count h
  · exact h

/-- A step of the cycle for a positive primary license sets the first entry of that name. -/
theorem firstCount_licenseStep_self {F : Type} (env : Env F) (count : F)
    (ls : List (OracleDatabaseLicense F)) (pl : OracleDatabaseLicense F)
    (hpos : env.gt pl.Count env.zero = true) :
    firstCount pl.Name (licenseStep env count ls pl) = some count := by
  unfold licenseStep
  rw [if_pos hpos]
  split
  · rename_i updated hu
    exact firstCount_overwriteFirst_same _ count ls updated hu
  · rename_i hu
    rw [overwriteFirst_eq_none_iff] at hu
    unfold firstCount
    rw [List.find?_append]
    have : ls.find? (fun l => l.Name == pl.Name) = none := by
      rw [List.find?_eq_none]
      intro l hl
      simpa using hu l hl
    simp [this]

theorem firstCount_cycle_keep {F : Type} (env : Env F) (count : F) (name : String)
    (primary ls : List (OracleDatabaseLicense F)) (h : firstCount name ls = some count) :
    firstCount name (primaryDbLicensesCycle env count primary ls) = some count := by
  induction primary generalizing ls with
  | nil => exact h
  | cons p ps ih =>
    exact ih _ (firstCount_licenseStep_keep env count name ls p h)

theorem firstCount_cycle {F : Type} (env : Env F) (count : F)
    (primary ls : List (OracleDatabaseLicense F)) (pl : OracleDatabaseLicense F)
    (hmem : pl ∈ primary) (hpos : env.gt pl.Count env.zero = true) :
    firstCount pl.Name (primaryDbLicensesCycle env count primary ls) = some count := by
  induction primary generalizing ls with
  | nil => simp at hmem
  | cons p ps ih =>
    rcases List.mem_cons.mp hmem with rfl | hps
    · exact firstCount_cycle_keep env count _ ps _ (firstCount_licenseStep_self env count ls pl hpos)
    · exact ih _ hps

theorem addLicensesToSecondaryDb_found {F : Type} (env : Env F) (hostInfo : Host)
    (secondaryDb primaryDb : OracleDatabase F) (dbs : List (OracleDatabase F)) (w w1 : World)
    (hfetch : getPrimaryOpenOracleDatabases env w = Exec.ok (some dbs, w1))
    (hfind : findPrimaryDb dbs secondaryDb = some primaryDb) :
    addLicensesToSecondaryDb env hostInfo secondaryDb w =
      Exec.ok ({ secondaryDb with
        Licenses := primaryDbLicensesCycle env (inheritedCount env hostInfo secondaryDb)
          primaryDb.Licenses secondaryDb.Licenses }, w1) := by
  simp only [addLicensesToSecondaryDb, hfetch, addLicensesWith, hfind, inheritedCount]

/-- A successful inner loop overwrote the count of the first entry with the name
and changed nothing else. -/
theorem overwriteFirst_eq_some {F : Type} (name : String) (count : F)
    (ls updated : List (OracleDatabaseLicense F)) (h : overwriteFirst name count ls = some updated) :
    ∃ i : Nat, ∃ l : OracleDatabaseLicense F, ls[i]? = some l ∧ l.Name = name ∧
      (∀ j : Nat, j < i → ∀ q, ls[j]? = some q → q.Name ≠ name) ∧
      updated = ls.set i { l with Count := count } := by
  induction ls generalizing updated with
  | nil => simp [overwriteFirst] at h
  | cons l ls ih =>
    by_cases hn : l.Name = name
    · subst hn
      simp only [overwriteFirst, if_true, Option.some.injEq] at h
      subst h
      exact ⟨0, l, by simp, rfl, fun j hj => absurd hj (Nat.not_lt_zero j), by simp⟩
    · simp only [overwriteFirst, hn, if_false, Option.map_eq_some'] at h
      obtain ⟨ls1, h1, rfl⟩ := h
      obtain ⟨i, l0, hi, hl0, hfirst, hset⟩ := ih ls1 h1
      refine ⟨i + 1, l0, by simpa using hi, hl0, ?_, by simp [hset]⟩
      intro j hj q hq
      cases j with
      | zero =>
        simp only [List.getElem?_cons_zero, Option.some.injEq] at hq
        subst hq
        exact hn
      | succ j =>
        simp only [List.getElem?_cons_succ] at hq
        exact hfirst j (by omega) q hq

theorem licenseNames_overwriteFirst {F : Type} (name : String) (count : F)
    (ls updated : List (OracleDatabaseLicense F)) (h : overwriteFirst name count ls = some updated) :
    licenseNames updated = licenseNames ls := by
  induction ls generalizing updated with
  | nil => simp [overwriteFirst] at h
  | cons l ls ih =>
    by_cases hn : l.Name = name
    · subst hn
      simp only [overwriteFirst, if_true, Option.some.injEq] at h
      subst h
      simp [licenseNames]
    · simp only [overwriteFirst, hn, if_false, Option.map_eq_some'] at h
      obtain ⟨ls1, h1, rfl⟩ := h
      have := ih ls1 h1
      simp only [licenseNames] at this ⊢
      simp [this]

/-- Names after one step of the cycle: one name more exactly when the primary
license is positive and its name is new. -/
theorem licenseNames_licenseStep {F : Type} (env : Env F) (count : F)
    (ls : List (OracleDatabaseLicense F)) (pl : OracleDatabaseLicense F) :
    licenseNames (licenseStep env count ls pl) =
      if env.gt pl.Count env.zero = true ∧ pl.Name ∉ licenseNames ls
      then licenseNames ls ++ [pl.Name] else licenseNames ls := by
  unfold licenseStep
  by_cases hpos : env.gt pl.Count env.zero = true
  · rw [if_pos hpos]
    split
    · rename_i updated hu
      have hex : pl.Name ∈ licenseNames ls := by
        by_contra hcon
        have : overwriteFirst pl.Name count ls = none := by
          rw [overwriteFirst_eq_none_iff]
          intro l hl hname
          exact hcon (by simpa [licenseNames] using ⟨l, hl, hname⟩)
        rw [this] at hu
        exact absurd hu (by simp)
      rw [if_neg (by simp [hex]), licenseNames_overwriteFirst _ _ _ _ hu]
    · rename_i hu
      rw [overwriteFirst_eq_none_iff] at hu
      have hnot : pl.Name ∉ licenseNames ls := by
        simp only [licenseNames, List.mem_map, not_exists, not_and]
        exact fun l hl => hu l hl
      rw [if_pos ⟨hpos, hnot⟩]
      simp [licenseNames]
  · rw [if_neg hpos, if_neg (fun h => hpos h.1)]

/-- Length of the license list after the cycle. -/
theorem length_primaryDbLicensesCycle {F : Type} (env : Env F) (count : F)
    (primary ls : List (OracleDatabaseLicense F)) :
    (primaryDbLicensesCycle env count primary ls).length =
      ls.length + ((positiveNames env primary).toFinset \ (licenseNames ls).toFinset).card := by
  induction primary generalizing ls with
  | nil => simp [primaryDbLicensesCycle, positiveNames]
  | cons p ps ih =>
    have hstep := licenseNames_licenseStep env count ls p
    have hlen : (licenseStep env count ls p).length = (licenseNames (licenseStep env count ls p)).length := by
      simp [licenseNames]
    have hlen0 : ls.length = (licenseNames ls).length := by simp [licenseNames]
    have ih1 := ih (licenseStep env count ls p)
    unfold primaryDbLicensesCycle at ih1 ⊢
    rw [List.foldl_cons, ih1, hlen, hstep]
    by_cases hpos : env.gt p.Count env.zero = true
    · have hpn : positiveNames env (p :: ps) = p.Name :: positiveNames env ps := by
        simp [positiveNames, List.filter_cons, hpos]
      rw [hpn, List.toFinset_cons]
      by_cases hmem : p.Name ∈ licenseNames ls
      · rw [if_neg (by simp [hmem]),
          Finset.insert_sdiff_of_mem _ (List.mem_toFinset.mpr hmem), ← hlen0]
      · rw [if_pos ⟨hpos, hmem⟩]
        have hnot : p.Name ∉ (licenseNames ls).toFinset := by simpa using hmem
        rw [Finset.insert_sdiff_of_not_mem _ hnot]
        have hins : insert p.Name ((positiveNames env ps).toFinset \ (licenseNames ls).toFinset) =
            insert p.Name ((positiveNames env ps).toFinset \
              (licenseNames ls ++ [p.Name]).toFinset) := by
          ext x
          simp
          tauto
        rw [hins, Finset.card_insert_of_not_mem (by simp)]
        simp only [List.length_append, List.length_singleton]
        rw [← hlen0]
        omega
    · have hpn : positiveNames env (p :: ps) = positiveNames env ps := by
        simp [positiveNames, List.filter_cons, hpos]
      rw [hpn, if_neg (fun h => hpos h.1), ← hlen0]

/-- The names after the cycle: the names before, followed by pairwise distinct new names. -/
theorem licenseNames_primaryDbLicensesCycle {F : Type} (env : Env F) (count : F)
    (primary ls : List (OracleDatabaseLicense F)) :
    ∃ appended : List String,
      licenseNames (primaryDbLicensesCycle env count primary ls) = licenseNames ls ++ appended ∧
      appended.Nodup ∧ (∀ n ∈ appended, n ∉ licenseNames ls) := by
  induction primary generalizing ls with
  | nil => exact ⟨[], by simp [primaryDbLicensesCycle], List.nodup_nil, by simp⟩
  | cons p ps ih =>
    obtain ⟨app, happ, hnd, hdisj⟩ := ih (licenseStep env count ls p)
    have hstep := licenseNames_licenseStep env count ls p
    unfold primaryDbLicensesCycle at happ ⊢
    rw [List.foldl_cons, happ]
    by_cases hc : env.gt p.Count env.zero = true ∧ p.Name ∉ licenseNames ls
    · rw [if_pos hc] at hstep
      rw [hstep] at hdisj ⊢
      refine ⟨p.Name :: app, by simp, ?_, ?_⟩
      · rw [List.nodup_cons]
        exact ⟨fun hin => hdisj _ hin (by simp), hnd⟩
      · intro n hn
        rcases List.mem_cons.mp hn with rfl | hn
        · exact hc.2
        · exact fun hin => hdisj n hn (by simp [hin])
    · rw [if_neg hc] at hstep
      rw [hstep] at hdisj ⊢
      exact ⟨app, rfl, hnd, hdisj⟩

/-- One step of the cycle keeps every entry in place, with its name and type,
and with its count unless the step is for a positive license of that name. -/
theorem licenseStep_frame {F : Type} (env : Env F) (count : F)
    (ls : List (OracleDatabaseLicense F)) (pl : OracleDatabaseLicense F)
    (i : Nat) (l : OracleDatabaseLicense F) (hl : ls[i]? = some l) :
    ∃ l1 : OracleDatabaseLicense F, (licenseStep env count ls pl)[i]? = some l1 ∧
      l1.Name = l.Name ∧ l1.LicenseTypeID = l.LicenseTypeID ∧
      (¬ (env.gt pl.Count env.zero = true ∧ pl.Name = l.Name) → l1.Count = l.Count) := by
  have hi : i < ls.length := (List.getElem?_eq_some.mp hl).1
  unfold licenseStep
  by_cases hpos : env.gt pl.Count env.zero = true
  · rw [if_pos hpos]
    split
    · rename_i updated hu
      obtain ⟨i0, l0, hi0, hname, _, rfl⟩ := overwriteFirst_eq_some _ _ _ _ hu
      rw [List.getElem?_set]
      by_cases he : i0 = i
      · subst he
        rw [hl] at hi0
        cases hi0
        rw [if_pos rfl, if_pos hi]
        exact ⟨_, rfl, rfl, rfl, fun hne => absurd ⟨hpos, hname.symm⟩ hne⟩
      · rw [if_neg he]
        exact ⟨l, hl, rfl, rfl, fun _ => rfl⟩
    · rw [List.getElem?_append_left hi]
      exact ⟨l, hl, rfl, rfl, fun _ => rfl⟩
  · rw [if_neg hpos]
    exact ⟨l, hl, rfl, rfl, fun _ => rfl⟩

/-- The cycle keeps every entry in place, with its name and type, and with its
count unless a positive primary license has that name. -/
theorem primaryDbLicensesCycle_frame {F : Type} (env : Env F) (count : F)
    (primary ls : List (OracleDatabaseLicense F))
    (i : Nat) (l : OracleDatabaseLicense F) (hl : ls[i]? = some l) :
    ∃ l1 : OracleDatabaseLicense F, (primaryDbLicensesCycle env count primary ls)[i]? = some l1 ∧
      l1.Name = l.Name ∧ l1.LicenseTypeID = l.LicenseTypeID ∧
      (l.Name ∉ positiveNames env primary → l1.Count = l.Count) := by
  induction primary generalizing ls l with
  | nil => exact ⟨l, hl, rfl, rfl, fun _ => rfl⟩
  | cons p ps ih =>
    obtain ⟨l1, h1, hn1, ht1, hc1⟩ := licenseStep_frame env count ls p i l hl
    obtain ⟨l2, h2, hn2, ht2, hc2⟩ := ih (licenseStep env count ls p) l1 h1
    refine ⟨l2, h2, hn2.trans hn1, ht2.trans ht1, ?_⟩
    intro hnot
    have hp : ¬ (env.gt p.Count env.zero = true ∧ p.Name = l.Name) := by
      rintro ⟨hpos, hname⟩
      exact hnot (by simp [positiveNames, List.filter_cons, hpos, hname])
    have hps : l1.Name ∉ positiveNames env ps := by
      rw [hn1]
      intro hin
      apply hnot
      simp only [positiveNames, List.mem_map, List.mem_filter] at hin ⊢
      obtain ⟨q, ⟨hq, hqpos⟩, hqn⟩ := hin
      exact ⟨q, ⟨List.mem_cons_of_mem _ hq, hqpos⟩, hqn⟩
    rw [hc2 hps, hc1 hp]

/-- The state that `addLicensesToSecondaryDb` reaches, by the primary found. -/
theorem addLicensesToSecondaryDb_state {F : Type} (env : Env F) (hostInfo : Host)
    (secondaryDb : OracleDatabase F) (w : World) :
    (addLicensesToSecondaryDb env hostInfo secondaryDb w).state.1 =
      match primaryOf env secondaryDb w with
      | some primaryDb =>
        { secondaryDb with
          Licenses := primaryDbLicensesCycle env (inheritedCount env hostInfo secondaryDb)
            primaryDb.Licenses secondaryDb.Licenses }
      | none => secondaryDb := by
  unfold addLicensesToSecondaryDb primaryOf
  cases hg : getPrimaryOpenOracleDatabases env w with
  | abort why s => rfl
  | ok s =>
    obtain ⟨dbs, w1⟩ := s
    cases dbs with
    | none => rfl
    | some dbs =>
      simp only [addLicensesWith]
      cases hf : findPrimaryDb dbs secondaryDb with
      | none =>
        simp only []
        split <;> rfl
      | some primaryDb => rfl

/-- The ID that the catalog scan finds is the ID of the first entry with the alias. -/
theorem findLicenseTypeID_first (licenseTypes : List OracleDatabaseLicenseType) (name : String)
    (k : Nat) (lt : OracleDatabaseLicenseType)
    (hk : licenseTypes[k]? = some lt) (halias : name ∈ lt.Aliases)
    (hfirst : ∀ j : Nat, j < k → ∀ lt0, licenseTypes[j]? = some lt0 → name ∉ lt0.Aliases) :
    findLicenseTypeID licenseTypes name = some lt.ID := by
  induction licenseTypes generalizing k with
  | nil => simp at hk
  | cons x xs ih =>
    cases k with
    | zero =>
      simp only [List.getElem?_cons_zero, Option.some.injEq] at hk
      subst hk
      simp [findLicenseTypeID, halias]
    | succ k =>
      have hx : name ∉ x.Aliases := hfirst 0 (Nat.succ_pos k) x (by simp)
      have hany : (x.Aliases.any (fun al => al == name)) = false := by
        simp only [List.any_eq_false, beq_iff_eq]
        intro al hal heq
        exact hx (heq ▸ hal)
      rw [findLicenseTypeID, if_neg (by simp [hany])]
      apply ih k (by simpa using hk)
      intro j hj lt0 hlt0
      exact hfirst (j + 1) (by omega) lt0 (by simpa using hlt0)

/-! ## Lemmas on `checkNewLicenses` -/

theorem checkNewLicensesStep_eq {F : Type} (env : Env F) (previousDbs : List (String × OracleDatabase F))
    (previousCores newCores : Int) (newHostname : String) (st : Bool × World)
    (newDb : OracleDatabase F) :
    checkNewLicensesStep env previousDbs previousCores newCores newHostname st newDb =
      (st.1 || enterpriseCondition env previousCores newCores (oldDbOf previousDbs newDb) newDb,
       { st.2 with alerts := st.2.alerts ++
           stepAlerts env previousDbs previousCores newCores newHostname st.1 newDb }) := by
  obtain ⟨thrown, w⟩ := st
  simp only [checkNewLicensesStep, stepAlerts, throwNewDatabaseAlert, throwNewEnterpriseLicenseAlert,
    throwActivatedFeaturesAlert, ThrowNewAlert]
  cases hl : previousDbs.lookup newDb.Name <;>
  cases hc : enterpriseCondition env previousCores newCores (oldDbOf previousDbs newDb) newDb <;>
  cases thrown <;>
  by_cases ha : (activatedLicensesOf env (oldDbOf previousDbs newDb) newDb).length > 0 <;>
  simp [ha]

theorem foldl_checkNewLicensesStep {F : Type} (env : Env F)
    (previousDbs : List (String × OracleDatabase F))
    (previousCores newCores : Int) (newHostname : String)
    (visited : List (OracleDatabase F)) (thrown : Bool) (w : World) :
    visited.foldl (checkNewLicensesStep env previousDbs previousCores newCores newHostname) (thrown, w) =
      (thrown || visited.any
          (fun newDb => enterpriseCondition env previousCores newCores (oldDbOf previousDbs newDb) newDb),
       { w with alerts := w.alerts ++
           loopAlerts env previousDbs previousCores newCores newHostname thrown visited }) := by
  induction visited generalizing thrown w with
  | nil => simp [loopAlerts]
  | cons newDb rest ih =>
    rw [List.foldl_cons, checkNewLicensesStep_eq, ih]
    simp [loopAlerts, Bool.or_assoc]

/-- The effects of `checkNewLicenses`: the alerts of the loop are appended, nothing else changes. -/
theorem checkNewLicenses_eq {F : Type} (env : Env F) (previous current : HostDataBE F) (w : World) :
    checkNewLicenses env previous current w =
      { w with alerts := w.alerts ++
          (loopAlerts env (snapshotDbs previous) previous.Info.CPUCores current.Info.CPUCores
            current.Hostname false (visitedDbs env current)) } := by
  simp [checkNewLicenses, checkNewLicensesLoop, foldl_checkNewLicensesStep, visitedDbs]

theorem countCode_append (code : AlertCode) (xs ys : List Alert) :
    countCode code (xs ++ ys) = countCode code xs + countCode code ys := by
  simp [countCode, List.countP_append]

theorem countCode_enterprise_stepAlerts {F : Type} (env : Env F)
    (previousDbs : List (String × OracleDatabase F))
    (previousCores newCores : Int) (newHostname : String) (thrown : Bool) (newDb : OracleDatabase F) :
    countCode AlertCode.NewEnterpriseLicenseRequired
        (stepAlerts env previousDbs previousCores newCores newHostname thrown newDb) =
      if enterpriseCondition env previousCores newCores (oldDbOf previousDbs newDb) newDb && !thrown
      then 1 else 0 := by
  unfold stepAlerts
  rw [countCode_append, countCode_append]
  cases previousDbs.lookup newDb.Name <;>
  cases enterpriseCondition env previousCores newCores (oldDbOf previousDbs newDb) newDb <;>
  cases thrown <;>
  by_cases ha : (activatedLicensesOf env (oldDbOf previousDbs newDb) newDb).length > 0 <;>
  simp [countCode, ha]

/-- The loop submits one Enterprise alert when the flag is down and some visited
database meets the condition, and none otherwise. -/
theorem countCode_enterprise_loopAlerts {F : Type} (env : Env F)
    (previousDbs : List (String × OracleDatabase F))
    (previousCores newCores : Int) (newHostname : String) (thrown : Bool)
    (visited : List (OracleDatabase F)) :
    countCode AlertCode.NewEnterpriseLicenseRequired
        (loopAlerts env previousDbs previousCores newCores newHostname thrown visited) =
      if !thrown && visited.any
          (fun newDb => enterpriseCondition env previousCores newCores (oldDbOf previousDbs newDb) newDb)
      then 1 else 0 := by
  induction visited generalizing thrown with
  | nil => simp [loopAlerts, countCode]
  | cons newDb rest ih =>
    rw [loopAlerts, countCode_append, countCode_enterprise_stepAlerts, ih]
    cases thrown <;>
    cases hc : enterpriseCondition env previousCores newCores (oldDbOf previousDbs newDb) newDb <;>
    simp [hc]

/-! ## Lemmas on the filter loop of `getPrimaryOpenOracleDatabases` -/

/-- Removing at the position right after `pre` keeps `pre` and permutes the rest
of the list without the removed element. -/
theorem removeFromDBs_append {α : Type} (pre : List α) (x : α) (xs : List α)
    (h : pre.length < (pre ++ x :: xs).length) :
    ∃ ys : List α, removeFromDBs (pre ++ x :: xs) pre.length h = pre ++ ys ∧ ys.Perm xs := by
  unfold removeFromDBs
  rw [List.set_append_right _ _ (Nat.le_refl _)]
  simp only [Nat.sub_self, List.set_cons_zero]
  rw [List.dropLast_append_of_ne_nil _ (List.cons_ne_nil _ _)]
  cases xs with
  | nil => exact ⟨[], by simp, List.Perm.refl _⟩
  | cons y ys =>
    refine ⟨(y :: ys).getLast (List.cons_ne_nil _ _) :: (y :: ys).dropLast, ?_, ?_⟩
    · rw [List.dropLast_cons_of_ne_nil (List.cons_ne_nil _ _)]
      congr 2
      rw [List.getLast_append_of_ne_nil (List.cons_ne_nil x (y :: ys))]
      exact List.getLast_cons (List.cons_ne_nil y ys)
    · have h1 : (y :: ys).dropLast ++ [(y :: ys).getLast (List.cons_ne_nil _ _)] = y :: ys :=
        List.dropLast_append_getLast (List.cons_ne_nil y ys)
      have h2 : ((y :: ys).getLast (List.cons_ne_nil _ _) :: (y :: ys).dropLast).Perm
          ((y :: ys).dropLast ++ [(y :: ys).getLast (List.cons_ne_nil _ _)]) :=
        @List.perm_append_comm _ [(y :: ys).getLast (List.cons_ne_nil _ _)] _
      rw [h1] at h2
      exact h2

/-- With one step per element still to examine, the loop started after `pre`
ends, keeps `pre`, and returns the kept elements of the rest in some order. -/
theorem filterLoop_append {α : Type} (keep : α → Bool) (fuel : Nat) (pre rest : List α)
    (hfuel : rest.length ≤ fuel) :
    ∃ r : List α, filterLoop keep fuel (pre ++ rest) pre.length = some r ∧
      r.Perm (pre ++ rest.filter keep) := by
  induction fuel generalizing pre rest with
  | zero =>
    have : rest = [] := List.length_eq_zero.mp (Nat.le_zero.mp hfuel)
    subst this
    exact ⟨pre ++ [], by simp [filterLoop], by simp⟩
  | succ fuel ih =>
    cases rest with
    | nil => exact ⟨pre ++ [], by simp [filterLoop], by simp⟩
    | cons x xs =>
      have hlt : pre.length < (pre ++ x :: xs).length := by simp
      have hget : (pre ++ x :: xs).get ⟨pre.length, hlt⟩ = x := by
        rw [List.get_eq_getElem]
        simp only []
        rw [List.getElem_append_right (Nat.le_refl _)]
        simp
      have hxs : xs.length ≤ fuel := by simpa using hfuel
      rw [filterLoop, dif_pos hlt, hget]
      by_cases hk : keep x = true
      · rw [if_pos hk]
        have := ih (pre ++ [x]) xs hxs
        simp only [List.append_assoc, List.singleton_append, List.length_append,
          List.length_singleton] at this
        obtain ⟨r, hr, hp⟩ := this
        exact ⟨r, hr, by simpa [List.filter_cons, hk] using hp⟩
      · rw [if_neg hk]
        obtain ⟨ys, hys, hperm⟩ := removeFromDBs_append pre x xs hlt
        rw [hys]
        obtain ⟨r, hr, hp⟩ := ih pre ys (by rw [hperm.length_eq]; exact hxs)
        refine ⟨r, hr, hp.trans ?_⟩
        rw [List.filter_cons, if_neg hk]
        exact List.Perm.append_left pre (hperm.filter keep)

/-- A result of the loop does not change when the step budget grows. -/
theorem filterLoop_succ {α : Type} (keep : α → Bool) (fuel : Nat) (dbs : List α) (i : Nat)
    (r : List α) (h : filterLoop keep fuel dbs i = some r) :
    filterLoop keep (fuel + 1) dbs i = some r := by
  induction fuel generalizing dbs i with
  | zero =>
    rw [filterLoop] at h
    split at h
    · exact absurd h (by simp)
    · rename_i hge
      rw [filterLoop, dif_neg hge]
      exact h
  | succ fuel ih =>
    rw [filterLoop] at h ⊢
    split at h
    · rename_i hlt
      rw [dif_pos hlt]
      split at h
      · rename_i hk
        rw [if_pos hk]
        exact ih _ _ h
      · rename_i hk
        rw [if_neg hk]
        exact ih _ _ h
    · rename_i hge
      rw [dif_neg hge]
      exact h

/-- The loop of `getPrimaryOpenOracleDatabases` ends within its budget. -/
theorem filterLoop_total {α : Type} (keep : α → Bool) (dbs : List α) :
    ∃ r : List α, filterLoop keep dbs.length dbs 0 = some r ∧ r.Perm (dbs.filter keep) := by
  simpa using filterLoop_append keep dbs.length [] dbs (Nat.le_refl _)

theorem filterLoop_add {α : Type} (keep : α → Bool) (fuel more : Nat) (dbs : List α) (i : Nat)
    (r : List α) (h : filterLoop keep fuel dbs i = some r) :
    filterLoop keep (fuel + more) dbs i = some r := by
  induction more with
  | zero => exact h
  | succ more ih => exact filterLoop_succ keep (fuel + more) dbs i r ih

theorem isPrimaryOpen_iff {F : Type} (db : OracleDatabase F) :
    isPrimaryOpen db = true ↔
      db.Role = OracleDatabaseRolePrimary ∧ db.Status = OracleDatabaseStatusOpen := by
  simp [isPrimaryOpen]

/-- What a successful `getPrimaryOpenOracleDatabases` returns: a permutation of
the open primaries of the decoded body of the request. -/
theorem getPrimaryOpenOracleDatabases_ok {F : Type} (env : Env F) (w w1 : World)
    (dbs : List (OracleDatabase F))
    (h : getPrimaryOpenOracleDatabases env w = Exec.ok (some dbs, w1)) :
    ∃ decoded, env.httpDatabases w.dbFetches = some decoded ∧
      dbs.Perm (decoded.filter isPrimaryOpen) ∧ w1 = { w with dbFetches := w.dbFetches + 1 } := by
  unfold getPrimaryOpenOracleDatabases at h
  cases hd : env.httpDatabases w.dbFetches with
  | none => simp [hd] at h
  | some decoded =>
    obtain ⟨r, hr, hp⟩ := filterLoop_total isPrimaryOpen decoded
    simp only [hd, hr, Exec.ok.injEq, Prod.mk.injEq, Option.some.injEq] at h
    obtain ⟨rfl, rfl⟩ := h
    exact ⟨decoded, rfl, hp, rfl⟩

/-- The search loop returns the first element, in list order, with the DbID and
Name of the secondary. -/
theorem findPrimaryDb_eq_some {F : Type} (dbs : List (OracleDatabase F))
    (secondaryDb primaryDb : OracleDatabase F) (h : findPrimaryDb dbs secondaryDb = some primaryDb) :
    primaryDb.DbID = secondaryDb.DbID ∧ primaryDb.Name = secondaryDb.Name ∧
    ∃ i : Nat, dbs[i]? = some primaryDb ∧
      ∀ j : Nat, j < i → ∀ db, dbs[j]? = some db →
        ¬ (db.DbID = secondaryDb.DbID ∧ db.Name = secondaryDb.Name) := by
  unfold findPrimaryDb at h
  rw [List.find?_eq_some] at h
  obtain ⟨hp, as, bs, rfl, hfirst⟩ := h
  simp only [Bool.and_eq_true, beq_iff_eq] at hp
  refine ⟨hp.1, hp.2, as.length, ?_, ?_⟩
  · rw [List.getElem?_append_right (Nat.le_refl _)]
    simp
  · intro j hj db hdb
    rw [List.getElem?_append_left hj] at hdb
    have hmem : db ∈ as := List.getElem?_mem hdb
    have := hfirst db hmem
    rintro ⟨h1, h2⟩
    simp [h1, h2] at this

/-! ## Lemmas on the license type assignment -/

/-- The catalog scan finds nothing exactly when no entry has the alias. -/
theorem findLicenseTypeID_eq_none_iff (licenseTypes : List OracleDatabaseLicenseType) (name : String) :
    findLicenseTypeID licenseTypes name = none ↔ ∀ lt ∈ licenseTypes, name ∉ lt.Aliases := by
  induction licenseTypes with
  | nil => simp [findLicenseTypeID]
  | cons x xs ih =>
    by_cases hx : name ∈ x.Aliases
    · have hany : (x.Aliases.any (fun al => al == name)) = true := by
        simp only [List.any_eq_true, beq_iff_eq]
        exact ⟨name, hx, rfl⟩
      simp [findLicenseTypeID, hany, hx]
    · have hany : (x.Aliases.any (fun al => al == name)) = false := by
        simp only [List.any_eq_false, beq_iff_eq]
        intro al hal heq
        exact hx (heq ▸ hal)
      simp [findLicenseTypeID, hany, hx, ih]

/-- What the catalog scan finds is the ID of an entry that has the alias. -/
theorem findLicenseTypeID_eq_some (licenseTypes : List OracleDatabaseLicenseType) (name id : String)
    (h : findLicenseTypeID licenseTypes name = some id) :
    ∃ lt ∈ licenseTypes, name ∈ lt.Aliases ∧ lt.ID = id := by
  induction licenseTypes with
  | nil => simp [findLicenseTypeID] at h
  | cons x xs ih =>
    by_cases hany : (x.Aliases.any (fun al => al == name)) = true
    · rw [findLicenseTypeID, if_pos hany] at h
      simp only [List.any_eq_true, beq_iff_eq] at hany
      obtain ⟨al, hal, rfl⟩ := hany
      exact ⟨x, List.mem_cons_self _ _, hal, Option.some.inj h⟩
    · rw [findLicenseTypeID, if_neg hany] at h
      obtain ⟨lt, hlt, ha, hid⟩ := ih h
      exact ⟨lt, List.mem_cons_of_mem _ hlt, ha, hid⟩

/-- With the empty catalog `setLicenseTypeIDs` changes nothing. -/
theorem setLicenseTypeIDs_nil {F : Type} (database : OracleDatabase F) :
    setLicenseTypeIDs [] database = database := by
  cases database
  simp only [setLicenseTypeIDs, OracleDatabase.mk.injEq, true_and]
  have : ∀ l : OracleDatabaseLicense F, setLicenseTypeID [] l = l := fun l => by
    simp [setLicenseTypeID, findLicenseTypeID]
  simp [funext this]

/-- The request for the fleet listing submits no alert. -/
theorem getPrimaryOpenOracleDatabases_alerts {F : Type} (env : Env F) (w : World) :
    (getPrimaryOpenOracleDatabases env w).state.2.alerts = w.alerts := by
  unfold getPrimaryOpenOracleDatabases
  cases env.httpDatabases w.dbFetches with
  | none => rfl
  | some decoded =>
    simp only []
    cases filterLoop isPrimaryOpen decoded.length decoded 0 <;> rfl

/-! ## Lemmas on the priority map -/

theorem priorityMap_eq_foldl (order : List String) :
    priorityMap order = order.enum.foldl (priorityAssign order.length) (fun _ => 0) := rfl

theorem priorityAssign_foldl_concat (len : Int) (n : Nat) (xs : List String) (x : String)
    (m0 : String → Int) (key : String) :
    (List.enumFrom n (xs ++ [x])).foldl (priorityAssign len) m0 key =
      if key = x then len - ((n + xs.length : Nat) : Int)
      else (List.enumFrom n xs).foldl (priorityAssign len) m0 key := by
  rw [List.enumFrom_append, List.foldl_append]
  simp [priorityAssign]

/-- A key that is not in the list keeps its initial value. -/
theorem priorityAssign_foldl_not_mem (len : Int) (n : Nat) (xs : List String)
    (m0 : String → Int) (key : String) (h : key ∉ xs) :
    (List.enumFrom n xs).foldl (priorityAssign len) m0 key = m0 key := by
  induction xs using List.reverseRecOn with
  | nil => rfl
  | append_singleton xs x ih =>
    rw [priorityAssign_foldl_concat]
    have hx : key ≠ x := fun e => h (by simp [e])
    rw [if_neg hx]
    exact ih (fun hm => h (List.mem_append_left _ hm))

/-- A key whose last occurrence is at index `i` gets `len - (n + i)`. -/
theorem priorityAssign_foldl_last (len : Int) (n : Nat) (xs : List String)
    (m0 : String → Int) (key : String) (i : Nat)
    (hi : xs[i]? = some key) (hlast : ∀ j : Nat, i < j → xs[j]? ≠ some key) :
    (List.enumFrom n xs).foldl (priorityAssign len) m0 key = len - ((n + i : Nat) : Int) := by
  induction xs using List.reverseRecOn generalizing i with
  | nil => simp at hi
  | append_singleton xs x ih =>
    rw [priorityAssign_foldl_concat]
    by_cases hx : key = x
    · rw [if_pos hx]
      have hle : i < (xs ++ [x]).length := (List.getElem?_eq_some.mp hi).1
      simp only [List.length_append, List.length_singleton] at hle
      have : i = xs.length := by
        by_contra hne
        have hlt : i < xs.length := by omega
        apply hlast xs.length hlt
        rw [List.getElem?_append_right (Nat.le_refl _)]
        simp [hx]
      rw [this]
    · rw [if_neg hx]
      have hlt : i < xs.length := by
        by_contra hge
        have hle : i < (xs ++ [x]).length := (List.getElem?_eq_some.mp hi).1
        simp only [List.length_append, List.length_singleton] at hle
        have hi2 : i = xs.length := by omega
        rw [hi2, List.getElem?_append_right (Nat.le_refl _)] at hi
        simp at hi
        exact hx hi.symm
      apply ih i
      · rw [List.getElem?_append_left hlt] at hi
        exact hi
      · intro j hj hcon
        by_cases hjl : j < xs.length
        · apply hlast j hj
          rw [List.getElem?_append_left hjl]
          exact hcon
        · rw [List.getElem?_eq_none (by omega)] at hcon
          exact absurd hcon (by simp)

/-- Every element of a list has a last occurrence. -/
theorem exists_last_index (xs : List String) (key : String) (h : key ∈ xs) :
    ∃ i : Nat, xs[i]? = some key ∧ ∀ j : Nat, i < j → xs[j]? ≠ some key := by
  induction xs using List.reverseRecOn with
  | nil => simp at h
  | append_singleton xs x ih =>
    by_cases hx : key = x
    · refine ⟨xs.length, by rw [List.getElem?_append_right (Nat.le_refl _)]; simp [hx], ?_⟩
      intro j hj
      rw [List.getElem?_eq_none (by simp; omega)]
      simp
    · have hm : key ∈ xs := by
        rcases List.mem_append.mp h with hm | hm
        · exact hm
        · exact absurd (List.mem_singleton.mp hm) hx
      obtain ⟨i, hi, hlast⟩ := ih hm
      have hlt : i < xs.length := (List.getElem?_eq_some.mp hi).1
      refine ⟨i, by rw [List.getElem?_append_left hlt]; exact hi, ?_⟩
      intro j hj
      by_cases hjl : j < xs.length
      · rw [List.getElem?_append_left hjl]
        exact hlast j hj
      · by_cases hje : j = xs.length
        · rw [hje, List.getElem?_append_right (Nat.le_refl _)]
          simp
          exact fun e => hx e.symm
        · rw [List.getElem?_eq_none (by simp; omega)]
          simp

theorem priorityMap_last (order : List String) (key : String) (i : Nat)
    (hi : order[i]? = some key) (hlast : ∀ j : Nat, i < j → order[j]? ≠ some key) :
    priorityMap order key = (order.length : Int) - (i : Int) := by
  rw [priorityMap_eq_foldl]
  have := priorityAssign_foldl_last order.length 0 order (fun _ => 0) key i hi hlast
  simpa [List.enum] using this

theorem priorityMap_not_mem (order : List String) (key : String) (h : key ∉ order) :
    priorityMap order key = 0 := by
  rw [priorityMap_eq_foldl]
  exact priorityAssign_foldl_not_mem order.length 0 order (fun _ => 0) key h

theorem priorityMap_pos (order : List String) (key : String) (h : key ∈ order) :
    priorityMap order key ≥ 1 := by
  obtain ⟨i, hi, hlast⟩ := exists_last_index order key h
  rw [priorityMap_last order key i hi hlast]
  have hlt : i < order.length := (List.getElem?_eq_some.mp hi).1
  omega

/-! ## Lemmas on name-indexed maps -/

theorem mapKeys_mapSet {V : Type} (m : List (String × V)) (key : String) (value : V) :
    mapKeys (mapSet m key value) = if key ∈ mapKeys m then mapKeys m else mapKeys m ++ [key] := by
  induction m with
  | nil => simp [mapSet, mapKeys]
  | cons e rest ih =>
    by_cases he : e.1 = key
    · simp [mapSet, mapKeys, he]
    · have hne : ¬ key = e.1 := fun h => he h.symm
      simp only [mapKeys] at ih
      by_cases hk : key ∈ List.map (fun e => e.1) rest
      · simp [mapSet, mapKeys, he, hne, hk, ih]
      · simp [mapSet, mapKeys, he, hne, hk, ih]

theorem mem_mapSet {V : Type} (m : List (String × V)) (key : String) (value : V)
    (e : String × V) (h : e ∈ mapSet m key value) : e = (key, value) ∨ e ∈ m := by
  induction m with
  | nil =>
    simp only [mapSet, List.mem_singleton] at h
    exact Or.inl h
  | cons e0 rest ih =>
    by_cases he : e0.1 = key
    · simp only [mapSet, he, if_true, List.mem_cons] at h
      rcases h with h | h
      · exact Or.inl h
      · exact Or.inr (List.mem_cons_of_mem _ h)
    · simp only [mapSet, he, if_false, List.mem_cons] at h
      rcases h with h | h
      · exact Or.inr (h ▸ List.mem_cons_self _ _)
      · rcases ih h with h1 | h1
        · exact Or.inl h1
        · exact Or.inr (List.mem_cons_of_mem _ h1)

theorem DatabasesArrayAsMap_concat {F : Type} (dbs : List (OracleDatabase F)) (db : OracleDatabase F) :
    DatabasesArrayAsMap (dbs ++ [db]) = mapSet (DatabasesArrayAsMap dbs) db.Name db := by
  simp [DatabasesArrayAsMap, List.foldl_append]

/-- The keys of the database map are the database names, each once. -/
theorem mapKeys_DatabasesArrayAsMap {F : Type} (dbs : List (OracleDatabase F)) :
    (mapKeys (DatabasesArrayAsMap dbs)).Nodup ∧
    ∀ name, name ∈ mapKeys (DatabasesArrayAsMap dbs) ↔ name ∈ dbs.map (fun db => db.Name) := by
  induction dbs using List.reverseRecOn with
  | nil => simp [DatabasesArrayAsMap, mapKeys]
  | append_singleton dbs db ih =>
    obtain ⟨hnd, hkeys⟩ := ih
    rw [DatabasesArrayAsMap_concat, mapKeys_mapSet]
    by_cases hk : db.Name ∈ mapKeys (DatabasesArrayAsMap dbs)
    · rw [if_pos hk]
      refine ⟨hnd, fun name => ?_⟩
      rw [hkeys name]
      simp only [List.map_append, List.map_cons, List.map_nil, List.mem_append, List.mem_singleton]
      constructor
      · exact Or.inl
      · rintro (h | h)
        · exact h
        · rw [h]
          exact (hkeys db.Name).mp hk
    · rw [if_neg hk]
      refine ⟨?_, fun name => ?_⟩
      · rw [List.nodup_append]
        refine ⟨hnd, List.nodup_singleton _, ?_⟩
        intro a ha hb
        rw [List.mem_singleton] at hb
        exact hk (hb ▸ ha)
      · simp only [List.map_append, List.map_cons, List.map_nil, List.mem_append, List.mem_singleton]
        rw [hkeys name]

/-- Every entry of the database map is a database of the slice under its own name. -/
theorem mem_DatabasesArrayAsMap {F : Type} (dbs : List (OracleDatabase F))
    (e : String × OracleDatabase F) (h : e ∈ DatabasesArrayAsMap dbs) :
    e.2.Name = e.1 ∧ e.2 ∈ dbs := by
  induction dbs using List.reverseRecOn generalizing e with
  | nil => simp [DatabasesArrayAsMap] at h
  | append_singleton dbs db ih =>
    rw [DatabasesArrayAsMap_concat] at h
    rcases mem_mapSet _ _ _ _ h with h1 | h1
    · subst h1
      exact ⟨rfl, by simp⟩
    · obtain ⟨hn, hm⟩ := ih e h1
      exact ⟨hn, List.mem_append_left _ hm⟩

/-- In a map with distinct keys the lookup of the key of an entry gives its value. -/
theorem lookup_of_mem_nodup {V : Type} (m : List (String × V)) (hnd : (mapKeys m).Nodup)
    (e : String × V) (h : e ∈ m) : m.lookup e.1 = some e.2 := by
  induction m with
  | nil => simp at h
  | cons e0 rest ih =>
    obtain ⟨k0, v0⟩ := e0
    simp only [mapKeys, List.map_cons, List.nodup_cons] at hnd
    rcases List.mem_cons.mp h with h1 | h1
    · subst h1
      simp [List.lookup]
    · have hne : ¬ e.1 = k0 := by
        intro heq
        apply hnd.1
        rw [← heq]
        exact List.mem_map_of_mem (fun e => e.1) h1
      have hb : (e.1 == k0) = false := by simpa using hne
      rw [List.lookup_cons, hb]
      exact ih hnd.2 h1

theorem lookup_eq_none_iff_not_mem_mapKeys {V : Type} (m : List (String × V)) (key : String) :
    m.lookup key = none ↔ key ∉ mapKeys m := by
  rw [List.lookup_eq_none_iff]
  simp only [mapKeys, List.mem_map, not_exists, not_and, bne_iff_ne, ne_eq]
  constructor
  · intro h e he heq
    exact h e he heq.symm
  · intro h e he heq
    exact h e he heq.symm

/-- The keys of the database map of a snapshot. -/
theorem mapKeys_snapshotDbs {F : Type} (hostdata : HostDataBE F) :
    (mapKeys (snapshotDbs hostdata)).Nodup ∧
    ∀ name, name ∈ mapKeys (snapshotDbs hostdata) ↔ name ∈ snapshotNames hostdata := by
  unfold snapshotDbs snapshotNames
  cases hd : hostdata.Database with
  | none => simp [mapKeys]
  | some feature =>
    simp only []
    cases hf : feature.Databases with
    | none => simp [mapKeys]
    | some dbs =>
      simp only []
      exact mapKeys_DatabasesArrayAsMap dbs

theorem mem_snapshotDbs {F : Type} (hostdata : HostDataBE F)
    (e : String × OracleDatabase F) (h : e ∈ snapshotDbs hostdata) : e.2.Name = e.1 := by
  unfold snapshotDbs at h
  cases hd : hostdata.Database with
  | none => simp [hd] at h
  | some feature =>
    cases hf : feature.Databases with
    | none => simp [hd, hf] at h
    | some dbs =>
      simp only [hd, hf] at h
      exact (mem_DatabasesArrayAsMap dbs e h).1

/-! ## Lemmas on the alerts per database -/

/-- Among databases with pairwise distinct names, those with a given name and a
given property are one or none. -/
theorem countP_name_of_nodup {F : Type} (visited : List (OracleDatabase F))
    (hnd : (visited.map (fun db => db.Name)).Nodup) (name : String)
    (q : OracleDatabase F → Bool) :
    ((∃ db ∈ visited, db.Name = name ∧ q db = true) →
      visited.countP (fun db => db.Name == name && q db) = 1) ∧
    ((¬ ∃ db ∈ visited, db.Name = name ∧ q db = true) →
      visited.countP (fun db => db.Name == name && q db) = 0) := by
  constructor
  · induction visited with
    | nil => simp
    | cons d rest ih =>
      simp only [List.map_cons, List.nodup_cons] at hnd
      rintro ⟨db, hmem, hname, hq⟩
      rcases List.mem_cons.mp hmem with h | h
      · subst h
        have hrest : rest.countP (fun x => x.Name == name && q x) = 0 := by
          rw [List.countP_eq_zero]
          intro x hx
          have : x.Name ≠ name := by
            intro hxn
            apply hnd.1
            rw [hname, ← hxn]
            exact List.mem_map_of_mem (fun db => db.Name) hx
          simp [this]
        rw [List.countP_cons, hrest]
        simp [hname, hq]
      · have hd : d.Name ≠ name := by
          intro hdn
          apply hnd.1
          rw [hdn, ← hname]
          exact List.mem_map_of_mem (fun db => db.Name) h
        rw [List.countP_cons, ih hnd.2 ⟨db, h, hname, hq⟩]
        simp [hd]
  · intro hno
    rw [List.countP_eq_zero]
    intro x hx hcon
    apply hno
    simp only [Bool.and_eq_true, beq_iff_eq] at hcon
    exact ⟨x, hx, hcon.1, hcon.2⟩

/-- Alerts with a given code and database name. -/
theorem countP_alert_append (p : Alert → Bool) (xs ys : List Alert) :
    (xs ++ ys).countP p = xs.countP p + ys.countP p := List.countP_append p xs ys

/-- One iteration submits a `NewDatabaseDiscovered` alert for `name` exactly when
the database has that name and the previous map has no entry for it. -/
theorem countP_newDatabase_stepAlerts {F : Type} (env : Env F)
    (previousDbs : List (String × OracleDatabase F))
    (previousCores newCores : Int) (newHostname : String) (thrown : Bool)
    (newDb : OracleDatabase F) (name : String) :
    (stepAlerts env previousDbs previousCores newCores newHostname thrown newDb).countP
        (fun a => a.Code == AlertCode.NewDatabaseDiscovered && a.dbname == some name) =
      if (newDb.Name == name && (previousDbs.lookup newDb.Name).isNone) = true then 1 else 0 := by
  unfold stepAlerts
  rw [countP_alert_append, countP_alert_append]
  cases previousDbs.lookup newDb.Name <;>
  cases enterpriseCondition env previousCores newCores (oldDbOf previousDbs newDb) newDb <;>
  cases thrown <;>
  by_cases ha : (activatedLicensesOf env (oldDbOf previousDbs newDb) newDb).length > 0 <;>
  by_cases hn : newDb.Name = name <;>
  simp [ha, hn]

theorem countP_newDatabase_loopAlerts {F : Type} (env : Env F)
    (previousDbs : List (String × OracleDatabase F))
    (previousCores newCores : Int) (newHostname : String) (thrown : Bool)
    (visited : List (OracleDatabase F)) (name : String) :
    (loopAlerts env previousDbs previousCores newCores newHostname thrown visited).countP
        (fun a => a.Code == AlertCode.NewDatabaseDiscovered && a.dbname == some name) =
      visited.countP (fun db => db.Name == name && (previousDbs.lookup db.Name).isNone) := by
  induction visited generalizing thrown with
  | nil => simp [loopAlerts]
  | cons newDb rest ih =>
    rw [loopAlerts, countP_alert_append, countP_newDatabase_stepAlerts, ih, List.countP_cons]
    omega

/-- One iteration submits an `ActivatedFeatures` alert for `name` exactly when the
database has that name and its list of activated licenses is not empty. -/
theorem countP_activated_stepAlerts {F : Type} (env : Env F)
    (previousDbs : List (String × OracleDatabase F))
    (previousCores newCores : Int) (newHostname : String) (thrown : Bool)
    (newDb : OracleDatabase F) (name : String) :
    (stepAlerts env previousDbs previousCores newCores newHostname thrown newDb).countP
        (fun a => a.Code == AlertCode.ActivatedFeatures && a.dbname == some name) =
      if (newDb.Name == name &&
        decide ((activatedLicensesOf env (oldDbOf previousDbs newDb) newDb).length > 0)) = true
      then 1 else 0 := by
  unfold stepAlerts
  rw [countP_alert_append, countP_alert_append]
  cases previousDbs.lookup newDb.Name <;>
  cases enterpriseCondition env previousCores newCores (oldDbOf previousDbs newDb) newDb <;>
  cases thrown <;>
  by_cases ha : (activatedLicensesOf env (oldDbOf previousDbs newDb) newDb).length > 0 <;>
  by_cases hn : newDb.Name = name <;>
  simp [ha, hn]

theorem countP_activated_loopAlerts {F : Type} (env : Env F)
    (previousDbs : List (String × OracleDatabase F))
    (previousCores newCores : Int) (newHostname : String) (thrown : Bool)
    (visited : List (OracleDatabase F)) (name : String) :
    (loopAlerts env previousDbs previousCores newCores newHostname thrown visited).countP
        (fun a => a.Code == AlertCode.ActivatedFeatures && a.dbname == some name) =
      visited.countP (fun db => db.Name == name &&
        decide ((activatedLicensesOf env (oldDbOf previousDbs db) db).length > 0)) := by
  induction visited generalizing thrown with
  | nil => simp [loopAlerts]
  | cons newDb rest ih =>
    rw [loopAlerts, countP_alert_append, countP_activated_stepAlerts, ih, List.countP_cons]
    omega

/-- The databases visited are the values of the current map, and their names are
pairwise distinct, when the range visits each entry of the map. -/
theorem visitedDbs_spec {F : Type} (env : Env F) (current : HostDataBE F)
    (hrange : (env.rangeDbs (snapshotDbs current)).Perm (snapshotDbs current)) :
    ((visitedDbs env current).map (fun db => db.Name)).Nodup ∧
    (∀ db, db ∈ visitedDbs env current ↔ ∃ e ∈ snapshotDbs current, e.2 = db) ∧
    (∀ name, name ∈ (visitedDbs env current).map (fun db => db.Name) ↔
      name ∈ snapshotNames current) := by
  have hnames : (visitedDbs env current).map (fun db => db.Name) =
      mapKeys (env.rangeDbs (snapshotDbs current)) := by
    simp only [visitedDbs, mapKeys, List.map_map]
    apply List.map_congr_left
    intro e he
    exact mem_snapshotDbs current e (hrange.subset he)
  have hperm : (mapKeys (env.rangeDbs (snapshotDbs current))).Perm (mapKeys (snapshotDbs current)) :=
    hrange.map _
  obtain ⟨hnd, hkeys⟩ := mapKeys_snapshotDbs current
  refine ⟨?_, ?_, ?_⟩
  · rw [hnames]
    exact hperm.nodup_iff.mpr hnd
  · intro db
    simp only [visitedDbs, List.mem_map]
    constructor
    · rintro ⟨e, he, rfl⟩
      exact ⟨e, hrange.subset he, rfl⟩
    · rintro ⟨e, he, rfl⟩
      exact ⟨e, hrange.symm.subset he, rfl⟩
  · intro name
    rw [hnames, hperm.mem_iff, hkeys]

/-- The activated licenses of a database: the names that the diff maps to
`DiffFeatureActivated`, the three editions left out. -/
theorem mem_activatedLicensesOf {F : Type} (env : Env F) (oldDb newDb : OracleDatabase F)
    (name : String) :
    name ∈ activatedLicensesOf env oldDb newDb ↔
      ((name, env.DiffFeatureActivated) ∈ env.DiffLicenses oldDb.Licenses newDb.Licenses ∧
        name ≠ "Oracle ENT" ∧ name ≠ "Oracle STD" ∧ name ≠ "Oracle EXE") := by
  simp only [activatedLicensesOf, List.mem_map, List.mem_filter, Bool.and_eq_true, beq_iff_eq,
    bne_iff_ne, ne_eq]
  constructor
  · rintro ⟨e, ⟨he, ⟨⟨⟨h1, h2⟩, h3⟩, h4⟩⟩, rfl⟩
    refine ⟨?_, h2, h3, h4⟩
    rw [← h1]
    exact he
  · rintro ⟨he, h2, h3, h4⟩
    exact ⟨(name, env.DiffFeatureActivated), ⟨he, ⟨⟨⟨rfl, h2⟩, h3⟩, h4⟩⟩, rfl⟩

/-- An `ActivatedFeatures` alert of one iteration is the alert of its database,
whose list of activated licenses is not empty. -/
theorem mem_stepAlerts_activated {F : Type} (env : Env F)
    (previousDbs : List (String × OracleDatabase F))
    (previousCores newCores : Int) (newHostname : String) (thrown : Bool)
    (newDb : OracleDatabase F) (a : Alert) :
    (a ∈ stepAlerts env previousDbs previousCores newCores newHostname thrown newDb ∧
        a.Code = AlertCode.ActivatedFeatures) ↔
      (a = activatedAlertOf env previousDbs newHostname newDb ∧
        activatedLicensesOf env (oldDbOf previousDbs newDb) newDb ≠ []) := by
  unfold stepAlerts activatedAlertOf
  have hlen : (activatedLicensesOf env (oldDbOf previousDbs newDb) newDb).length > 0 ↔
      activatedLicensesOf env (oldDbOf previousDbs newDb) newDb ≠ [] := List.length_pos
  constructor
  · rintro ⟨hmem, hcode⟩
    simp only [List.mem_append] at hmem
    rcases hmem with (h | h) | h
    · split at h
      · simp at h
      · simp only [List.mem_singleton] at h
        subst h
        simp at hcode
    · split at h
      · simp only [List.mem_singleton] at h
        subst h
        simp at hcode
      · simp at h
    · split at h
      · rename_i hpos
        simp only [List.mem_singleton] at h
        exact ⟨h, hlen.mp hpos⟩
      · simp at h
  · rintro ⟨rfl, hne⟩
    refine ⟨?_, rfl⟩
    simp only [List.mem_append]
    right
    rw [if_pos (hlen.mpr hne)]
    simp

theorem mem_loopAlerts_activated {F : Type} (env : Env F)
    (previousDbs : List (String × OracleDatabase F))
    (previousCores newCores : Int) (newHostname : String) (thrown : Bool)
    (visited : List (OracleDatabase F)) (a : Alert) :
    (a ∈ loopAlerts env previousDbs previousCores newCores newHostname thrown visited ∧
        a.Code = AlertCode.ActivatedFeatures) ↔
      ∃ newDb ∈ visited, a = activatedAlertOf env previousDbs newHostname newDb ∧
        activatedLicensesOf env (oldDbOf previousDbs newDb) newDb ≠ [] := by
  induction visited generalizing thrown with
  | nil => simp [loopAlerts]
  | cons d rest ih =>
    rw [loopAlerts, List.mem_append, or_and_right, mem_stepAlerts_activated, ih]
    simp only [List.mem_cons, exists_eq_or_imp]

/-! ## Lemmas on the diff of equal snapshots -/

/-- In the diff of an entry set with itself every name is unchanged. -/
theorem transitionOf_self {F : Type} (env : Env F) (ls : List (OracleDatabaseLicense F))
    (name : String) : transitionOf env ls ls name = Transition.Unchanged := by
  unfold transitionOf
  cases isActive env ls name <;> simp

theorem DiffLicensesSpec_self {F : Type} (env : Env F) (ls : List (OracleDatabaseLicense F))
    (e : String × Transition) (h : e ∈ DiffLicensesSpec env ls ls) : e.2 = Transition.Unchanged := by
  simp only [DiffLicensesSpec, List.mem_map] at h
  obtain ⟨name, _, rfl⟩ := h
  exact transitionOf_self env ls name

/-- The diff of the sample environment reports `Activated` as the spec does. -/
theorem specEnv_DiffLicenses (old new : List (OracleDatabaseLicense Int)) (name : String)
    (h : (name, specEnv.DiffFeatureActivated) ∈ specEnv.DiffLicenses old new) :
    (name, Transition.Activated) ∈ DiffLicensesSpec specEnv old new := by
  simp only [specEnv, List.mem_map] at h
  obtain ⟨e, he, heq⟩ := h
  obtain ⟨n, t⟩ := e
  simp only [Prod.mk.injEq] at heq
  obtain ⟨rfl, ht⟩ := heq
  cases t with
  | Activated => exact he
  | Deactivated => simp [transitionCode] at ht
  | Unchanged => simp [transitionCode] at ht

/-- An iteration for a database that is its own previous counterpart, with equal
core counts and no activated license, submits nothing. -/
theorem stepAlerts_eq_nil {F : Type} (env : Env F) (previousDbs : List (String × OracleDatabase F))
    (cores : Int) (newHostname : String) (newDb : OracleDatabase F)
    (hfound : previousDbs.lookup newDb.Name = some newDb)
    (hact : activatedLicensesOf env newDb newDb = []) :
    stepAlerts env previousDbs cores cores newHostname false newDb = [] ∧
    enterpriseCondition env cores cores (oldDbOf previousDbs newDb) newDb = false := by
  have hold : oldDbOf previousDbs newDb = newDb := by simp [oldDbOf, hfound]
  have hcond : enterpriseCondition env cores cores newDb newDb = false := by
    simp [enterpriseCondition]
  rw [hold]
  refine ⟨?_, hcond⟩
  simp [stepAlerts, hfound, hold, hcond, hact]

theorem loopAlerts_eq_nil {F : Type} (env : Env F) (previousDbs : List (String × OracleDatabase F))
    (cores : Int) (newHostname : String) (visited : List (OracleDatabase F))
    (hall : ∀ newDb ∈ visited, previousDbs.lookup newDb.Name = some newDb ∧
      activatedLicensesOf env newDb newDb = []) :
    loopAlerts env previousDbs cores cores newHostname false visited = [] := by
  induction visited with
  | nil => rfl
  | cons d rest ih =>
    obtain ⟨hfound, hact⟩ := hall d (List.mem_cons_self _ _)
    obtain ⟨h1, h2⟩ := stepAlerts_eq_nil env previousDbs cores newHostname d hfound hact
    rw [loopAlerts, h1, h2]
    simpa using ih (fun newDb hmem => hall newDb (List.mem_cons_of_mem _ hmem))

/-! ## Lemmas on the alerts of `oracleDatabasesChecks` -/

theorem unlistedRunningLoop_eq {F : Type} (env : Env F) (hostname : String) (names : List String)
    (w : World) :
    unlistedRunningLoop env hostname names w =
      { w with alerts := w.alerts ++ names.map (fun dbname => unlistedAlertOf dbname hostname) } := by
  induction names generalizing w with
  | nil => simp [unlistedRunningLoop]
  | cons n rest ih =>
    unfold unlistedRunningLoop at ih ⊢
    rw [List.foldl_cons, ih]
    simp [throwUnlistedRunningDatabasesAlert, ThrowNewAlert, unlistedAlertOf]

/-- The alerts of `addLicensesToSecondaryDb`: none, or the one
`MissingPrimaryDatabase` alert. -/
theorem addLicensesToSecondaryDb_alerts {F : Type} (env : Env F) (hostInfo : Host)
    (secondaryDb : OracleDatabase F) (w : World) :
    ∃ extra : List Alert,
      (addLicensesToSecondaryDb env hostInfo secondaryDb w).state.2.alerts = w.alerts ++ extra ∧
      ∀ a ∈ extra, a.Code = AlertCode.MissingPrimaryDatabase := by
  have hg := getPrimaryOpenOracleDatabases_alerts env w
  unfold addLicensesToSecondaryDb
  cases hr : getPrimaryOpenOracleDatabases env w with
  | abort why s =>
    rw [hr] at hg
    exact ⟨[], by simpa [Exec.state] using hg, by simp⟩
  | ok s =>
    rw [hr] at hg
    obtain ⟨dbs, w1⟩ := s
    simp only [Exec.state] at hg
    cases dbs with
    | none => exact ⟨[], by simpa [Exec.state] using hg, by simp⟩
    | some dbs =>
      simp only [addLicensesWith]
      cases findPrimaryDb dbs secondaryDb with
      | some primaryDb => exact ⟨[], by simpa [Exec.state] using hg, by simp⟩
      | none =>
        refine ⟨[missingPrimaryAlert hostInfo secondaryDb], ?_, by simp [missingPrimaryAlert]⟩
        simp only [ThrowNewAlert]
        split <;> simp [Exec.state, hg]

/-- The alerts of `checkSecondaryDbs` are `MissingPrimaryDatabase` alerts. -/
theorem checkSecondaryDbs_alerts {F : Type} (env : Env F) (hostInfo : Host)
    (dbs : List (OracleDatabase F)) (w : World) :
    ∃ extra : List Alert,
      (checkSecondaryDbs env hostInfo dbs w).state.2.alerts = w.alerts ++ extra ∧
      ∀ a ∈ extra, a.Code = AlertCode.MissingPrimaryDatabase := by
  induction dbs generalizing w with
  | nil => exact ⟨[], by simp [checkSecondaryDbs, Exec.state], by simp⟩
  | cons db rest ih =>
    unfold checkSecondaryDbs
    split
    · obtain ⟨extra1, h1, hc1⟩ := addLicensesToSecondaryDb_alerts env hostInfo db w
      cases hr : addLicensesToSecondaryDb env hostInfo db w with
      | abort why s =>
        obtain ⟨db1, w1⟩ := s
        rw [hr] at h1
        exact ⟨extra1, by simpa [Exec.state] using h1, hc1⟩
      | ok s =>
        obtain ⟨db1, w1⟩ := s
        rw [hr] at h1
        simp only [Exec.state] at h1
        obtain ⟨extra2, h2, hc2⟩ := ih w1
        refine ⟨extra1 ++ extra2, ?_, ?_⟩
        · simp only []
          cases hr2 : checkSecondaryDbs env hostInfo rest w1 with
          | abort why s2 =>
            obtain ⟨rest1, w2⟩ := s2
            rw [hr2] at h2
            simp only [Exec.state] at h2 ⊢
            rw [h2, h1, List.append_assoc]
          | ok s2 =>
            obtain ⟨rest1, w2⟩ := s2
            rw [hr2] at h2
            simp only [Exec.state] at h2 ⊢
            rw [h2, h1, List.append_assoc]
        · intro a ha
          rcases List.mem_append.mp ha with h | h
          · exact hc1 a h
          · exact hc2 a h
    · obtain ⟨extra2, h2, hc2⟩ := ih w
      refine ⟨extra2, ?_, hc2⟩
      cases hr2 : checkSecondaryDbs env hostInfo rest w with
      | abort why s2 =>
        obtain ⟨rest1, w2⟩ := s2
        rw [hr2] at h2
        simpa [Exec.state] using h2
      | ok s2 =>
        obtain ⟨rest1, w2⟩ := s2
        rw [hr2] at h2
        simpa [Exec.state] using h2

theorem setLicenseTypes_alerts {F : Type} (env : Env F) (environment : String)
    (databases : List (OracleDatabase F)) (w : World) :
    (setLicenseTypes env environment databases w).2.alerts = w.alerts := by
  unfold setLicenseTypes getOracleDatabaseLicenseTypes
  cases env.httpLicenseTypes w.ltFetches <;> rfl

/-- No alert of an iteration of `checkNewLicenses` has the code `UnlistedRunningDatabase`. -/
theorem stepAlerts_not_unlisted {F : Type} (env : Env F)
    (previousDbs : List (String × OracleDatabase F))
    (previousCores newCores : Int) (newHostname : String) (thrown : Bool)
    (newDb : OracleDatabase F) (a : Alert)
    (h : a ∈ stepAlerts env previousDbs previousCores newCores newHostname thrown newDb) :
    a.Code ≠ AlertCode.UnlistedRunningDatabase := by
  unfold stepAlerts at h
  simp only [List.mem_append] at h
  rcases h with (h | h) | h
  · split at h
    · simp at h
    · simp only [List.mem_singleton] at h
      subst h
      simp
  · split at h
    · simp only [List.mem_singleton] at h
      subst h
      simp
    · simp at h
  · split at h
    · simp only [List.mem_singleton] at h
      subst h
      simp
    · simp at h

theorem loopAlerts_not_unlisted {F : Type} (env : Env F)
    (previousDbs : List (String × OracleDatabase F))
    (previousCores newCores : Int) (newHostname : String) (thrown : Bool)
    (visited : List (OracleDatabase F)) (a : Alert)
    (h : a ∈ loopAlerts env previousDbs previousCores newCores newHostname thrown visited) :
    a.Code ≠ AlertCode.UnlistedRunningDatabase := by
  induction visited generalizing thrown with
  | nil => simp [loopAlerts] at h
  | cons d rest ih =>
    rw [loopAlerts, List.mem_append] at h
    rcases h with h | h
    · exact stepAlerts_not_unlisted env _ _ _ _ _ _ a h
    · exact ih _ h

/-- The run of `oracleDatabasesChecks` when `checkSecondaryDbs` returns. -/
theorem oracleDatabasesChecks_of_ok {F : Type} (env : Env F) (previousHostdata hostdata : HostDataBE F)
    (w : World) (feature : OracleDatabaseFeature F) (dbs dbs1 : List (OracleDatabase F)) (w1 : World)
    (hdb : hostdata.Database = some feature) (hdbs : feature.Databases = some dbs)
    (hsec : checkSecondaryDbs env hostdata.Info dbs w = Exec.ok (dbs1, w1)) :
    oracleDatabasesChecks env previousHostdata hostdata w =
      Exec.ok
        ({ hostdata with Database := some { feature with
            Databases := some (setLicenseTypes env hostdata.Environment dbs1 w1).1 } },
         unlistedRunningLoop env hostdata.Hostname feature.UnlistedRunningDatabases
          (checkNewLicenses env previousHostdata
            { hostdata with Database := some { feature with
              Databases := some (setLicenseTypes env hostdata.Environment dbs1 w1).1 } }
            (setLicenseTypes env hostdata.Environment dbs1 w1).2)) := by
  simp only [oracleDatabasesChecks, hdb, hdbs, hsec]

/-! ## Lemmas on repeated license inheritance -/

/-- Overwriting the count of the first entry of a name with the count it has
changes nothing. -/
theorem overwriteFirst_of_firstCount {F : Type} (name : String) (count : F)
    (ls : List (OracleDatabaseLicense F)) (h : firstCount name ls = some count) :
    overwriteFirst name count ls = some ls := by
  induction ls with
  | nil => simp [firstCount] at h
  | cons l rest ih =>
    by_cases hn : l.Name = name
    · have hc : l.Count = count := by
        simpa [firstCount, List.find?_cons, hn] using h
      cases l
      simp only at hn hc
      subst hc
      simp [overwriteFirst, hn]
    · have hrest : firstCount name rest = some count := by
        simpa [firstCount, List.find?_cons, hn] using h
      simp [overwriteFirst, hn, ih hrest]

theorem licenseStep_fixed {F : Type} (env : Env F) (count : F)
    (ls : List (OracleDatabaseLicense F)) (pl : OracleDatabaseLicense F)
    (h : env.gt pl.Count env.zero = true → firstCount pl.Name ls = some count) :
    licenseStep env count ls pl = ls := by
  unfold licenseStep
  by_cases hpos : env.gt pl.Count env.zero = true
  · rw [if_pos hpos, overwriteFirst_of_firstCount _ _ _ (h hpos)]
  · rw [if_neg hpos]

/-- A license list in which every positive primary name already has the
inherited count on its first entry is left as it is by the cycle. -/
theorem primaryDbLicensesCycle_fixed {F : Type} (env : Env F) (count : F)
    (primary ls : List (OracleDatabaseLicense F))
    (h : ∀ pl ∈ primary, env.gt pl.Count env.zero = true → firstCount pl.Name ls = some count) :
    primaryDbLicensesCycle env count primary ls = ls := by
  induction primary with
  | nil => rfl
  | cons p ps ih =>
    unfold primaryDbLicensesCycle at ih ⊢
    rw [List.foldl_cons, licenseStep_fixed env count ls p (h p (List.mem_cons_self _ _))]
    exact ih (fun pl hpl => h pl (List.mem_cons_of_mem _ hpl))

theorem primaryDbLicensesCycle_idem {F : Type} (env : Env F) (count : F)
    (primary ls : List (OracleDatabaseLicense F)) :
    primaryDbLicensesCycle env count primary (primaryDbLicensesCycle env count primary ls) =
      primaryDbLicensesCycle env count primary ls :=
  primaryDbLicensesCycle_fixed env count primary _
    (fun pl hpl hpos => firstCount_cycle env count primary ls pl hpl hpos)

/-! ## Lemmas on the requests of a run -/

theorem getPrimaryOpenOracleDatabases_fetches {F : Type} (env : Env F) (w : World) :
    (getPrimaryOpenOracleDatabases env w).state.2.dbFetches = w.dbFetches + 1 ∧
    (getPrimaryOpenOracleDatabases env w).state.2.ltFetches = w.ltFetches := by
  unfold getPrimaryOpenOracleDatabases
  cases env.httpDatabases w.dbFetches with
  | none => exact ⟨rfl, rfl⟩
  | some decoded =>
    simp only []
    cases filterLoop isPrimaryOpen decoded.length decoded 0 <;> exact ⟨rfl, rfl⟩

/-- Every call of `addLicensesToSecondaryDb` makes one request for the fleet
listing and none for the catalog. -/
theorem addLicensesToSecondaryDb_fetches {F : Type} (env : Env F) (hostInfo : Host)
    (secondaryDb : OracleDatabase F) (w : World) :
    (addLicensesToSecondaryDb env hostInfo secondaryDb w).state.2.dbFetches = w.dbFetches + 1 ∧
    (addLicensesToSecondaryDb env hostInfo secondaryDb w).state.2.ltFetches = w.ltFetches := by
  have hg := getPrimaryOpenOracleDatabases_fetches env w
  unfold addLicensesToSecondaryDb
  cases hr : getPrimaryOpenOracleDatabases env w with
  | abort why s =>
    rw [hr] at hg
    exact hg
  | ok s =>
    rw [hr] at hg
    obtain ⟨dbs, w1⟩ := s
    simp only [Exec.state] at hg
    cases dbs with
    | none => exact hg
    | some dbs =>
      simp only [addLicensesWith]
      cases findPrimaryDb dbs secondaryDb with
      | some primaryDb => exact hg
      | none =>
        simp only [ThrowNewAlert]
        split <;> exact hg

/-- A run of `checkSecondaryDbs` that returns has made one request for the fleet
listing per secondary database. -/
theorem checkSecondaryDbs_fetches {F : Type} (env : Env F) (hostInfo : Host)
    (dbs dbs1 : List (OracleDatabase F)) (w w1 : World)
    (h : checkSecondaryDbs env hostInfo dbs w = Exec.ok (dbs1, w1)) :
    w1.dbFetches = w.dbFetches + (dbs.filter isSecondaryDb).length ∧ w1.ltFetches = w.ltFetches := by
  induction dbs generalizing dbs1 w w1 with
  | nil =>
    simp only [checkSecondaryDbs, Exec.ok.injEq, Prod.mk.injEq] at h
    obtain ⟨_, rfl⟩ := h
    simp
  | cons db rest ih =>
    unfold checkSecondaryDbs at h
    by_cases hsec : (db.Status == OracleDatabaseStatusMounted && db.Role != OracleDatabaseRolePrimary) = true
    · rw [if_pos hsec] at h
      have hf := addLicensesToSecondaryDb_fetches env hostInfo db w
      cases hr : addLicensesToSecondaryDb env hostInfo db w with
      | abort why s =>
        rw [hr] at h
        simp at h
      | ok s =>
        obtain ⟨db1, w0⟩ := s
        rw [hr] at h hf
        simp only [Exec.state] at hf
        simp only [] at h
        cases hr2 : checkSecondaryDbs env hostInfo rest w0 with
        | abort why s2 =>
          rw [hr2] at h
          simp at h
        | ok s2 =>
          obtain ⟨rest1, w2⟩ := s2
          rw [hr2] at h
          simp only [Exec.ok.injEq, Prod.mk.injEq] at h
          obtain ⟨_, rfl⟩ := h
          obtain ⟨h1, h2⟩ := ih rest1 w0 w2 hr2
          have hfil : isSecondaryDb db = true := hsec
          simp only [List.filter_cons, hfil, if_true, List.length_cons]
          constructor
          · rw [h1, hf.1]
            omega
          · rw [h2, hf.2]
    · rw [if_neg hsec] at h
      cases hr2 : checkSecondaryDbs env hostInfo rest w with
      | abort why s2 =>
        rw [hr2] at h
        simp at h
      | ok s2 =>
        obtain ⟨rest1, w2⟩ := s2
        rw [hr2] at h
        simp only [Exec.ok.injEq, Prod.mk.injEq] at h
        obtain ⟨_, rfl⟩ := h
        have hfil : isSecondaryDb db = false := by simpa [isSecondaryDb] using hsec
        simp only [List.filter_cons, hfil]
        exact ih rest1 w w2 hr2

/-- In every outcome of `checkSecondaryDbs` a database that is not secondary is
at its index as it was. -/
theorem checkSecondaryDbs_frame {F : Type} (env : Env F) (hostInfo : Host)
    (dbs : List (OracleDatabase F)) (w : World) (i : Nat) (db : OracleDatabase F)
    (hi : dbs[i]? = some db) (hnot : isSecondaryDb db = false) :
    (checkSecondaryDbs env hostInfo dbs w).state.1[i]? = some db := by
  induction dbs generalizing w i with
  | nil => simp at hi
  | cons d rest ih =>
    unfold checkSecondaryDbs
    by_cases hsec : (d.Status == OracleDatabaseStatusMounted && d.Role != OracleDatabaseRolePrimary) = true
    · rw [if_pos hsec]
      cases i with
      | zero =>
        simp only [List.getElem?_cons_zero, Option.some.injEq] at hi
        subst hi
        have : isSecondaryDb d = true := hsec
        rw [this] at hnot
        exact absurd hnot (by simp)
      | succ i =>
        simp only [List.getElem?_cons_succ] at hi
        cases hr : addLicensesToSecondaryDb env hostInfo d w with
        | abort why s =>
          obtain ⟨db1, w1⟩ := s
          simpa [Exec.state] using hi
        | ok s =>
          obtain ⟨db1, w1⟩ := s
          simp only []
          have := ih w1 i hi
          cases hr2 : checkSecondaryDbs env hostInfo rest w1 with
          | abort why s2 =>
            obtain ⟨rest1, w2⟩ := s2
            rw [hr2] at this
            simpa [Exec.state] using this
          | ok s2 =>
            obtain ⟨rest1, w2⟩ := s2
            rw [hr2] at this
            simpa [Exec.state] using this
    · rw [if_neg hsec]
      cases i with
      | zero =>
        simp only [List.getElem?_cons_zero, Option.some.injEq] at hi
        subst hi
        cases hr2 : checkSecondaryDbs env hostInfo rest w with
        | abort why s2 =>
          obtain ⟨rest1, w2⟩ := s2
          simp [Exec.state]
        | ok s2 =>
          obtain ⟨rest1, w2⟩ := s2
          simp [Exec.state]
      | succ i =>
        simp only [List.getElem?_cons_succ] at hi
        have := ih w i hi
        cases hr2 : checkSecondaryDbs env hostInfo rest w with
        | abort why s2 =>
          obtain ⟨rest1, w2⟩ := s2
          rw [hr2] at this
          simpa [Exec.state] using this
        | ok s2 =>
          obtain ⟨rest1, w2⟩ := s2
          rw [hr2] at this
          simpa [Exec.state] using this

theorem setLicenseTypes_world {F : Type} (env : Env F) (environment : String)
    (databases : List (OracleDatabase F)) (w : World) :
    (setLicenseTypes env environment databases w).2 = { w with ltFetches := w.ltFetches + 1 } := by
  unfold setLicenseTypes getOracleDatabaseLicenseTypes
  cases env.httpLicenseTypes w.ltFetches <;> rfl

/-! ## Lemmas on the order of the visits -/

/-- The alerts of one iteration, up to order: the Enterprise alert when the gate
fires, and the alerts of the database. -/
theorem stepAlerts_perm {F : Type} (env : Env F) (previousDbs : List (String × OracleDatabase F))
    (previousCores newCores : Int) (newHostname : String) (thrown : Bool)
    (newDb : OracleDatabase F) :
    (stepAlerts env previousDbs previousCores newCores newHostname thrown newDb).Perm
      ((if (enterpriseCondition env previousCores newCores (oldDbOf previousDbs newDb) newDb
            && !thrown) = true
        then [enterpriseAlertOf newHostname] else []) ++
        perDbAlerts env previousDbs newHostname newDb) := by
  unfold stepAlerts perDbAlerts enterpriseAlertOf activatedAlertOf
  rw [← List.append_assoc]
  exact List.Perm.append_right _ List.perm_append_comm

/-- The alerts of the loop, up to order: one Enterprise alert when the flag is
down and some visited database meets the condition, and the alerts of each
visited database. -/
theorem loopAlerts_perm {F : Type} (env : Env F) (previousDbs : List (String × OracleDatabase F))
    (previousCores newCores : Int) (newHostname : String) (thrown : Bool)
    (visited : List (OracleDatabase F)) :
    (loopAlerts env previousDbs previousCores newCores newHostname thrown visited).Perm
      ((if (!thrown && visited.any (fun newDb =>
            enterpriseCondition env previousCores newCores (oldDbOf previousDbs newDb) newDb)) = true
        then [enterpriseAlertOf newHostname] else []) ++
        visited.flatMap (perDbAlerts env previousDbs newHostname)) := by
  induction visited generalizing thrown with
  | nil => simp [loopAlerts]
  | cons d rest ih =>
    rw [loopAlerts, List.flatMap_cons]
    refine ((stepAlerts_perm env previousDbs previousCores newCores newHostname thrown d).append
      (ih (thrown || enterpriseCondition env previousCores newCores (oldDbOf previousDbs d) d))).trans ?_
    cases thrown <;>
    cases hc : enterpriseCondition env previousCores newCores (oldDbOf previousDbs d) d <;>
    simp only [Bool.false_or, Bool.true_or, Bool.not_false, Bool.not_true, Bool.and_true,
      Bool.and_false, Bool.true_and, Bool.false_and, List.any_cons, hc, if_true, if_false,
      Bool.false_eq_true, List.nil_append, List.append_nil, List.singleton_append,
      List.cons_append, List.append_assoc]
    · exact List.perm_append_comm_assoc _ _ _
    · exact List.Perm.refl _
    · exact List.Perm.refl _
    · exact List.Perm.refl _

/-- The activated licenses do not depend, as a set, on the order in which the
diff lists its entries. -/
theorem activatedLicensesOf_perm {F : Type} (env env2 : Env F) (oldDb newDb : OracleDatabase F)
    (hact : env2.DiffFeatureActivated = env.DiffFeatureActivated)
    (hd : (env2.DiffLicenses oldDb.Licenses newDb.Licenses).Perm
      (env.DiffLicenses oldDb.Licenses newDb.Licenses)) :
    (activatedLicensesOf env2 oldDb newDb).Perm (activatedLicensesOf env oldDb newDb) := by
  unfold activatedLicensesOf
  rw [hact]
  exact (hd.filter _).map _

theorem perDbAlerts_alertKey {F : Type} (env env2 : Env F)
    (previousDbs : List (String × OracleDatabase F)) (newHostname : String)
    (newDb : OracleDatabase F)
    (hperm : (activatedLicensesOf env2 (oldDbOf previousDbs newDb) newDb).Perm
      (activatedLicensesOf env (oldDbOf previousDbs newDb) newDb)) :
    (perDbAlerts env2 previousDbs newHostname newDb).map alertKey =
      (perDbAlerts env previousDbs newHostname newDb).map alertKey := by
  unfold perDbAlerts activatedAlertOf
  rw [hperm.length_eq]
  simp only [List.map_append]
  congr 1
  split
  · simp only [List.map_cons, List.map_nil, alertKey, List.toFinset_eq_of_perm _ _ hperm]
  · rfl

theorem any_eq_of_perm {α : Type} (p : α → Bool) (xs ys : List α) (h : xs.Perm ys) :
    xs.any p = ys.any p := by
  rw [Bool.eq_iff_iff]
  simp only [List.any_eq_true]
  constructor
  · rintro ⟨x, hx, hp⟩
    exact ⟨x, h.subset hx, hp⟩
  · rintro ⟨x, hx, hp⟩
    exact ⟨x, h.symm.subset hx, hp⟩

/-! ## Lemmas on databases that share a name -/

theorem mem_mapSet_self {V : Type} (m : List (String × V)) (key : String) (value : V) :
    (key, value) ∈ mapSet m key value := by
  induction m with
  | nil => simp [mapSet]
  | cons e0 rest ih =>
    by_cases he : e0.1 = key
    · simp [mapSet, he]
    · simp only [mapSet, he, if_false]
      exact List.mem_cons_of_mem _ ih

theorem mem_mapSet_of_ne {V : Type} (m : List (String × V)) (key : String) (value : V)
    (e : String × V) (h : e ∈ m) (hne : e.1 ≠ key) : e ∈ mapSet m key value := by
  induction m with
  | nil => simp at h
  | cons e0 rest ih =>
    rcases List.mem_cons.mp h with h0 | h0
    · subst h0
      simp [mapSet, hne]
    · by_cases he : e0.1 = key
      · simp only [mapSet, he, if_true]
        exact List.mem_cons_of_mem _ h0
      · simp only [mapSet, he, if_false]
        exact List.mem_cons_of_mem _ (ih h0)

/-- The database map holds, under a name, the last database of that name. -/
theorem mem_DatabasesArrayAsMap_last {F : Type} (front back : List (OracleDatabase F))
    (db : OracleDatabase F) (hlast : ∀ later ∈ back, later.Name ≠ db.Name) :
    (db.Name, db) ∈ DatabasesArrayAsMap (front ++ db :: back) := by
  induction back using List.reverseRecOn with
  | nil =>
    rw [DatabasesArrayAsMap_concat]
    exact mem_mapSet_self _ _ _
  | append_singleton back d ih =>
    have hassoc : front ++ db :: (back ++ [d]) = (front ++ db :: back) ++ [d] := by simp
    rw [hassoc, DatabasesArrayAsMap_concat]
    apply mem_mapSet_of_ne
    · exact ih (fun later hl => hlast later (List.mem_append_left _ hl))
    · exact fun h => hlast d (List.mem_append_right _ (List.mem_singleton_self d)) h.symm

theorem mem_snapshotDbs_last {F : Type} (hostdata : HostDataBE F)
    (front back : List (OracleDatabase F)) (db : OracleDatabase F)
    (hsplit : snapshotDatabases hostdata = front ++ db :: back)
    (hlast : ∀ later ∈ back, later.Name ≠ db.Name) :
    (db.Name, db) ∈ snapshotDbs hostdata := by
  unfold snapshotDatabases at hsplit
  unfold snapshotDbs
  cases hd : hostdata.Database with
  | none => simp [hd] at hsplit
  | some feature =>
    cases hf : feature.Databases with
    | none => simp [hd, hf] at hsplit
    | some dbs =>
      simp only [hd, hf] at hsplit
      simp only [hf]
      rw [hsplit]
      exact mem_DatabasesArrayAsMap_last front back db hlast

/-- The `ActivatedFeatures` alerts for an entry of the current database map: one,
the alert built from the entry, when its list of activated licenses is not
empty, and none when it is empty. -/
theorem activatedAlerts_of_map_entry {F : Type} (env : Env F) (previous current : HostDataBE F)
    (hrange : (env.rangeDbs (snapshotDbs current)).Perm (snapshotDbs current))
    (e : String × OracleDatabase F) (he : e ∈ snapshotDbs current) :
    (activatedLicensesOf env (oldDbOf (snapshotDbs previous) e.2) e.2 ≠ [] →
      (loopAlerts env (snapshotDbs previous) previous.Info.CPUCores current.Info.CPUCores
          current.Hostname false (visitedDbs env current)).countP
        (fun a => a.Code == AlertCode.ActivatedFeatures && a.dbname == some e.2.Name) = 1 ∧
      activatedAlertOf env (snapshotDbs previous) current.Hostname e.2 ∈
        loopAlerts env (snapshotDbs previous) previous.Info.CPUCores current.Info.CPUCores
          current.Hostname false (visitedDbs env current)) ∧
    (activatedLicensesOf env (oldDbOf (snapshotDbs previous) e.2) e.2 = [] →
      (loopAlerts env (snapshotDbs previous) previous.Info.CPUCores current.Info.CPUCores
          current.Hostname false (visitedDbs env current)).countP
        (fun a => a.Code == AlertCode.ActivatedFeatures && a.dbname == some e.2.Name) = 0) := by
  obtain ⟨hnd, hvis, _⟩ := visitedDbs_spec env current hrange
  have hin : e.2 ∈ visitedDbs env current := (hvis e.2).mpr ⟨e, he, rfl⟩
  have hunique : ∀ db ∈ visitedDbs env current, db.Name = e.2.Name → db = e.2 := by
    intro db hdb hname
    obtain ⟨e1, he1, rfl⟩ := (hvis db).mp hdb
    have hk := (mapKeys_snapshotDbs current).1
    have h1 := lookup_of_mem_nodup _ hk e1 he1
    have h2 := lookup_of_mem_nodup _ hk e he
    rw [← mem_snapshotDbs current e1 he1, hname, mem_snapshotDbs current e he, h2] at h1
    exact (Option.some.inj h1).symm
  constructor
  · intro hne
    constructor
    · rw [countP_activated_loopAlerts]
      apply (countP_name_of_nodup _ hnd e.2.Name _).1
      exact ⟨e.2, hin, rfl, by simpa using List.length_pos.mpr hne⟩
    · exact ((mem_loopAlerts_activated env _ _ _ _ _ _ _).mpr ⟨e.2, hin, rfl, hne⟩).1
  · intro hnil
    rw [countP_activated_loopAlerts]
    apply (countP_name_of_nodup _ hnd e.2.Name _).2
    rintro ⟨db, hdb, hname, hq⟩
    rw [hunique db hdb hname, hnil] at hq
    simp at hq


/-! ## Claims -/

/-- C1: when the fleet listing holds a primary with the DbID and Name of the
secondary, `addLicensesToSecondaryDb` returns, and for every license of that
primary with `Count > 0` the first license of the secondary with the same name
has count `float64(CPUCores) * coreFactor`, whatever the primary count was; with
a core factor of 0 (and `x * 0 = 0` for converted core counts) that count is 0. -/
theorem C1_inherited_count {F : Type} (env : Env F) (hostInfo : Host)
    (secondaryDb primaryDb : OracleDatabase F) (dbs : List (OracleDatabase F)) (w w1 : World)
    (hfetch : getPrimaryOpenOracleDatabases env w = Exec.ok (some dbs, w1))
    (hfind : findPrimaryDb dbs secondaryDb = some primaryDb) :
    ∃ db1 : OracleDatabase F,
      addLicensesToSecondaryDb env hostInfo secondaryDb w = Exec.ok (db1, w1) ∧
      (∀ pl ∈ primaryDb.Licenses, env.gt pl.Count env.zero = true →
        firstCount pl.Name db1.Licenses =
          some (env.mul (env.ofInt hostInfo.CPUCores) (env.CoreFactor secondaryDb hostInfo))) ∧
      (env.CoreFactor secondaryDb hostInfo = env.zero →
        (∀ n : Int, env.mul (env.ofInt n) env.zero = env.zero) →
        ∀ pl ∈ primaryDb.Licenses, env.gt pl.Count env.zero = true →
          firstCount pl.Name db1.Licenses = some env.zero) := by
  refine ⟨_, addLicensesToSecondaryDb_found env hostInfo secondaryDb primaryDb dbs w w1 hfetch hfind,
    ?_, ?_⟩
  · intro pl hmem hpos
    exact firstCount_cycle env _ primaryDb.Licenses secondaryDb.Licenses pl hmem hpos
  · intro hzero hmul pl hmem hpos
    have hc : inheritedCount env hostInfo secondaryDb = env.zero := by
      unfold inheritedCount
      rw [hzero, hmul]
    have := firstCount_cycle env (inheritedCount env hostInfo secondaryDb)
      primaryDb.Licenses secondaryDb.Licenses pl hmem hpos
    rw [hc] at this ⊢
    exact this

/-- Witness of C1 on the sample data: the standby of `D1` on a host with 8 cores. -/
theorem C1_inherited_count_witness :
    getPrimaryOpenOracleDatabases sampleEnv World.init = Exec.ok (some [samplePrimary], World.fetched) ∧
    findPrimaryDb [samplePrimary] sampleStandby = some samplePrimary ∧
    ∃ db1 : OracleDatabase Int,
      addLicensesToSecondaryDb sampleEnv sampleHost sampleStandby World.init
        = Exec.ok (db1, World.fetched) ∧
      (∀ pl ∈ samplePrimary.Licenses, sampleEnv.gt pl.Count sampleEnv.zero = true →
        firstCount pl.Name db1.Licenses =
          some (sampleEnv.mul (sampleEnv.ofInt sampleHost.CPUCores)
            (sampleEnv.CoreFactor sampleStandby sampleHost))) ∧
      (sampleEnv.CoreFactor sampleStandby sampleHost = sampleEnv.zero →
        (∀ n : Int, sampleEnv.mul (sampleEnv.ofInt n) sampleEnv.zero = sampleEnv.zero) →
        ∀ pl ∈ samplePrimary.Licenses, sampleEnv.gt pl.Count sampleEnv.zero = true →
          firstCount pl.Name db1.Licenses = some sampleEnv.zero) :=
  ⟨by decide, by decide,
    C1_inherited_count sampleEnv sampleHost sampleStandby samplePrimary [samplePrimary]
      World.init World.fetched (by decide) (by decide)⟩

/-- C2 (code at the failing input): for a standby without primary in the fleet
listing and a working alert client, `addLicensesToSecondaryDb` submits the
`MissingPrimaryDatabase` alert, leaves the licenses unchanged, and is then
aborted by the dereference of the nil `primaryDb`. -/
theorem C2_missing_primary_aborts :
    addLicensesToSecondaryDb sampleEnv sampleHost orphanStandby World.init =
      Exec.abort Abort.nilPointerDereference (orphanStandby, World.orphanAlerted) := by
  decide

/-- C3 (code at the failing input): `oracleDatabasesChecks` on a snapshot with a
standby whose primary is missing is aborted by the nil dereference; the later
steps (catalog request, diff, unlisted running databases) are not reached. -/
theorem C3_checks_abort_on_missing_primary :
    oracleDatabasesChecks sampleEnv firstSnapshot orphanSnapshot World.init =
      Exec.abort Abort.nilPointerDereference (orphanSnapshot, World.orphanAlerted) := by
  decide

/-- C4: whatever the snapshots, the visiting order and the outcomes of the alert
client, the alerts that `checkNewLicenses` submits contain at most one
`NewEnterpriseLicenseRequired` alert. -/
theorem C4_at_most_one_enterprise_alert {F : Type} (env : Env F) (previous current : HostDataBE F)
    (w : World) :
    ∃ added : List Alert,
      (checkNewLicenses env previous current w).alerts = w.alerts ++ added ∧
      countCode AlertCode.NewEnterpriseLicenseRequired added ≤ 1 := by
  refine ⟨_, by rw [checkNewLicenses_eq], ?_⟩
  rw [countCode_enterprise_loopAlerts]
  split <;> simp

/-- C5 (as stated, refuted): the core count grows from 4 to 8, yet with an empty
database slice `checkNewLicenses` submits no alert at all. -/
theorem C5_counterexample :
    firstSnapshot.Info.CPUCores < grownSnapshot.Info.CPUCores ∧
    (checkNewLicenses sampleEnv firstSnapshot grownSnapshot World.init).alerts = [] := by
  decide

/-- C5 (amended): when the range over the current database map visits each of its
entries, `checkNewLicenses` submits exactly one `NewEnterpriseLicenseRequired`
alert if the map is not empty and the core count grew, or if some database of
the map has an Enterprise license while its previous counterpart (the entry of
the same name, else the empty database) has none; otherwise it submits none. -/
theorem C5_enterprise_alert_iff {F : Type} (env : Env F) (previous current : HostDataBE F) (w : World)
    (hrange : (env.rangeDbs (snapshotDbs current)).Perm (snapshotDbs current)) :
    ∃ added : List Alert,
      (checkNewLicenses env previous current w).alerts = w.alerts ++ added ∧
      (((snapshotDbs current ≠ [] ∧ previous.Info.CPUCores < current.Info.CPUCores) ∨
        (∃ e ∈ snapshotDbs current,
          env.HasEnterpriseLicense (oldDbOf (snapshotDbs previous) e.2) = false ∧
          env.HasEnterpriseLicense e.2 = true)) →
        countCode AlertCode.NewEnterpriseLicenseRequired added = 1) ∧
      (¬ ((snapshotDbs current ≠ [] ∧ previous.Info.CPUCores < current.Info.CPUCores) ∨
        (∃ e ∈ snapshotDbs current,
          env.HasEnterpriseLicense (oldDbOf (snapshotDbs previous) e.2) = false ∧
          env.HasEnterpriseLicense e.2 = true)) →
        countCode AlertCode.NewEnterpriseLicenseRequired added = 0) := by
  refine ⟨_, by rw [checkNewLicenses_eq], ?_, ?_⟩
  · intro h
    rw [countCode_enterprise_loopAlerts, if_pos]
    simp only [Bool.not_false, Bool.true_and, List.any_eq_true, visitedDbs, List.mem_map]
    rcases h with ⟨hne, hlt⟩ | ⟨e, he, h1, h2⟩
    · obtain ⟨e, he⟩ := List.exists_mem_of_ne_nil _ hne
      exact ⟨e.2, ⟨e, hrange.symm.subset he, rfl⟩, by simp [enterpriseCondition, hlt]⟩
    · exact ⟨e.2, ⟨e, hrange.symm.subset he, rfl⟩, by simp [enterpriseCondition, h1, h2]⟩
  · intro h
    rw [countCode_enterprise_loopAlerts, if_neg]
    simp only [Bool.not_false, Bool.true_and, List.any_eq_true, visitedDbs, List.mem_map]
    rintro ⟨db, ⟨e, he, rfl⟩, hc⟩
    apply h
    have hm := hrange.subset he
    simp only [enterpriseCondition, Bool.or_eq_true, decide_eq_true_eq, Bool.and_eq_true,
      Bool.not_eq_true'] at hc
    rcases hc with hlt | ⟨h1, h2⟩
    · exact Or.inl ⟨List.ne_nil_of_mem hm, hlt⟩
    · exact Or.inr ⟨e, hm, h1, h2⟩

/-- Witness of C5 (amended): first snapshot with 4 cores against a snapshot with
8 cores and two databases. -/
theorem C5_enterprise_alert_iff_witness :
    (sampleEnv.rangeDbs (snapshotDbs enterpriseSnapshot)).Perm (snapshotDbs enterpriseSnapshot) ∧
    ∃ added : List Alert,
      (checkNewLicenses sampleEnv firstSnapshot enterpriseSnapshot World.init).alerts
        = World.init.alerts ++ added ∧
      (((snapshotDbs enterpriseSnapshot ≠ [] ∧
          firstSnapshot.Info.CPUCores < enterpriseSnapshot.Info.CPUCores) ∨
        (∃ e ∈ snapshotDbs enterpriseSnapshot,
          sampleEnv.HasEnterpriseLicense (oldDbOf (snapshotDbs firstSnapshot) e.2) = false ∧
          sampleEnv.HasEnterpriseLicense e.2 = true)) →
        countCode AlertCode.NewEnterpriseLicenseRequired added = 1) ∧
      (¬ ((snapshotDbs enterpriseSnapshot ≠ [] ∧
          firstSnapshot.Info.CPUCores < enterpriseSnapshot.Info.CPUCores) ∨
        (∃ e ∈ snapshotDbs enterpriseSnapshot,
          sampleEnv.HasEnterpriseLicense (oldDbOf (snapshotDbs firstSnapshot) e.2) = false ∧
          sampleEnv.HasEnterpriseLicense e.2 = true)) →
        countCode AlertCode.NewEnterpriseLicenseRequired added = 0) :=
  ⟨List.Perm.refl _,
    C5_enterprise_alert_iff sampleEnv firstSnapshot enterpriseSnapshot World.init (List.Perm.refl _)⟩

/-- C6: on the list returned by `getPrimaryOpenOracleDatabases`, the lookup of
`addLicensesToSecondaryDb` finds nothing exactly when no element has the DbID and
the Name of the secondary; what it finds is the first such element in list order,
and that element has Role PRIMARY and Status OPEN. -/
theorem C6_primary_lookup {F : Type} (env : Env F) (w w1 : World) (dbs : List (OracleDatabase F))
    (secondaryDb : OracleDatabase F)
    (hfetch : getPrimaryOpenOracleDatabases env w = Exec.ok (some dbs, w1)) :
    (findPrimaryDb dbs secondaryDb = none ↔
      ∀ db ∈ dbs, ¬ (db.DbID = secondaryDb.DbID ∧ db.Name = secondaryDb.Name)) ∧
    (∀ primaryDb, findPrimaryDb dbs secondaryDb = some primaryDb →
      primaryDb.DbID = secondaryDb.DbID ∧ primaryDb.Name = secondaryDb.Name ∧
      (∃ i : Nat, dbs[i]? = some primaryDb ∧
        ∀ j : Nat, j < i → ∀ db, dbs[j]? = some db →
          ¬ (db.DbID = secondaryDb.DbID ∧ db.Name = secondaryDb.Name)) ∧
      primaryDb.Role = OracleDatabaseRolePrimary ∧ primaryDb.Status = OracleDatabaseStatusOpen) := by
  constructor
  · simp [findPrimaryDb, List.find?_eq_none]
  · intro primaryDb hfind
    obtain ⟨h1, h2, h3⟩ := findPrimaryDb_eq_some dbs secondaryDb primaryDb hfind
    refine ⟨h1, h2, h3, ?_⟩
    obtain ⟨decoded, _, hperm, _⟩ := getPrimaryOpenOracleDatabases_ok env w w1 dbs hfetch
    have hmem : primaryDb ∈ dbs := List.mem_of_find?_eq_some hfind
    have := (List.mem_filter.mp (hperm.subset hmem)).2
    exact (isPrimaryOpen_iff primaryDb).mp this

/-- Witness of C6 on the sample fleet listing and the standby of `D1`. -/
theorem C6_primary_lookup_witness :
    getPrimaryOpenOracleDatabases sampleEnv World.init = Exec.ok (some [samplePrimary], World.fetched) ∧
    ((findPrimaryDb [samplePrimary] sampleStandby = none ↔
      ∀ db ∈ [samplePrimary], ¬ (db.DbID = sampleStandby.DbID ∧ db.Name = sampleStandby.Name)) ∧
    (∀ primaryDb, findPrimaryDb [samplePrimary] sampleStandby = some primaryDb →
      primaryDb.DbID = sampleStandby.DbID ∧ primaryDb.Name = sampleStandby.Name ∧
      (∃ i : Nat, [samplePrimary][i]? = some primaryDb ∧
        ∀ j : Nat, j < i → ∀ db, [samplePrimary][j]? = some db →
          ¬ (db.DbID = sampleStandby.DbID ∧ db.Name = sampleStandby.Name)) ∧
      primaryDb.Role = OracleDatabaseRolePrimary ∧ primaryDb.Status = OracleDatabaseStatusOpen)) :=
  ⟨by decide, C6_primary_lookup sampleEnv World.init World.fetched [samplePrimary] sampleStandby
    (by decide)⟩

/-- C7: the filter loop of `getPrimaryOpenOracleDatabases` ends within one step
per element of the decoded list (and a larger budget gives the same list); the
list it returns is a permutation of the decoded elements with Role PRIMARY and
Status OPEN, each with its multiplicity, and it is what the function returns. -/
theorem C7_filter_loop {F : Type} (env : Env F) (w : World) (decoded : List (OracleDatabase F)) :
    ∃ r : List (OracleDatabase F),
      filterLoop isPrimaryOpen decoded.length decoded 0 = some r ∧
      (∀ more : Nat, filterLoop isPrimaryOpen (decoded.length + more) decoded 0 = some r) ∧
      r.Perm (decoded.filter
        (fun db => decide (db.Role = OracleDatabaseRolePrimary ∧ db.Status = OracleDatabaseStatusOpen))) ∧
      (env.httpDatabases w.dbFetches = some decoded →
        getPrimaryOpenOracleDatabases env w =
          Exec.ok (some r, { w with dbFetches := w.dbFetches + 1 })) := by
  obtain ⟨r, hr, hp⟩ := filterLoop_total isPrimaryOpen decoded
  have hfilter : decoded.filter isPrimaryOpen = decoded.filter
      (fun db => decide (db.Role = OracleDatabaseRolePrimary ∧ db.Status = OracleDatabaseStatusOpen)) := by
    apply List.filter_congr
    intro db _
    rw [Bool.eq_iff_iff]
    simp [isPrimaryOpen]
  refine ⟨r, hr, fun more => filterLoop_add _ _ more _ _ r hr, hfilter ▸ hp, ?_⟩
  intro hd
  simp [getPrimaryOpenOracleDatabases, hd, hr]

/-- C8: when the primary is found, the licenses of the secondary after
`addLicensesToSecondaryDb` are the result of processing the primary licenses in
order, where a step for a positive license overwrites only the count of the
first entry of that name when there is one (nothing appended), appends exactly
one entry (that name, the inherited count, the primary type ID) when there is
none, and a step for a license that is not positive does nothing; the final
length is the original length plus the number of distinct positive primary names
absent from the secondary, and the appended names are pairwise distinct. -/
theorem C8_overwrite_or_append {F : Type} (env : Env F) (hostInfo : Host)
    (secondaryDb primaryDb : OracleDatabase F) (dbs : List (OracleDatabase F)) (w w1 : World)
    (hfetch : getPrimaryOpenOracleDatabases env w = Exec.ok (some dbs, w1))
    (hfind : findPrimaryDb dbs secondaryDb = some primaryDb) :
    ∃ db1 : OracleDatabase F,
      addLicensesToSecondaryDb env hostInfo secondaryDb w = Exec.ok (db1, w1) ∧
      db1.Licenses = primaryDb.Licenses.foldl
        (licenseStep env (inheritedCount env hostInfo secondaryDb)) secondaryDb.Licenses ∧
      (∀ (ls : List (OracleDatabaseLicense F)) (pl : OracleDatabaseLicense F),
        (env.gt pl.Count env.zero = true → (∃ l ∈ ls, l.Name = pl.Name) →
          ∃ i : Nat, ∃ l : OracleDatabaseLicense F, ls[i]? = some l ∧ l.Name = pl.Name ∧
            (∀ j : Nat, j < i → ∀ q, ls[j]? = some q → q.Name ≠ pl.Name) ∧
            licenseStep env (inheritedCount env hostInfo secondaryDb) ls pl =
              ls.set i { l with Count := inheritedCount env hostInfo secondaryDb }) ∧
        (env.gt pl.Count env.zero = true → (∀ l ∈ ls, l.Name ≠ pl.Name) →
          licenseStep env (inheritedCount env hostInfo secondaryDb) ls pl =
            ls ++ [{ LicenseTypeID := pl.LicenseTypeID, Name := pl.Name,
                     Count := inheritedCount env hostInfo secondaryDb }]) ∧
        (env.gt pl.Count env.zero = false →
          licenseStep env (inheritedCount env hostInfo secondaryDb) ls pl = ls)) ∧
      db1.Licenses.length = secondaryDb.Licenses.length +
        ((positiveNames env primaryDb.Licenses).toFinset \
          (licenseNames secondaryDb.Licenses).toFinset).card ∧
      (∃ appended : List String,
        licenseNames db1.Licenses = licenseNames secondaryDb.Licenses ++ appended ∧
        appended.Nodup ∧ ∀ n ∈ appended, n ∉ licenseNames secondaryDb.Licenses) := by
  refine ⟨_, addLicensesToSecondaryDb_found env hostInfo secondaryDb primaryDb dbs w w1 hfetch hfind,
    rfl, ?_, length_primaryDbLicensesCycle env _ _ _, licenseNames_primaryDbLicensesCycle env _ _ _⟩
  intro ls pl
  refine ⟨?_, ?_, ?_⟩
  · intro hpos hex
    cases hu : overwriteFirst pl.Name (inheritedCount env hostInfo secondaryDb) ls with
    | none =>
      rw [overwriteFirst_eq_none_iff] at hu
      obtain ⟨l, hl, hname⟩ := hex
      exact absurd hname (hu l hl)
    | some updated =>
      obtain ⟨i, l, hi, hname, hfirst, hset⟩ := overwriteFirst_eq_some _ _ _ _ hu
      refine ⟨i, l, hi, hname, hfirst, ?_⟩
      simp only [licenseStep, hpos, if_true, hu, hset]
  · intro hpos hnone
    have hu := (overwriteFirst_eq_none_iff pl.Name (inheritedCount env hostInfo secondaryDb) ls).mpr hnone
    simp only [licenseStep, hpos, if_true, hu]
  · intro hneg
    simp [licenseStep, hneg]

/-- Witness of C8 on the sample data: the primary lists `Oracle ENT` twice, the
standby gets it once, after its two own entries. -/
theorem C8_overwrite_or_append_witness :
    getPrimaryOpenOracleDatabases sampleEnv World.init = Exec.ok (some [samplePrimary], World.fetched) ∧
    findPrimaryDb [samplePrimary] sampleStandby = some samplePrimary ∧
    ∃ db1 : OracleDatabase Int,
      addLicensesToSecondaryDb sampleEnv sampleHost sampleStandby World.init
        = Exec.ok (db1, World.fetched) ∧
      licenseNames db1.Licenses = ["Diagnostics Pack", "Tuning Pack", "Oracle ENT"] ∧
      db1.Licenses.length = sampleStandby.Licenses.length +
        ((positiveNames sampleEnv samplePrimary.Licenses).toFinset \
          (licenseNames sampleStandby.Licenses).toFinset).card := by
  refine ⟨by decide, by decide, ?_⟩
  obtain ⟨db1, h1, _, _, hlen, _⟩ :=
    C8_overwrite_or_append sampleEnv sampleHost sampleStandby samplePrimary [samplePrimary]
      World.init World.fetched (by decide) (by decide)
  refine ⟨db1, h1, ?_, hlen⟩
  have h2 : addLicensesToSecondaryDb sampleEnv sampleHost sampleStandby World.init =
      Exec.ok ({ sampleStandby with
        Licenses := [ { LicenseTypeID := "", Name := "Diagnostics Pack", Count := 5 },
                      { LicenseTypeID := "", Name := "Tuning Pack", Count := 8 },
                      { LicenseTypeID := "A90611", Name := "Oracle ENT", Count := 8 } ] },
        World.fetched) := by decide
  rw [h2] at h1
  cases h1
  decide

/-- C9: in the state that `addLicensesToSecondaryDb` reaches (returned or
aborted), every license entry present before the call is at the same index with
the same Name and LicenseTypeID, and it keeps its Count as well when its name is
not the name of a positive license of the primary found (names that the primary
lists only with count 0 included; without primary nothing is inherited). -/
theorem C9_entries_kept_in_place {F : Type} (env : Env F) (hostInfo : Host)
    (secondaryDb : OracleDatabase F) (w : World) (i : Nat) (l : OracleDatabaseLicense F)
    (hl : secondaryDb.Licenses[i]? = some l) :
    ∃ l1 : OracleDatabaseLicense F,
      (addLicensesToSecondaryDb env hostInfo secondaryDb w).state.1.Licenses[i]? = some l1 ∧
      l1.Name = l.Name ∧ l1.LicenseTypeID = l.LicenseTypeID ∧
      (l.Name ∉ inheritedNames env secondaryDb w → l1.Count = l.Count) := by
  rw [addLicensesToSecondaryDb_state]
  unfold inheritedNames
  cases primaryOf env secondaryDb w with
  | none => exact ⟨l, hl, rfl, rfl, fun _ => rfl⟩
  | some primaryDb =>
    exact primaryDbLicensesCycle_frame env _ primaryDb.Licenses secondaryDb.Licenses i l hl

/-- Witness of C9 on the sample data: `Diagnostics Pack`, which the primary lists
with count 0, keeps its count 5 on the standby. -/
theorem C9_entries_kept_in_place_witness :
    sampleStandby.Licenses[0]? = some { LicenseTypeID := "", Name := "Diagnostics Pack", Count := 5 } ∧
    "Diagnostics Pack" ∉ inheritedNames sampleEnv sampleStandby World.init ∧
    ∃ l1 : OracleDatabaseLicense Int,
      (addLicensesToSecondaryDb sampleEnv sampleHost sampleStandby World.init).state.1.Licenses[0]?
        = some l1 ∧
      l1.Name = "Diagnostics Pack" ∧ l1.LicenseTypeID = "" ∧
      ("Diagnostics Pack" ∉ inheritedNames sampleEnv sampleStandby World.init → l1.Count = 5) :=
  ⟨by decide, by decide,
    C9_entries_kept_in_place sampleEnv sampleHost sampleStandby World.init 0
      { LicenseTypeID := "", Name := "Diagnostics Pack", Count := 5 } (by decide)⟩

/-- C10: after `setLicenseTypeIDs` a license whose Name is an alias of some
catalog entry carries the ID of the first catalog entry, in catalog order, that
has this alias (compared with `==`, so case-sensitively), whatever later entries
carry; its Name is unchanged. -/
theorem C10_first_alias_wins {F : Type} (licenseTypes : List OracleDatabaseLicenseType)
    (database : OracleDatabase F) (i k : Nat) (l : OracleDatabaseLicense F)
    (lt : OracleDatabaseLicenseType)
    (hl : database.Licenses[i]? = some l)
    (hk : licenseTypes[k]? = some lt) (halias : l.Name ∈ lt.Aliases)
    (hfirst : ∀ j : Nat, j < k → ∀ lt0, licenseTypes[j]? = some lt0 → l.Name ∉ lt0.Aliases) :
    ∃ l1 : OracleDatabaseLicense F,
      (setLicenseTypeIDs licenseTypes database).Licenses[i]? = some l1 ∧
      l1.LicenseTypeID = lt.ID ∧ l1.Name = l.Name ∧ l1.Count = l.Count := by
  have hfound := findLicenseTypeID_first licenseTypes l.Name k lt hk halias hfirst
  refine ⟨{ l with LicenseTypeID := lt.ID }, ?_, rfl, rfl, rfl⟩
  simp [setLicenseTypeIDs, hl, setLicenseTypeID, hfound]

/-- Witness of C10: `Tuning Pack` is an alias of the second and of the third
entry of the sample catalog, and the license of the standby, so far without type
ID, gets the ID of the second. -/
theorem C10_first_alias_wins_witness :
    ∃ l1 : OracleDatabaseLicense Int,
      (setLicenseTypeIDs sampleCatalog sampleStandby).Licenses[1]? = some l1 ∧
      l1.LicenseTypeID = "A90650" ∧ l1.Name = "Tuning Pack" ∧ l1.Count = 1 :=
  C10_first_alias_wins sampleCatalog sampleStandby 1 1
    { LicenseTypeID := "", Name := "Tuning Pack", Count := 1 }
    { ID := "A90650", Metric := "Processor Perpetual", Aliases := ["tuning pack", "Tuning Pack"] }
    (by decide) (by decide) (by decide) (by decide)

/-- C11 (as stated, refuted): the standby inherits `Oracle ENT` with the type ID
of its primary; no alias of the catalog is `Oracle ENT`, yet after
`setLicenseTypeIDs` the entry still carries the identifier `A90611`. -/
theorem C11_counterexample :
    addLicensesToSecondaryDb sampleEnv sampleHost sampleStandby World.init
      = Exec.ok (inheritedStandby, World.fetched) ∧
    (∀ lt ∈ tuningCatalog, "Oracle ENT" ∉ lt.Aliases) ∧
    (setLicenseTypeIDs tuningCatalog inheritedStandby).Licenses[2]? = some inheritedEnterprise ∧
    inheritedEnterprise.LicenseTypeID ≠ "" := by
  decide

/-- C11 (amended): `setLicenseTypeIDs` keeps Name and Count of every license; if
the Name is an alias of some catalog entry the LicenseTypeID becomes the ID of
such an entry, and if the Name is an alias of no catalog entry the LicenseTypeID
stays what it was before (unset only when it was unset). -/
theorem C11_type_id_assignment {F : Type} (licenseTypes : List OracleDatabaseLicenseType)
    (database : OracleDatabase F) (i : Nat) (l : OracleDatabaseLicense F)
    (hl : database.Licenses[i]? = some l) :
    ∃ l1 : OracleDatabaseLicense F,
      (setLicenseTypeIDs licenseTypes database).Licenses[i]? = some l1 ∧
      l1.Name = l.Name ∧ l1.Count = l.Count ∧
      ((∃ lt ∈ licenseTypes, l.Name ∈ lt.Aliases) →
        ∃ lt ∈ licenseTypes, l.Name ∈ lt.Aliases ∧ l1.LicenseTypeID = lt.ID) ∧
      ((∀ lt ∈ licenseTypes, l.Name ∉ lt.Aliases) → l1.LicenseTypeID = l.LicenseTypeID) := by
  refine ⟨setLicenseTypeID licenseTypes l, by simp [setLicenseTypeIDs, hl], ?_⟩
  unfold setLicenseTypeID
  cases hf : findLicenseTypeID licenseTypes l.Name with
  | none =>
    have hnone := (findLicenseTypeID_eq_none_iff licenseTypes l.Name).mp hf
    refine ⟨rfl, rfl, ?_, fun _ => rfl⟩
    rintro ⟨lt, hlt, ha⟩
    exact absurd ha (hnone lt hlt)
  | some id =>
    obtain ⟨lt, hlt, ha, hid⟩ := findLicenseTypeID_eq_some licenseTypes l.Name id hf
    refine ⟨rfl, rfl, fun _ => ⟨lt, hlt, ha, hid.symm⟩, ?_⟩
    intro hnone
    exact absurd ha (hnone lt hlt)

/-- Witness of C11 (amended): `Diagnostics Pack` is no alias of the catalog and
stays without type ID. -/
theorem C11_type_id_assignment_witness :
    inheritedStandby.Licenses[0]? = some ownDiagnostics ∧
    ∃ l1 : OracleDatabaseLicense Int,
      (setLicenseTypeIDs tuningCatalog inheritedStandby).Licenses[0]? = some l1 ∧
      l1.Name = ownDiagnostics.Name ∧ l1.Count = ownDiagnostics.Count ∧
      ((∃ lt ∈ tuningCatalog, ownDiagnostics.Name ∈ lt.Aliases) →
        ∃ lt ∈ tuningCatalog, ownDiagnostics.Name ∈ lt.Aliases ∧ l1.LicenseTypeID = lt.ID) ∧
      ((∀ lt ∈ tuningCatalog, ownDiagnostics.Name ∉ lt.Aliases) →
        l1.LicenseTypeID = ownDiagnostics.LicenseTypeID) :=
  ⟨by decide, C11_type_id_assignment tuningCatalog inheritedStandby 0 ownDiagnostics (by decide)⟩

/-- C19: when `getPrimaryOpenOracleDatabases` returns an error,
`addLicensesToSecondaryDb` returns with the secondary database unchanged and
without any alert submitted. -/
theorem C19_fetch_failure {F : Type} (env : Env F) (hostInfo : Host)
    (secondaryDb : OracleDatabase F) (w w1 : World)
    (hfetch : getPrimaryOpenOracleDatabases env w = Exec.ok (none, w1)) :
    addLicensesToSecondaryDb env hostInfo secondaryDb w = Exec.ok (secondaryDb, w1) ∧
    w1.alerts = w.alerts ∧
    countCode AlertCode.MissingPrimaryDatabase w1.alerts =
      countCode AlertCode.MissingPrimaryDatabase w.alerts := by
  have halerts : w1.alerts = w.alerts := by
    have := getPrimaryOpenOracleDatabases_alerts env w
    rw [hfetch] at this
    exact this
  refine ⟨?_, halerts, by rw [halerts]⟩
  simp only [addLicensesToSecondaryDb, hfetch]

/-- Witness of C19: the standby of `D1` with a failing request for the fleet listing. -/
theorem C19_fetch_failure_witness :
    getPrimaryOpenOracleDatabases offlineEnv World.init = Exec.ok (none, World.fetched) ∧
    addLicensesToSecondaryDb offlineEnv sampleHost sampleStandby World.init
      = Exec.ok (sampleStandby, World.fetched) ∧
    World.fetched.alerts = World.init.alerts ∧
    countCode AlertCode.MissingPrimaryDatabase World.fetched.alerts =
      countCode AlertCode.MissingPrimaryDatabase World.init.alerts :=
  ⟨by decide, C19_fetch_failure offlineEnv sampleHost sampleStandby World.init World.fetched (by decide)⟩

/-- C20: when `getOracleDatabaseLicenseTypes` returns an error, `setLicenseTypes`
leaves every database, hence LicenseTypeID, Name and Count of every license, as
it was, submits no alert, and has made the one request; `setLicenseTypeIDs` with
the empty catalog is the identity. -/
theorem C20_catalog_failure {F : Type} (env : Env F) (environment : String)
    (databases : List (OracleDatabase F)) (w : World)
    (hfetch : (getOracleDatabaseLicenseTypes env environment w).1 = none) :
    setLicenseTypes env environment databases w =
      (databases, { w with ltFetches := w.ltFetches + 1 }) ∧
    (∀ db : OracleDatabase F, setLicenseTypeIDs [] db = db) := by
  refine ⟨?_, setLicenseTypeIDs_nil⟩
  unfold setLicenseTypes
  have h2 : (getOracleDatabaseLicenseTypes env environment w).2 =
      { w with ltFetches := w.ltFetches + 1 } := by
    unfold getOracleDatabaseLicenseTypes
    cases env.httpLicenseTypes w.ltFetches <;> rfl
  simp only [hfetch, h2]
  have : (fun db : OracleDatabase F => setLicenseTypeIDs [] db) = id := funext setLicenseTypeIDs_nil
  have hmap : databases.map (setLicenseTypeIDs []) = databases := by
    rw [show setLicenseTypeIDs [] = (id : OracleDatabase F → OracleDatabase F) from this, List.map_id]
  rw [hmap]

/-- Witness of C20: the catalog request of the sample environment fails. -/
theorem C20_catalog_failure_witness :
    (getOracleDatabaseLicenseTypes sampleEnv "PROD" World.init).1 = none ∧
    setLicenseTypes sampleEnv "PROD" [inheritedStandby, samplePrimary] World.init =
      ([inheritedStandby, samplePrimary], { World.init with ltFetches := World.init.ltFetches + 1 }) ∧
    (∀ db : OracleDatabase Int, setLicenseTypeIDs [] db = db) :=
  ⟨by decide, C20_catalog_failure sampleEnv "PROD" [inheritedStandby, samplePrimary] World.init
    (by decide)⟩

/-- C13 (as stated, refuted): in the default list chosen for `PROD` the metric at
index 0 occurs again at index 2; it gets rank 1, not 3 - 0, and the metric at
index 1, later in the list, gets the higher rank 2. -/
theorem C13_counterexample :
    orderOfPriorityOf repeatedEnv "PROD" =
      ["Processor Perpetual", "Named User Plus Perpetual", "Processor Perpetual"] ∧
    priorityMap (orderOfPriorityOf repeatedEnv "PROD") "Processor Perpetual" = 1 ∧
    priorityMap (orderOfPriorityOf repeatedEnv "PROD") "Named User Plus Perpetual" = 2 := by
  decide

/-- C13 (amended): `licenseTypesSorter` compares by `priorityMap` over the list of
the environment when the configuration has one and over the default list otherwise;
a metric whose last occurrence in that list is at index `i` gets rank `len - i`,
so in a list without repeated metrics an earlier metric gets a strictly higher
rank than a later one; every listed metric has rank at least 1 and a metric that
is not listed has rank 0. -/
theorem C13_priority_rank {F : Type} (env : Env F) (environment : String) :
    (∀ own, env.LicenseTypeMetricsByEnvironment environment = some own →
      orderOfPriorityOf env environment = own) ∧
    (env.LicenseTypeMetricsByEnvironment environment = none →
      orderOfPriorityOf env environment = env.LicenseTypeMetricsDefault) ∧
    (∀ x y : OracleDatabaseLicenseType, licenseTypesLess env environment x y =
      decide (priorityMap (orderOfPriorityOf env environment) x.Metric ≥
        priorityMap (orderOfPriorityOf env environment) y.Metric)) ∧
    (∀ (i : Nat) (metric : String), (orderOfPriorityOf env environment)[i]? = some metric →
      (∀ j : Nat, i < j → (orderOfPriorityOf env environment)[j]? ≠ some metric) →
      priorityMap (orderOfPriorityOf env environment) metric =
        ((orderOfPriorityOf env environment).length : Int) - (i : Int)) ∧
    ((orderOfPriorityOf env environment).Nodup →
      ∀ (i j : Nat) (mi mj : String), i < j →
        (orderOfPriorityOf env environment)[i]? = some mi →
        (orderOfPriorityOf env environment)[j]? = some mj →
        priorityMap (orderOfPriorityOf env environment) mi >
          priorityMap (orderOfPriorityOf env environment) mj) ∧
    (∀ metric ∈ orderOfPriorityOf env environment,
      priorityMap (orderOfPriorityOf env environment) metric ≥ 1) ∧
    (∀ metric, metric ∉ orderOfPriorityOf env environment →
      priorityMap (orderOfPriorityOf env environment) metric = 0) := by
  refine ⟨?_, ?_, ?_, ?_, ?_, ?_, ?_⟩
  · intro own h
    simp [orderOfPriorityOf, h]
  · intro h
    simp [orderOfPriorityOf, h]
  · intro x y
    rfl
  · intro i metric hi hlast
    exact priorityMap_last _ metric i hi hlast
  · intro hnd i j mi mj hij hi hj
    have hunique : ∀ (k : Nat) (m : String), (orderOfPriorityOf env environment)[k]? = some m →
        ∀ k2 : Nat, k < k2 → (orderOfPriorityOf env environment)[k2]? ≠ some m := by
      intro k m hk k2 hlt hk2
      obtain ⟨h1, e1⟩ := List.getElem?_eq_some.mp hk
      obtain ⟨h2, e2⟩ := List.getElem?_eq_some.mp hk2
      have := (List.Nodup.getElem_inj_iff hnd).mp (e1.trans e2.symm)
      omega
    rw [priorityMap_last _ mi i hi (hunique i mi hi), priorityMap_last _ mj j hj (hunique j mj hj)]
    omega
  · intro metric hm
    exact priorityMap_pos _ metric hm
  · intro metric hm
    exact priorityMap_not_mem _ metric hm

/-- C12 (code at the failing input): the two entries with metric `Named User Plus
Perpetual` have the same rank and are fetched in the order first, second; with
the comparison `>=` of `licenseTypesSorter` the insertion sort of `sort.Slice`
returns them in the order second, first, so the returned catalog is not the
stable sort of the fetched one. The same insertion sort with the strict
comparison `>` on the ranks keeps the two entries in their order of the fetch. -/
theorem C12_equal_rank_reversed :
    sortEnv.httpLicenseTypes World.init.ltFetches =
      some [namedUserFirst, processorType, namedUserSecond] ∧
    rankOf sortEnv "PROD" namedUserFirst = rankOf sortEnv "PROD" namedUserSecond ∧
    (getOracleDatabaseLicenseTypes sortEnv "PROD" World.init).1 =
      some [processorType, namedUserSecond, namedUserFirst] ∧
    insertionSortLessFunc
        (fun x y => decide (rankOf sortEnv "PROD" x > rankOf sortEnv "PROD" y))
        [namedUserFirst, processorType, namedUserSecond] =
      [processorType, namedUserFirst, namedUserSecond] := by
  decide

/-- C14: when the range over the current database map visits each of its entries,
`checkNewLicenses` submits exactly one `NewDatabaseDiscovered` alert for every
database name of the current snapshot that is not a database name of the previous
snapshot, and none for a name that is in the previous snapshot or not in the
current one; without database section in the previous snapshot every current
database name gets its alert. -/
theorem C14_new_database_alerts {F : Type} (env : Env F) (previous current : HostDataBE F) (w : World)
    (hrange : (env.rangeDbs (snapshotDbs current)).Perm (snapshotDbs current)) :
    ∃ added : List Alert,
      (checkNewLicenses env previous current w).alerts = w.alerts ++ added ∧
      (∀ name, name ∈ snapshotNames current → name ∉ snapshotNames previous →
        added.countP (fun a => a.Code == AlertCode.NewDatabaseDiscovered && a.dbname == some name) = 1) ∧
      (∀ name, name ∈ snapshotNames previous →
        added.countP (fun a => a.Code == AlertCode.NewDatabaseDiscovered && a.dbname == some name) = 0) ∧
      (∀ name, name ∉ snapshotNames current →
        added.countP (fun a => a.Code == AlertCode.NewDatabaseDiscovered && a.dbname == some name) = 0) ∧
      (previous.Database = none → ∀ name, name ∈ snapshotNames current →
        added.countP (fun a => a.Code == AlertCode.NewDatabaseDiscovered && a.dbname == some name) = 1) := by
  obtain ⟨hnd, _, hnames⟩ := visitedDbs_spec env current hrange
  obtain ⟨_, hprev⟩ := mapKeys_snapshotDbs previous
  have hlookup : ∀ name, (snapshotDbs previous).lookup name = none ↔ name ∉ snapshotNames previous := by
    intro name
    rw [lookup_eq_none_iff_not_mem_mapKeys, hprev]
  have hone : ∀ name, name ∈ snapshotNames current → name ∉ snapshotNames previous →
      (loopAlerts env (snapshotDbs previous) previous.Info.CPUCores current.Info.CPUCores
        current.Hostname false (visitedDbs env current)).countP
        (fun a => a.Code == AlertCode.NewDatabaseDiscovered && a.dbname == some name) = 1 := by
    intro name hcur hnot
    rw [countP_newDatabase_loopAlerts]
    apply (countP_name_of_nodup _ hnd name _).1
    obtain ⟨db, hdb, hname⟩ := List.mem_map.mp ((hnames name).mpr hcur)
    refine ⟨db, hdb, hname, ?_⟩
    rw [hname, (hlookup name).mpr hnot]
    rfl
  refine ⟨_, by rw [checkNewLicenses_eq], hone, ?_, ?_, ?_⟩
  · intro name hin
    rw [countP_newDatabase_loopAlerts]
    apply (countP_name_of_nodup _ hnd name _).2
    rintro ⟨db, _, hname, hq⟩
    rw [hname, Option.isNone_iff_eq_none, hlookup name] at hq
    exact hq hin
  · intro name hnot
    rw [countP_newDatabase_loopAlerts]
    apply (countP_name_of_nodup _ hnd name _).2
    rintro ⟨db, hdb, hname, _⟩
    apply hnot
    rw [← hnames name, ← hname]
    exact List.mem_map_of_mem (fun db => db.Name) hdb
  · intro hnone name hcur
    apply hone name hcur
    simp [snapshotNames, hnone]

/-- Witness of C14: `D3` is new against the previous snapshot, `D1` is not. -/
theorem C14_new_database_alerts_witness :
    ∃ added : List Alert,
      (checkNewLicenses specEnv previousSnapshot enterpriseSnapshot World.init).alerts
        = World.init.alerts ++ added ∧
      added.countP (fun a => a.Code == AlertCode.NewDatabaseDiscovered && a.dbname == some "D3") = 1 ∧
      added.countP (fun a => a.Code == AlertCode.NewDatabaseDiscovered && a.dbname == some "D1") = 0 := by
  obtain ⟨added, h1, h2, h3, _⟩ :=
    C14_new_database_alerts specEnv previousSnapshot enterpriseSnapshot World.init (List.Perm.refl _)
  exact ⟨added, h1, h2 "D3" (by decide) (by decide), h3 "D1" (by decide)⟩

/-- C16: every `ActivatedFeatures` alert that `checkNewLicenses` submits is the
alert of a visited database; its license list contains none of `Oracle ENT`,
`Oracle STD`, `Oracle EXE`, whatever the diff says of them, and contains every
other name that the diff of that database maps to `DiffFeatureActivated`. -/
theorem C16_editions_left_out {F : Type} (env : Env F) (previous current : HostDataBE F) (w : World) :
    ∃ added : List Alert,
      (checkNewLicenses env previous current w).alerts = w.alerts ++ added ∧
      ∀ a ∈ added, a.Code = AlertCode.ActivatedFeatures →
        "Oracle ENT" ∉ a.licenses ∧ "Oracle STD" ∉ a.licenses ∧ "Oracle EXE" ∉ a.licenses ∧
        ∃ newDb ∈ visitedDbs env current, a.dbname = some newDb.Name ∧
          ∀ name, name ∈ a.licenses ↔
            ((name, env.DiffFeatureActivated) ∈
                env.DiffLicenses (oldDbOf (snapshotDbs previous) newDb).Licenses newDb.Licenses ∧
              name ≠ "Oracle ENT" ∧ name ≠ "Oracle STD" ∧ name ≠ "Oracle EXE") := by
  refine ⟨_, by rw [checkNewLicenses_eq], ?_⟩
  intro a ha hcode
  obtain ⟨newDb, hvis, rfl, _⟩ := (mem_loopAlerts_activated env _ _ _ _ _ _ a).mp ⟨ha, hcode⟩
  have hmem := mem_activatedLicensesOf env (oldDbOf (snapshotDbs previous) newDb) newDb
  refine ⟨?_, ?_, ?_, newDb, hvis, rfl, hmem⟩
  · intro h
    exact ((hmem _).mp h).2.1 rfl
  · intro h
    exact ((hmem _).mp h).2.2.1 rfl
  · intro h
    exact ((hmem _).mp h).2.2.2 rfl

/-- C17 (as stated, refuted): the current snapshot lists two databases named `D1`;
against the previous snapshot the first has `Tuning Pack` activated, the second
has nothing activated. The database map keeps the second under the name `D1`,
the range visits every entry of the map, and `checkNewLicenses` submits no alert
at all, so there is no `ActivatedFeatures` alert for the first database. -/
theorem C17_counterexample :
    snapshotDatabases namesakeSnapshot = [samplePrimary, namesakePrimary] ∧
    ("Tuning Pack", specEnv.DiffFeatureActivated) ∈
      specEnv.DiffLicenses (oldDbOf (snapshotDbs previousSnapshot) samplePrimary).Licenses
        samplePrimary.Licenses ∧
    snapshotDbs namesakeSnapshot = [("D1", namesakePrimary)] ∧
    specEnv.rangeDbs (snapshotDbs namesakeSnapshot) = snapshotDbs namesakeSnapshot ∧
    (checkNewLicenses specEnv previousSnapshot namesakeSnapshot World.init).alerts = [] := by
  decide

/-- C17 (amended): when the range over the current database map visits each of its
entries, then for every database of the current snapshot that no later database
of the snapshot shares its name with (every database, when the names are
pairwise distinct), `checkNewLicenses` submits exactly one `ActivatedFeatures`
alert under the name of the database if the diff maps some name other than the
three editions to `DiffFeatureActivated`, and that alert carries the host name
and lists exactly the names so mapped that are none of the three editions; it
submits no `ActivatedFeatures` alert under that name if there is no such name. -/
theorem C17_one_activated_alert {F : Type} (env : Env F) (previous current : HostDataBE F) (w : World)
    (hrange : (env.rangeDbs (snapshotDbs current)).Perm (snapshotDbs current)) :
    ∃ added : List Alert,
      (checkNewLicenses env previous current w).alerts = w.alerts ++ added ∧
      ∀ (front back : List (OracleDatabase F)) (db : OracleDatabase F),
        snapshotDatabases current = front ++ db :: back →
        (∀ later ∈ back, later.Name ≠ db.Name) →
        ((∃ name, (name, env.DiffFeatureActivated) ∈
              env.DiffLicenses (oldDbOf (snapshotDbs previous) db).Licenses db.Licenses ∧
            name ≠ "Oracle ENT" ∧ name ≠ "Oracle STD" ∧ name ≠ "Oracle EXE") →
          added.countP (fun a => a.Code == AlertCode.ActivatedFeatures && a.dbname == some db.Name) = 1 ∧
          ∃ a ∈ added, a.Code = AlertCode.ActivatedFeatures ∧ a.hostname = current.Hostname ∧
            a.dbname = some db.Name ∧
            ∀ name, name ∈ a.licenses ↔
              ((name, env.DiffFeatureActivated) ∈
                  env.DiffLicenses (oldDbOf (snapshotDbs previous) db).Licenses db.Licenses ∧
                name ≠ "Oracle ENT" ∧ name ≠ "Oracle STD" ∧ name ≠ "Oracle EXE")) ∧
        ((¬ ∃ name, (name, env.DiffFeatureActivated) ∈
              env.DiffLicenses (oldDbOf (snapshotDbs previous) db).Licenses db.Licenses ∧
            name ≠ "Oracle ENT" ∧ name ≠ "Oracle STD" ∧ name ≠ "Oracle EXE") →
          added.countP (fun a => a.Code == AlertCode.ActivatedFeatures && a.dbname == some db.Name) = 0) := by
  refine ⟨_, by rw [checkNewLicenses_eq], ?_⟩
  intro front back db hsplit hlast
  have he := mem_snapshotDbs_last current front back db hsplit hlast
  obtain ⟨hsome, hnone⟩ := activatedAlerts_of_map_entry env previous current hrange _ he
  have hmem := mem_activatedLicensesOf env (oldDbOf (snapshotDbs previous) db) db
  constructor
  · rintro ⟨name, hname⟩
    obtain ⟨hcount, hin⟩ := hsome (List.ne_nil_of_mem ((hmem name).mpr hname))
    exact ⟨hcount, _, hin, rfl, rfl, rfl, hmem⟩
  · intro hno
    apply hnone
    apply List.eq_nil_iff_forall_not_mem.mpr
    intro name hin
    exact hno ⟨name, (hmem name).mp hin⟩

/-- Witness of C17 (amended): in the snapshot with `D1` and `D3` the one alert
under the name `D1` lists `Tuning Pack` and not the edition; in the snapshot with
two databases named `D1` the second has nothing activated and no alert is
submitted under the name. -/
theorem C17_one_activated_alert_witness :
    (∃ added : List Alert,
      (checkNewLicenses specEnv previousSnapshot enterpriseSnapshot World.init).alerts
        = World.init.alerts ++ added ∧
      added.countP (fun a => a.Code == AlertCode.ActivatedFeatures && a.dbname == some "D1") = 1 ∧
      ∃ a ∈ added, a.Code = AlertCode.ActivatedFeatures ∧ a.hostname = "h1" ∧
        a.dbname = some "D1" ∧ "Tuning Pack" ∈ a.licenses ∧ "Oracle ENT" ∉ a.licenses) ∧
    (∃ added : List Alert,
      (checkNewLicenses specEnv previousSnapshot namesakeSnapshot World.init).alerts
        = World.init.alerts ++ added ∧
      added.countP (fun a => a.Code == AlertCode.ActivatedFeatures && a.dbname == some "D1") = 0) := by
  constructor
  · obtain ⟨added, h1, h2⟩ :=
      C17_one_activated_alert specEnv previousSnapshot enterpriseSnapshot World.init (List.Perm.refl _)
    obtain ⟨hcount, a, ha, hcode, hhost, hdb, hlist⟩ :=
      (h2 [] [orphanStandby] samplePrimary rfl (by decide)).1 ⟨"Tuning Pack", by decide⟩
    exact ⟨added, h1, hcount, a, ha, hcode, hhost, hdb, (hlist "Tuning Pack").mpr (by decide),
      fun h => ((hlist "Oracle ENT").mp h).2.1 rfl⟩
  · obtain ⟨added, h1, h2⟩ :=
      C17_one_activated_alert specEnv previousSnapshot namesakeSnapshot World.init (List.Perm.refl _)
    refine ⟨added, h1, (h2 [samplePrimary] [] namesakePrimary rfl (by decide)).2 ?_⟩
    rintro ⟨name, hname⟩
    have hin := (mem_activatedLicensesOf specEnv
      (oldDbOf (snapshotDbs previousSnapshot) namesakePrimary) namesakePrimary name).mpr hname
    have hnil : activatedLicensesOf specEnv
        (oldDbOf (snapshotDbs previousSnapshot) namesakePrimary) namesakePrimary = [] := by decide
    rw [hnil] at hin
    exact List.not_mem_nil _ hin

/-- C15: for a `model.DiffLicenses` that reports `Activated` only where the diff
of the spec does, and a range that visits each entry of the database map,
`checkNewLicenses` with the same snapshot as previous and current submits no
alert at all (no `NewDatabaseDiscovered`, no `ActivatedFeatures`, no
`NewEnterpriseLicenseRequired`); the diff of the spec of an entry set with
itself has no `Activated` and no `Deactivated` transition. -/
theorem C15_equal_snapshots {F : Type} (env : Env F) (snapshot : HostDataBE F) (w : World)
    (hrange : (env.rangeDbs (snapshotDbs snapshot)).Perm (snapshotDbs snapshot))
    (hdiff : ∀ (old new : List (OracleDatabaseLicense F)) (name : String),
      (name, env.DiffFeatureActivated) ∈ env.DiffLicenses old new →
      (name, Transition.Activated) ∈ DiffLicensesSpec env old new) :
    (checkNewLicenses env snapshot snapshot w).alerts = w.alerts ∧
    (∀ name, name ∈ snapshotNames snapshot →
      (snapshotDbs snapshot).lookup name ≠ none) ∧
    (∀ (ls : List (OracleDatabaseLicense F)) (e : String × Transition),
      e ∈ DiffLicensesSpec env ls ls → e.2 = Transition.Unchanged) := by
  obtain ⟨hnd, hkeys⟩ := mapKeys_snapshotDbs snapshot
  refine ⟨?_, ?_, DiffLicensesSpec_self env⟩
  · rw [checkNewLicenses_eq, loopAlerts_eq_nil]
    · simp
    · intro newDb hmem
      obtain ⟨e, he, rfl⟩ := ((visitedDbs_spec env snapshot hrange).2.1 newDb).mp hmem
      constructor
      · rw [mem_snapshotDbs snapshot e he]
        exact lookup_of_mem_nodup _ hnd e he
      · by_contra hne
        obtain ⟨name, hname⟩ := List.exists_mem_of_ne_nil _ hne
        have hact := ((mem_activatedLicensesOf env e.2 e.2 name).mp hname).1
        have := DiffLicensesSpec_self env e.2.Licenses _ (hdiff _ _ name hact)
        exact absurd this (by simp)
  · intro name hname hnone
    rw [lookup_eq_none_iff_not_mem_mapKeys, hkeys] at hnone
    exact hnone hname

/-- Witness of C15: the snapshot with `D1` and `D3` against itself. -/
theorem C15_equal_snapshots_witness :
    (specEnv.rangeDbs (snapshotDbs enterpriseSnapshot)).Perm (snapshotDbs enterpriseSnapshot) ∧
    (checkNewLicenses specEnv enterpriseSnapshot enterpriseSnapshot World.init).alerts
      = World.init.alerts ∧
    (∀ name, name ∈ snapshotNames enterpriseSnapshot →
      (snapshotDbs enterpriseSnapshot).lookup name ≠ none) ∧
    (∀ (ls : List (OracleDatabaseLicense Int)) (e : String × Transition),
      e ∈ DiffLicensesSpec specEnv ls ls → e.2 = Transition.Unchanged) :=
  ⟨List.Perm.refl _,
    C15_equal_snapshots specEnv enterpriseSnapshot World.init (List.Perm.refl _) specEnv_DiffLicenses⟩

/-- C18 (as stated, refuted): the snapshot lists `X1` as unlisted running
database, but its database slice is nil: `oracleDatabasesChecks` returns at once
and submits no alert. -/
theorem C18_counterexample :
    unlistedNames nilDatabasesSnapshot = ["X1"] ∧
    oracleDatabasesChecks sampleEnv firstSnapshot nilDatabasesSnapshot World.init =
      Exec.ok (nilDatabasesSnapshot, World.init) ∧
    World.init.alerts = [] := by
  decide

/-- C18 (amended): when the snapshot has an Oracle database section with a
database slice that is not nil and `checkSecondaryDbs` returns,
`oracleDatabasesChecks` returns and the alerts it submits end with one
`UnlistedRunningDatabase` alert for each name of the unlisted running databases,
in list order, whatever the alert client answers; the earlier steps submit no
alert with that code. Without section or with a nil slice it returns at once,
nothing submitted. -/
theorem C18_unlisted_alerts {F : Type} (env : Env F) (previousHostdata hostdata : HostDataBE F)
    (w : World) :
    (∀ (feature : OracleDatabaseFeature F) (dbs dbs1 : List (OracleDatabase F)) (w1 : World),
      hostdata.Database = some feature → feature.Databases = some dbs →
      checkSecondaryDbs env hostdata.Info dbs w = Exec.ok (dbs1, w1) →
      ∃ (hostdata2 : HostDataBE F) (wf : World) (earlier : List Alert),
        oracleDatabasesChecks env previousHostdata hostdata w = Exec.ok (hostdata2, wf) ∧
        wf.alerts = w.alerts ++ earlier ++
          feature.UnlistedRunningDatabases.map (fun dbname => unlistedAlertOf dbname hostdata.Hostname) ∧
        countCode AlertCode.UnlistedRunningDatabase earlier = 0) ∧
    ((hostdata.Database = none ∨
        ∃ feature, hostdata.Database = some feature ∧ feature.Databases = none) →
      oracleDatabasesChecks env previousHostdata hostdata w = Exec.ok (hostdata, w)) := by
  constructor
  · intro feature dbs dbs1 w1 hdb hdbs hsec
    obtain ⟨extra, hextra, hcode⟩ := checkSecondaryDbs_alerts env hostdata.Info dbs w
    rw [hsec] at hextra
    simp only [Exec.state] at hextra
    refine ⟨_, _, extra ++ loopAlerts env (snapshotDbs previousHostdata)
      previousHostdata.Info.CPUCores hostdata.Info.CPUCores hostdata.Hostname false
      (visitedDbs env { hostdata with Database := some { feature with
        Databases := some (setLicenseTypes env hostdata.Environment dbs1 w1).1 } }),
      oracleDatabasesChecks_of_ok env previousHostdata hostdata w feature dbs dbs1 w1 hdb hdbs hsec,
      ?_, ?_⟩
    · rw [unlistedRunningLoop_eq, checkNewLicenses_eq]
      simp only [setLicenseTypes_alerts, hextra, List.append_assoc]
    · unfold countCode
      rw [List.countP_eq_zero]
      intro a ha
      rcases List.mem_append.mp ha with h | h
      · simp [hcode a h]
      · have := loopAlerts_not_unlisted env _ _ _ _ _ _ a h
        simpa using this
  · rintro (hnone | ⟨feature, hdb, hdbs⟩)
    · simp only [oracleDatabasesChecks, hnone]
    · simp only [oracleDatabasesChecks, hdb, hdbs]

/-- Witness of C18 (amended): every submission fails, and still both unlisted
running databases get their alert after the alert for the orphan standby. -/
theorem C18_unlisted_alerts_witness :
    checkSecondaryDbs refusingEnv unlistedSnapshot.Info [orphanStandby] World.init =
      Exec.ok ([orphanStandby], World.orphanAlerted) ∧
    ∃ (hostdata2 : HostDataBE Int) (wf : World) (earlier : List Alert),
      oracleDatabasesChecks refusingEnv firstSnapshot unlistedSnapshot World.init =
        Exec.ok (hostdata2, wf) ∧
      wf.alerts = World.init.alerts ++ earlier ++
        ["X1", "X2"].map (fun dbname => unlistedAlertOf dbname unlistedSnapshot.Hostname) ∧
      countCode AlertCode.UnlistedRunningDatabase earlier = 0 :=
  ⟨by decide,
    (C18_unlisted_alerts refusingEnv firstSnapshot unlistedSnapshot World.init).1
      { Databases := some [orphanStandby], UnlistedRunningDatabases := ["X1", "X2"] }
      [orphanStandby] [orphanStandby] World.orphanAlerted rfl rfl (by decide)⟩

/-- C23: `GetOraclePart` returns without error the first part of the list with
the given PartID when there is one, and the error
`AerrOracleDatabaseAgreementInvalidPartID` without part exactly when no part of
the list has that PartID. -/
theorem C23_get_oracle_part (parts : List OracleDatabasePart) (partID : String) :
    (∀ part, GetOraclePart parts partID = Except.ok part →
      part.PartID = partID ∧
      ∃ i : Nat, parts[i]? = some part ∧
        ∀ j : Nat, j < i → ∀ p, parts[j]? = some p → p.PartID ≠ partID) ∧
    ((∃ p ∈ parts, p.PartID = partID) → ∃ part, GetOraclePart parts partID = Except.ok part) ∧
    (GetOraclePart parts partID = Except.error AdvancedError.AerrOracleDatabaseAgreementInvalidPartID ↔
      ∀ p ∈ parts, p.PartID ≠ partID) ∧
    (∀ err, GetOraclePart parts partID = Except.error err →
      err = AdvancedError.AerrOracleDatabaseAgreementInvalidPartID) := by
  induction parts with
  | nil =>
    refine ⟨?_, ?_, ?_, ?_⟩
    · intro part h
      simp [GetOraclePart] at h
    · rintro ⟨p, hp, _⟩
      simp at hp
    · simp [GetOraclePart]
    · intro err h
      simp only [GetOraclePart, Except.error.injEq] at h
      exact h.symm
  | cons x xs ih =>
    obtain ⟨ih1, ih2, ih3, ih4⟩ := ih
    by_cases hx : partID = x.PartID
    · have hget : GetOraclePart (x :: xs) partID = Except.ok x := by
        simp [GetOraclePart, hx]
      refine ⟨?_, fun _ => ⟨x, hget⟩, ?_, ?_⟩
      · intro part h
        rw [hget] at h
        cases h
        exact ⟨hx.symm, 0, by simp, fun j hj => absurd hj (Nat.not_lt_zero j)⟩
      · rw [hget]
        constructor
        · intro h
          cases h
        · intro h
          exact absurd hx.symm (h x (List.mem_cons_self _ _))
      · intro err h
        rw [hget] at h
        cases h
    · have hget : GetOraclePart (x :: xs) partID = GetOraclePart xs partID := by
        simp [GetOraclePart, hx]
      have hx2 : x.PartID ≠ partID := fun h => hx h.symm
      rw [hget]
      refine ⟨?_, ?_, ?_, ih4⟩
      · intro part h
        obtain ⟨hid, i, hi, hfirst⟩ := ih1 part h
        refine ⟨hid, i + 1, by simpa using hi, ?_⟩
        intro j hj p hp
        cases j with
        | zero =>
          simp only [List.getElem?_cons_zero, Option.some.injEq] at hp
          subst hp
          exact hx2
        | succ j =>
          simp only [List.getElem?_cons_succ] at hp
          exact hfirst j (by omega) p hp
      · rintro ⟨p, hp, hpid⟩
        rcases List.mem_cons.mp hp with h | h
        · subst h
          exact absurd hpid hx2
        · exact ih2 ⟨p, h, hpid⟩
      · rw [ih3]
        constructor
        · intro h p hp
          rcases List.mem_cons.mp hp with h1 | h1
          · subst h1
            exact hx2
          · exact h p h1
        · intro h p hp
          exact h p (List.mem_cons_of_mem _ hp)

/-- C28 (code at the failing input): when the service answers
`AerrHostNotFound`, `ArchiveHost` writes the 404 error response and then, for
want of a `return`, a second response with status 200 and body `null`. -/
theorem C28_archive_host_writes_twice :
    ArchiveHost false (fun _ => some AdvancedError.AerrHostNotFound) "h1" HttpRun.init =
      { writes := [ { statusCode := 404,
                      body := ResponseBody.errorResponse AdvancedError.AerrHostNotFound },
                    { statusCode := 200, body := ResponseBody.value "null" } ],
        serviceCalls := 1 } := by
  decide

/-- C29 (code at the failing input): the filters parse and the negotiation selects
`application/vnd.ercole.mongohostdata+json`, one of the four types offered; the
`switch` of `SearchHosts` has no case for it and nothing is written. -/
theorem C29_search_hosts_unhandled_type :
    "application/vnd.ercole.mongohostdata+json" ∈ searchHostsOffers ∧
    ∀ (handlers : SearchHandlers) (run : HttpRun),
      SearchHosts handlers none "application/vnd.ercole.mongohostdata+json" run = run := by
  refine ⟨by decide, ?_⟩
  intro handlers run
  simp [SearchHosts]

/-- C25 (code at the failing input): on the catalog of three entries the
comparison returned by `licenseTypesSorter` holds of index 0 with itself, and it
holds of the indices 0 and 2 in both directions. -/
theorem C25_less_is_reflexive :
    licenseTypesSorter sortEnv "PROD" [namedUserFirst, processorType, namedUserSecond] 0 0 = some true ∧
    licenseTypesSorter sortEnv "PROD" [namedUserFirst, processorType, namedUserSecond] 0 2 = some true ∧
    licenseTypesSorter sortEnv "PROD" [namedUserFirst, processorType, namedUserSecond] 2 0 = some true := by
  decide

/-- C27: `setLicenseTypeIDs` leaves Name, DbID, Role and Status of the database
as they are, keeps the number and the order of the licenses, and keeps Name and
Count of every license. -/
theorem C27_only_type_ids_change {F : Type} (licenseTypes : List OracleDatabaseLicenseType)
    (database : OracleDatabase F) :
    (setLicenseTypeIDs licenseTypes database).Name = database.Name ∧
    (setLicenseTypeIDs licenseTypes database).DbID = database.DbID ∧
    (setLicenseTypeIDs licenseTypes database).Role = database.Role ∧
    (setLicenseTypeIDs licenseTypes database).Status = database.Status ∧
    (setLicenseTypeIDs licenseTypes database).Licenses.length = database.Licenses.length ∧
    (setLicenseTypeIDs licenseTypes database).Licenses.map (fun l => (l.Name, l.Count)) =
      database.Licenses.map (fun l => (l.Name, l.Count)) := by
  refine ⟨rfl, rfl, rfl, rfl, by simp [setLicenseTypeIDs], ?_⟩
  simp only [setLicenseTypeIDs, List.map_map]
  apply List.map_congr_left
  intro l _
  simp only [Function.comp, setLicenseTypeID]
  cases findLicenseTypeID licenseTypes l.Name <;> rfl

/-- C26: with the same primary licenses and the same inherited count, the license
update applied to its own result gives that result again; and a second call of
`addLicensesToSecondaryDb` on the updated database, with the same fleet listing
and the same core factor, returns the updated database unchanged. -/
theorem C26_inheritance_idempotent {F : Type} (env : Env F) (hostInfo : Host)
    (secondaryDb primaryDb : OracleDatabase F) (dbs : List (OracleDatabase F)) (w w1 w2 w3 : World)
    (hfetch : getPrimaryOpenOracleDatabases env w = Exec.ok (some dbs, w1))
    (hfind : findPrimaryDb dbs secondaryDb = some primaryDb)
    (hagain : getPrimaryOpenOracleDatabases env w2 = Exec.ok (some dbs, w3)) :
    (∀ (count : F) (primary ls : List (OracleDatabaseLicense F)),
      primaryDbLicensesCycle env count primary (primaryDbLicensesCycle env count primary ls) =
        primaryDbLicensesCycle env count primary ls) ∧
    ∃ db1 : OracleDatabase F,
      addLicensesToSecondaryDb env hostInfo secondaryDb w = Exec.ok (db1, w1) ∧
      (env.CoreFactor db1 hostInfo = env.CoreFactor secondaryDb hostInfo →
        addLicensesToSecondaryDb env hostInfo db1 w2 = Exec.ok (db1, w3)) := by
  refine ⟨primaryDbLicensesCycle_idem env, _,
    addLicensesToSecondaryDb_found env hostInfo secondaryDb primaryDb dbs w w1 hfetch hfind, ?_⟩
  intro hcf
  have hfind2 : findPrimaryDb dbs
      { secondaryDb with
        Licenses := primaryDbLicensesCycle env (inheritedCount env hostInfo secondaryDb)
          primaryDb.Licenses secondaryDb.Licenses } = some primaryDb := hfind
  rw [addLicensesToSecondaryDb_found env hostInfo _ primaryDb dbs w2 w3 hagain hfind2]
  have hcount : inheritedCount env hostInfo
      { secondaryDb with
        Licenses := primaryDbLicensesCycle env (inheritedCount env hostInfo secondaryDb)
          primaryDb.Licenses secondaryDb.Licenses } = inheritedCount env hostInfo secondaryDb := by
    exact congrArg (env.mul (env.ofInt hostInfo.CPUCores)) hcf
  simp only [hcount, primaryDbLicensesCycle_idem]

/-- Witness of C26 on the sample data: the standby of `D1` updated twice. -/
theorem C26_inheritance_idempotent_witness :
    addLicensesToSecondaryDb sampleEnv sampleHost sampleStandby World.init
      = Exec.ok (inheritedStandby, World.fetched) ∧
    addLicensesToSecondaryDb sampleEnv sampleHost inheritedStandby World.init
      = Exec.ok (inheritedStandby, World.fetched) := by
  obtain ⟨_, db1, h1, h2⟩ :=
    C26_inheritance_idempotent sampleEnv sampleHost sampleStandby samplePrimary [samplePrimary]
      World.init World.fetched World.init World.fetched (by decide) (by decide) (by decide)
  have hdb : db1 = inheritedStandby := by
    have h : addLicensesToSecondaryDb sampleEnv sampleHost sampleStandby World.init =
        Exec.ok (inheritedStandby, World.fetched) := by decide
    rw [h] at h1
    cases h1
    rfl
  subst hdb
  exact ⟨h1, h2 rfl⟩

/-- C22 (code at the failing input): both databases are secondary; the first has
no primary in the fleet listing and the alert client works, so the run is
aborted in `addLicensesToSecondaryDb` and the second database, whose primary is
listed, is never looked up and keeps its licenses, while alone it inherits them. -/
theorem C22_abort_skips_later_secondary :
    isSecondaryDb orphanStandby = true ∧ isSecondaryDb sampleStandby = true ∧
    checkSecondaryDbs sampleEnv sampleHost [orphanStandby, sampleStandby] World.init =
      Exec.abort Abort.nilPointerDereference ([orphanStandby, sampleStandby], World.orphanAlerted) ∧
    checkSecondaryDbs sampleEnv sampleHost [sampleStandby] World.init =
      Exec.ok ([inheritedStandby], World.fetched) := by
  decide

/-- C24 (as stated, refuted): a run of `oracleDatabasesChecks` on a snapshot with
two secondary databases returns after two requests for the fleet listing (and one
for the catalog). -/
theorem C24_counterexample :
    (oracleDatabasesChecks fleetEnv firstSnapshot twoStandbySnapshot World.init).returned = true ∧
    (oracleDatabasesChecks fleetEnv firstSnapshot twoStandbySnapshot World.init).state.2.dbFetches = 2 ∧
    (oracleDatabasesChecks fleetEnv firstSnapshot twoStandbySnapshot World.init).state.2.ltFetches = 1 := by
  decide

/-- C24 (amended): a run of `oracleDatabasesChecks` on a snapshot with database
section and database slice, whose check of the secondary databases returns, makes
exactly one request for the license type catalog and one request for the fleet
listing for each secondary database of the snapshot; without section or with a
nil slice it makes no request. -/
theorem C24_requests_per_run {F : Type} (env : Env F) (previousHostdata hostdata : HostDataBE F)
    (w : World) :
    (∀ (feature : OracleDatabaseFeature F) (dbs dbs1 : List (OracleDatabase F)) (w1 : World),
      hostdata.Database = some feature → feature.Databases = some dbs →
      checkSecondaryDbs env hostdata.Info dbs w = Exec.ok (dbs1, w1) →
      ∃ (hostdata2 : HostDataBE F) (wf : World),
        oracleDatabasesChecks env previousHostdata hostdata w = Exec.ok (hostdata2, wf) ∧
        wf.ltFetches = w.ltFetches + 1 ∧
        wf.dbFetches = w.dbFetches + (dbs.filter isSecondaryDb).length) ∧
    ((hostdata.Database = none ∨
        ∃ feature, hostdata.Database = some feature ∧ feature.Databases = none) →
      oracleDatabasesChecks env previousHostdata hostdata w = Exec.ok (hostdata, w)) := by
  constructor
  · intro feature dbs dbs1 w1 hdb hdbs hsec
    obtain ⟨h1, h2⟩ := checkSecondaryDbs_fetches env hostdata.Info dbs dbs1 w w1 hsec
    refine ⟨_, _,
      oracleDatabasesChecks_of_ok env previousHostdata hostdata w feature dbs dbs1 w1 hdb hdbs hsec,
      ?_, ?_⟩
    · rw [unlistedRunningLoop_eq, checkNewLicenses_eq, setLicenseTypes_world]
      simp only [h2]
    · rw [unlistedRunningLoop_eq, checkNewLicenses_eq, setLicenseTypes_world]
      simp only [h1]
  · rintro (hnone | ⟨feature, hdb, hdbs⟩)
    · simp only [oracleDatabasesChecks, hnone]
    · simp only [oracleDatabasesChecks, hdb, hdbs]

/-- Witness of C24 (amended): two secondary databases, two requests for the fleet
listing, one for the catalog. -/
theorem C24_requests_per_run_witness :
    checkSecondaryDbs fleetEnv twoStandbySnapshot.Info [sampleStandby, secondStandby] World.init =
      Exec.ok ([inheritedStandby, secondInherited], World.fetchedTwice) ∧
    ∃ (hostdata2 : HostDataBE Int) (wf : World),
      oracleDatabasesChecks fleetEnv firstSnapshot twoStandbySnapshot World.init =
        Exec.ok (hostdata2, wf) ∧
      wf.ltFetches = World.init.ltFetches + 1 ∧
      wf.dbFetches = World.init.dbFetches + ([sampleStandby, secondStandby].filter isSecondaryDb).length :=
  ⟨by decide,
    (C24_requests_per_run fleetEnv firstSnapshot twoStandbySnapshot World.init).1
      { Databases := some [sampleStandby, secondStandby], UnlistedRunningDatabases := [] }
      [sampleStandby, secondStandby] [inheritedStandby, secondInherited] World.fetchedTwice
      rfl rfl (by decide)⟩

/-- C21: take two runs of `checkNewLicenses` on the same snapshots that differ only
in the order in which the range visits the entries of the database map, in the
order in which the diff lists its entries, and in the answers of the alert
client. The alerts they submit are the same up to their order and up to the order
of the license list inside an alert. -/
theorem C21_order_independent {F : Type} (env : Env F)
    (rangeDbs2 : List (String × OracleDatabase F) → List (String × OracleDatabase F))
    (DiffLicenses2 : List (OracleDatabaseLicense F) → List (OracleDatabaseLicense F) →
      List (String × Int))
    (throwFails2 : List Alert → Alert → Bool)
    (previous current : HostDataBE F) (w : World)
    (hr1 : (env.rangeDbs (snapshotDbs current)).Perm (snapshotDbs current))
    (hr2 : (rangeDbs2 (snapshotDbs current)).Perm (snapshotDbs current))
    (hd : ∀ old new, (DiffLicenses2 old new).Perm (env.DiffLicenses old new)) :
    ∃ added1 added2 : List Alert,
      (checkNewLicenses env previous current w).alerts = w.alerts ++ added1 ∧
      (checkNewLicenses
          { env with rangeDbs := rangeDbs2, DiffLicenses := DiffLicenses2, throwFails := throwFails2 }
          previous current w).alerts = w.alerts ++ added2 ∧
      (added1.map alertKey).Perm (added2.map alertKey) := by
  refine ⟨_, _, by rw [checkNewLicenses_eq], by rw [checkNewLicenses_eq], ?_⟩
  have hv : (visitedDbs env current).Perm
      (visitedDbs { env with rangeDbs := rangeDbs2, DiffLicenses := DiffLicenses2,
                             throwFails := throwFails2 } current) := by
    unfold visitedDbs
    exact (hr1.trans hr2.symm).map _
  have hkeys : ∀ newDb : OracleDatabase F,
      (perDbAlerts { env with rangeDbs := rangeDbs2, DiffLicenses := DiffLicenses2,
                              throwFails := throwFails2 }
        (snapshotDbs previous) current.Hostname newDb).map alertKey =
      (perDbAlerts env (snapshotDbs previous) current.Hostname newDb).map alertKey := by
    intro newDb
    apply perDbAlerts_alertKey
    exact activatedLicensesOf_perm env _ _ _ rfl (hd _ _)
  have hany := any_eq_of_perm
    (fun newDb => enterpriseCondition env previous.Info.CPUCores current.Info.CPUCores
      (oldDbOf (snapshotDbs previous) newDb) newDb) _ _ hv
  refine ((loopAlerts_perm env _ _ _ _ false _).map alertKey).trans ?_
  refine List.Perm.trans ?_ ((loopAlerts_perm _ _ _ _ _ false _).map alertKey).symm
  simp only [List.map_append, List.map_flatMap]
  refine List.Perm.append ?_ ?_
  · have hcond : ∀ newDb : OracleDatabase F,
        enterpriseCondition { env with rangeDbs := rangeDbs2, DiffLicenses := DiffLicenses2,
                                       throwFails := throwFails2 }
          previous.Info.CPUCores current.Info.CPUCores (oldDbOf (snapshotDbs previous) newDb) newDb =
        enterpriseCondition env previous.Info.CPUCores current.Info.CPUCores
          (oldDbOf (snapshotDbs previous) newDb) newDb := fun _ => rfl
    simp only [hcond, hany]
    exact List.Perm.refl _
  · rw [List.flatMap_congr (fun newDb _ => hkeys newDb)]
    exact List.Perm.flatMap_right _ hv

/-- Witness of C21: the sample run against the run that visits the map and lists
the diff in reverse order, with a failing alert client. -/
theorem C21_order_independent_witness :
    ∃ added1 added2 : List Alert,
      (checkNewLicenses specEnv previousSnapshot enterpriseSnapshot World.init).alerts
        = World.init.alerts ++ added1 ∧
      (checkNewLicenses reversedEnv previousSnapshot enterpriseSnapshot World.init).alerts
        = World.init.alerts ++ added2 ∧
      (added1.map alertKey).Perm (added2.map alertKey) :=
  C21_order_independent specEnv (fun m => m.reverse)
    (fun old new => (specEnv.DiffLicenses old new).reverse) (fun _ _ => true)
    previousSnapshot enterpriseSnapshot World.init
    (List.Perm.refl _) (List.reverse_perm _) (fun _ _ => List.reverse_perm _)

end Ercole
